import Mathlib

/-!
# Skins and capes service: texture derivation and artifact cache

A shallow embedding of `GoServices/SkinsCapesService/main.go`.  The handlers of
the Go service become functions from a service state (database rows, Redis
keyspace, files on disk, effect log) to a response and a new state.  Library
code the service calls is embedded from its documented behaviour
(`strconv.Atoi`, `strings.ReplaceAll`, `path/filepath`, `image/draw`, the Redis
`KEYS` glob); the PNG codec, the MD5 digest and the floating-point index choice
of the resize library are parameters (`Lib`).
-/

namespace SkinsCapes

/-! ## Strings (`strings`, `strconv`, `fmt`) -/

/-- The call `strings.ReplaceAll(uuid, "-", "")`: every hyphen is dropped. -/
def stripHyphens (uuid : String) : String :=
  ⟨uuid.data.filter (fun c => c ≠ '-')⟩

/-- The call `strings.HasPrefix(s, p)`. -/
def HasPrefix (s p : String) : Bool :=
  p.data.isPrefixOf s.data

/-- Value of a decimal digit, `none` for any other character. -/
def digitVal (c : Char) : Option Nat :=
  if 48 ≤ c.toNat ∧ c.toNat ≤ 57 then some (c.toNat - 48) else none

/-- Reads a run of decimal digits, most significant first. -/
def parseDigits : List Char → Nat → Option Nat
  | [], acc => some acc
  | c :: cs, acc =>
    match digitVal c with
    | none => none
    | some d => parseDigits cs (acc * 10 + d)

/-- The call `strconv.Atoi(s)` on a 64-bit platform: an optional sign, then at
least one decimal digit and nothing else; `none` stands for a non-nil error
(syntax error or value out of the `int` range). -/
def Atoi (s : String) : Option Int :=
  match s.data with
  | [] => none
  | '-' :: ds =>
    if ds = [] then none
    else match parseDigits ds 0 with
      | none => none
      | some n => if n ≤ 2 ^ 63 then some (-(n : Int)) else none
  | '+' :: ds =>
    if ds = [] then none
    else match parseDigits ds 0 with
      | none => none
      | some n => if n < 2 ^ 63 then some (n : Int) else none
  | ds =>
    match parseDigits ds 0 with
    | none => none
    | some n => if n < 2 ^ 63 then some (n : Int) else none

/-- The verb `%d` of `fmt.Sprintf` applied to an `int`. -/
def fmtInt (n : Int) : String :=
  toString n

/-! ## Paths (`path/filepath`, Unix) -/

/-- Splits a path at every slash (empty components are kept). -/
def splitSlash : List Char → List (List Char)
  | [] => [[]]
  | c :: cs =>
    if c = '/' then [] :: splitSlash cs
    else match splitSlash cs with
      | [] => [[c]]
      | w :: ws => (c :: w) :: ws

/-- One step of `filepath.Clean` over the stack of components kept so far (the
stack is in reverse order): empty and `.` components are dropped, `..` removes
the component before it, is dropped at the root and is kept otherwise. -/
def cleanStep (rooted : Bool) (stack : List (List Char)) (comp : List Char) :
    List (List Char) :=
  if comp = [] ∨ comp = ['.'] then stack
  else if comp = ['.', '.'] then
    match stack with
    | [] => if rooted then [] else [comp]
    | top :: rest => if top = ['.', '.'] then comp :: stack else rest
  else comp :: stack

/-- Joins components with a slash. -/
def joinSlash : List (List Char) → List Char
  | [] => []
  | [w] => w
  | w :: ws => w ++ '/' :: joinSlash ws

/-- The function `filepath.Clean`. -/
def filepath.Clean (path : String) : String :=
  let rooted := path.data.head? = some '/'
  let comps := ((splitSlash path.data).foldl (cleanStep rooted) []).reverse
  let body := joinSlash comps
  if rooted then ⟨'/' :: body⟩ else if body = [] then "." else ⟨body⟩

/-- The function `filepath.Join`: leading empty elements are ignored, the rest
is joined with slashes and cleaned; no element at all gives the empty string. -/
def filepath.Join (elem : List String) : String :=
  match elem.dropWhile (fun e => e = "") with
  | [] => ""
  | es => filepath.Clean ⟨joinSlash (es.map String.data)⟩

/-! ## Redis glob patterns (`KEYS pattern`) -/

/-- One element of a glob pattern. -/
inductive GlobTok where
  | star
  | any
  | lit (c : Char)
  | cls (neg : Bool) (items : List (Char × Char))
deriving DecidableEq, Repr

/-- Reads a glob pattern.  `cur = some (neg, items)` while inside a bracket
class.  A backslash takes the next character literally; `a-z` inside a class is
a range (its ends in either order); a class that is never closed ends with the
pattern. -/
def globToks : Option (Bool × List (Char × Char)) → List Char → List GlobTok
  | none, [] => []
  | none, '*' :: p => GlobTok.star :: globToks none p
  | none, '?' :: p => GlobTok.any :: globToks none p
  | none, '[' :: '^' :: p => globToks (some (true, [])) p
  | none, '[' :: p => globToks (some (false, [])) p
  | none, '\\' :: c :: p => GlobTok.lit c :: globToks none p
  | none, c :: p => GlobTok.lit c :: globToks none p
  | some (neg, items), [] => [GlobTok.cls neg items]
  | some (neg, items), '\\' :: c :: p => globToks (some (neg, items ++ [(c, c)])) p
  | some (neg, items), ']' :: p => GlobTok.cls neg items :: globToks none p
  | some (neg, items), c :: '-' :: e :: p =>
    globToks (some (neg, items ++ [(if c ≤ e then (c, e) else (e, c))])) p
  | some (neg, items), c :: p => globToks (some (neg, items ++ [(c, c)])) p

/-- Tries a continuation at every suffix of the string, the longest first. -/
def anySuffix (k : List Char → Bool) : List Char → Bool
  | [] => k []
  | c :: s => k (c :: s) || anySuffix k s

/-- Whether a class of ranges holds the character. -/
def inClass (items : List (Char × Char)) (c : Char) : Bool :=
  items.any (fun it => decide (it.1 ≤ c ∧ c ≤ it.2))

/-- Matches a tokenised pattern against a whole string. -/
def matchToks : List GlobTok → List Char → Bool
  | [], s => s.isEmpty
  | GlobTok.star :: p, s => anySuffix (matchToks p) s
  | GlobTok.any :: p, _ :: s => matchToks p s
  | GlobTok.any :: _, [] => false
  | GlobTok.lit c :: p, d :: s => decide (c = d) && matchToks p s
  | GlobTok.lit _ :: _, [] => false
  | GlobTok.cls neg items :: p, d :: s => (inClass items d != neg) && matchToks p s
  | GlobTok.cls _ _ :: _, [] => false

/-- Glob match as used by the Redis `KEYS` command, for a non-empty key; the
pattern and the key are read character by character. -/
def globMatch (pattern key : String) : Bool :=
  matchToks (globToks none pattern.data) key.data

/-! ## Colours and bitmaps (`image`, `image/color`, `image/draw`) -/

/-- An 8-bit sample (`uint8`). -/
abbrev Byte := Fin 256

/-- The conversion `uint8(n)`. -/
def u8 (n : Nat) : Byte :=
  ⟨n % 256, Nat.mod_lt n (by decide)⟩

/-- Arithmetic in `uint32` wraps. -/
def u32 (n : Nat) : Nat :=
  n % 2 ^ 32

/-- A `color.NRGBA`: 8-bit samples, colour not multiplied by alpha.  This is
the form in which a PNG stores a pixel and in which `png.Decode` hands it out. -/
structure NRGBA where
  R : Byte
  G : Byte
  B : Byte
  A : Byte
deriving DecidableEq, Repr

/-- A `color.RGBA`: 8-bit samples, colour multiplied by alpha. -/
structure RGBA where
  R : Byte
  G : Byte
  B : Byte
  A : Byte
deriving DecidableEq, Repr

instance : Inhabited NRGBA := ⟨⟨0, 0, 0, 0⟩⟩

instance : Inhabited RGBA := ⟨⟨0, 0, 0, 0⟩⟩

/-- The method `color.NRGBA.RGBA()`: the 16-bit alpha-premultiplied value of
the colour. -/
def NRGBA.RGBA16 (c : NRGBA) : Nat × Nat × Nat × Nat :=
  (c.R.val * 0x101 * c.A.val / 0xff, c.G.val * 0x101 * c.A.val / 0xff,
    c.B.val * 0x101 * c.A.val / 0xff, c.A.val * 0x101)

/-- The method `color.RGBA.RGBA()`. -/
def RGBA.RGBA16 (c : RGBA) : Nat × Nat × Nat × Nat :=
  (c.R.val * 0x101, c.G.val * 0x101, c.B.val * 0x101, c.A.val * 0x101)

/-- What `draw.Draw` with `draw.Src` stores in an `*image.RGBA` for a pixel of
an `*image.NRGBA` source (`drawNRGBASrc`): the colour is multiplied by alpha
and cut back to 8 bits. -/
def NRGBA.toRGBA (s : NRGBA) : RGBA :=
  let sa := s.A.val * 0x101
  let sr := s.R.val * sa / 0xff
  let sg := s.G.val * sa / 0xff
  let sb := s.B.val * sa / 0xff
  ⟨u8 (sr >>> 8), u8 (sg >>> 8), u8 (sb >>> 8), u8 (sa >>> 8)⟩

/-- A bitmap whose bounds are `(0,0)-(Dx,Dy)`; `Pix x y` is read inside the
bounds only. -/
structure Image (C : Type) where
  Dx : Nat
  Dy : Nat
  Pix : Nat → Nat → C

/-- The method `At`: the zero colour outside the bounds. -/
def Image.At {C : Type} [Inhabited C] (img : Image C) (x y : Nat) : C :=
  if x < img.Dx ∧ y < img.Dy then img.Pix x y else default

/-- The call `image.NewRGBA(image.Rect(0, 0, w, h))`: all samples zero. -/
def image.NewRGBA (w h : Nat) : Image RGBA :=
  ⟨w, h, fun _ _ => default⟩

/-- The call `draw.Draw(dst, dst.Bounds(), src, sp, draw.Src)` for an NRGBA
source: the rectangle is clipped to the source, so a destination pixel whose
source point lies outside the source keeps its value. -/
def draw.Draw (dst : Image RGBA) (src : Image NRGBA) (sp : Nat × Nat) : Image RGBA :=
  { dst with
    Pix := fun x y =>
      if x < dst.Dx ∧ y < dst.Dy ∧ sp.1 + x < src.Dx ∧ sp.2 + y < src.Dy then
        (src.Pix (sp.1 + x) (sp.2 + y)).toRGBA
      else dst.Pix x y }

/-- One pixel of `draw.DrawMask(dst, r, src, sp, mask, mp, draw.Over)` for an
`*image.RGBA` destination and a mask that is not an `*image.Alpha` (the general
loop `drawRGBA`): `d` is the destination pixel, `s` the source pixel, `mk` the
mask pixel, `m = 0xffff`. -/
def drawMaskOverPixel (d s mk : RGBA) : RGBA :=
  let m := 0xffff
  let ma := mk.A.val * 0x101
  let sr := s.R.val * 0x101
  let sg := s.G.val * 0x101
  let sb := s.B.val * 0x101
  let sa := s.A.val * 0x101
  let a := u32 ((m - u32 (sa * ma) / m) * 0x101)
  ⟨u8 ((u32 (d.R.val * a + sr * ma) / m) >>> 8),
   u8 ((u32 (d.G.val * a + sg * ma) / m) >>> 8),
   u8 ((u32 (d.B.val * a + sb * ma) / m) >>> 8),
   u8 ((u32 (d.A.val * a + sa * ma) / m) >>> 8)⟩

/-- The call `draw.DrawMask(dst, dst.Bounds(), src, image.Point{}, mask,
image.Point{}, draw.Over)`, clipped to the source and the mask. -/
def draw.DrawMask (dst src mask : Image RGBA) : Image RGBA :=
  { dst with
    Pix := fun x y =>
      if x < dst.Dx ∧ y < dst.Dy ∧ x < src.Dx ∧ y < src.Dy ∧ x < mask.Dx ∧ y < mask.Dy then
        drawMaskOverPixel (dst.Pix x y) (src.Pix x y) (mask.Pix x y)
      else dst.Pix x y }

/-! ## Library parameters -/

/-- Library functions the service calls and this development does not open:
`png.Decode` (`none` for an error), `png.Encode`, the hexadecimal MD5 digest
(`fmt.Sprintf("%x", hash.Sum(nil))`), and the source coordinate that the
nearest-neighbour kernel of `github.com/nfnt/resize` reads for a destination
coordinate: `nearest n size i` when `n` source pixels are scaled up to `size`.
That coordinate is computed in floating point, so which of two equally near
source pixels it is depends on rounding. -/
structure Lib where
  pngDecode : List Nat → Option (Image NRGBA)
  pngEncode : Image RGBA → List Nat
  md5Hex : List Nat → String
  nearest : Nat → Nat → Nat → Nat

/-- The library picks a nearest source pixel: the centre of destination pixel
`i`, mapped into the source, lies within pixel `nearest n size i` or on its
edge. -/
def Lib.NearestNeighbour (lib : Lib) : Prop :=
  ∀ n size i, i < size →
    lib.nearest n size i * (2 * size) ≤ n * (2 * i + 1) ∧
    n * (2 * i + 1) ≤ (lib.nearest n size i + 1) * (2 * size)

/-- The call `resize.Resize(width, height, img, resize.NearestNeighbor)` for
`width` and `height` not below the extent of `img` (one source pixel per
destination pixel; the index is clamped to the source as the library does).
An image that already has the size asked for is returned as it is. -/
def resize.Resize (lib : Lib) (width height : Nat) (img : Image RGBA) : Image RGBA :=
  if width = img.Dx ∧ height = img.Dy then img
  else if img.Dx = 0 ∨ img.Dy = 0 then img
  else
    ⟨width, height, fun x y =>
      if x < width ∧ y < height then
        img.Pix (min (lib.nearest img.Dx width x) (img.Dx - 1))
          (min (lib.nearest img.Dy height y) (img.Dy - 1))
      else default⟩

/-! ## Derivation recipes -/

/-- The bitmap `generateAvatar` encodes: the 8x8 region at (8,8) of the skin,
drawn into a fresh RGBA image and scaled to `size`. -/
def avatarImage (lib : Lib) (skinImg : Image NRGBA) (size : Nat) : Image RGBA :=
  let headImg := image.NewRGBA 8 8
  let headImg := draw.Draw headImg skinImg (8, 8)
  resize.Resize lib size size headImg

/-- The 8x8 bitmap `generateHead` scales: the front of the head and, when the
skin is at least 64x64, the overlay region at (40,8) drawn over it with the
overlay as its own mask. -/
def headComposite (skinImg : Image NRGBA) : Image RGBA :=
  let headImg := image.NewRGBA 8 8
  let headImg := draw.Draw headImg skinImg (8, 8)
  if skinImg.Dx ≥ 64 ∧ skinImg.Dy ≥ 64 then
    let overlayImg := image.NewRGBA 8 8
    let overlayImg := draw.Draw overlayImg skinImg (40, 8)
    draw.DrawMask headImg overlayImg overlayImg
  else headImg

/-- The bitmap `generateHead` encodes. -/
def headImage (lib : Lib) (skinImg : Image NRGBA) (size : Nat) : Image RGBA :=
  resize.Resize lib size size (headComposite skinImg)

/-- The bitmap drawn by `serveDefaultAvatar`: every pixel is set to
`color.RGBA{128, 128, 128, 255}`. -/
def defaultAvatarImage (size : Nat) : Image RGBA :=
  ⟨size, size, fun x y => if x < size ∧ y < size then ⟨128, 128, 128, 255⟩ else default⟩

/-- The bitmap drawn by `serveDefaultHead`: every pixel is set to
`color.RGBA{139, 69, 19, 255}`. -/
def defaultHeadImage (size : Nat) : Image RGBA :=
  ⟨size, size, fun x y => if x < size ∧ y < size then ⟨139, 69, 19, 255⟩ else default⟩

/-! ## Service state -/

/-- A row of the table behind `UserSkin` (the time stamps are left out). -/
structure UserSkin where
  ID : Nat
  UserUUID : String
  SkinURL : String
  CapeURL : String
  SkinHash : String
  CapeHash : String
  IsSlim : Bool
deriving DecidableEq, Repr

/-- Whether a row fits the columns that `AutoMigrate` creates from the tags of
`UserSkin`: `size:36` for `user_uuid`, `size:500` for the two locations and
`size:32` for the two hashes.  The database refuses a row that does not. -/
def UserSkin.fits (r : UserSkin) : Bool :=
  decide (r.UserUUID.length ≤ 36 ∧ r.SkinURL.length ≤ 500 ∧ r.CapeURL.length ≤ 500 ∧
    r.SkinHash.length ≤ 32 ∧ r.CapeHash.length ≤ 32)

/-- The Redis database behind a client: its keys and values (`store` holds the
keys that have not expired), whether the server answers (a command sent to a
server that does not answer returns an error), the time at which each key
expires, and the server's clock, both in seconds. -/
structure Redis where
  store : List (String × String)
  alive : Bool
  deadlines : List (String × Nat)
  now : Nat
deriving DecidableEq, Repr

/-- The command `GET key`; `none` is a non-nil error (missing key or no answer). -/
def Redis.Get (r : Redis) (key : String) : Option String :=
  if r.alive then r.store.lookup key else none

/-- The command `SET key value` with an expiration in seconds: the key expires
that long after the command. -/
def Redis.Set (r : Redis) (key value : String) (expiration : Nat) : Redis :=
  if r.alive then
    { r with
      store := (key, value) :: r.store.filter (fun e => e.1 ≠ key),
      deadlines := (key, r.now + expiration) :: r.deadlines.filter (fun e => e.1 ≠ key) }
  else r

/-- The command `KEYS pattern`; `none` is a non-nil error. -/
def Redis.Keys (r : Redis) (pattern : String) : Option (List String) :=
  if r.alive then some ((r.store.map Prod.fst).filter (globMatch pattern)) else none

/-- The command `DEL keys...`. -/
def Redis.Del (r : Redis) (keys : List String) : Redis :=
  if r.alive then
    { r with
      store := r.store.filter (fun e => e.1 ∉ keys),
      deadlines := r.deadlines.filter (fun e => e.1 ∉ keys) }
  else r

/-- The passing of `seconds` seconds on the server: every key whose time has
come is removed. -/
def Redis.Elapse (r : Redis) (seconds : Nat) : Redis :=
  { r with
    now := r.now + seconds,
    store := r.store.filter (fun e =>
      decide (∀ d ∈ r.deadlines, d.1 = e.1 → r.now + seconds < d.2)),
    deadlines := r.deadlines.filter (fun d => decide (r.now + seconds < d.2)) }

/-- What a handler did, in order. -/
inductive Effect where
  | redisGet (key : String)
  | redisSet (key value : String)
  | redisKeys (pattern : String)
  | redisDel (keys : List String)
  | dbFirst (uuid : String)
  | dbCreate (row : UserSkin)
  | dbSave (row : UserSkin)
  | dbDelete (row : UserSkin)
  | fsOpen (path : String)
  | fsCreate (path : String)
  | fsRemove (path : String)
  | fsReadDir (dir : String)
  | serveFile (path : String)
  | pngDecode
  | pngEncode
deriving DecidableEq, Repr

/-- The service and the world it acts on: the fields of the Go struct (`DB` as
the rows of the table, `RedisClient` as `none` for nil), the next
auto-increment key, the files on disk by cleaned path, the paths at which
`os.Create` fails, and the log of effects so far. -/
structure SkinCapeService where
  DB : List UserSkin
  nextID : Nat
  RedisClient : Option Redis
  StoragePath : String
  disk : List (String × List Nat)
  unwritable : List String
  log : List Effect
deriving DecidableEq, Repr

/-- What a handler writes to the client. -/
inductive Response where
  | json (status : Nat) (body : List (String × String))
  | png (body : List Nat)
  | file (path : String)
deriving DecidableEq, Repr

namespace SkinCapeService

/-- Appends an effect to the log. -/
def emit (s : SkinCapeService) (e : Effect) : SkinCapeService :=
  { s with log := s.log ++ [e] }

/-- The query `s.DB.Where("user_uuid = ?", uuid).First(&userSkin)`; `none` is a
non-nil error (no such row).  Rows are kept in key order and `user_uuid` is
compared as a string, character by character: the comparison of a binary
collation, which is what PostgreSQL does.  (Under the default collations of
SqlServer and MySQL, values that differ in letter case compare equal.) -/
def First (s : SkinCapeService) (uuid : String) : Option UserSkin × SkinCapeService :=
  (s.DB.find? (fun r => decide (r.UserUUID = uuid)), s.emit (Effect.dbFirst uuid))

/-- The call `s.DB.Create(&userSkin)`, whose result the handlers do not look
at: the row gets the next key and is inserted, unless the database refuses it
because it does not fit its columns or because `user_uuid`, which has a unique
index, is already there. -/
def Create (s : SkinCapeService) (row : UserSkin) : SkinCapeService :=
  let row := { row with ID := s.nextID }
  let accepted := row.fits = true ∧ ∀ r ∈ s.DB, r.UserUUID ≠ row.UserUUID
  { s with
    DB := if accepted then s.DB ++ [row] else s.DB,
    nextID := if accepted then s.nextID + 1 else s.nextID,
    log := s.log ++ [Effect.dbCreate row] }

/-- The call `s.DB.Save(&userSkin)` for a row read from the table, whose result
the handlers do not look at: the row is written over the one with its key,
unless the database refuses it because it does not fit its columns. -/
def Save (s : SkinCapeService) (row : UserSkin) : SkinCapeService :=
  { s with
    DB := if row.fits = true then s.DB.map (fun r => if r.ID = row.ID then row else r) else s.DB,
    log := s.log ++ [Effect.dbSave row] }

/-- The call `s.DB.Delete(&userSkin)`. -/
def Delete (s : SkinCapeService) (row : UserSkin) : SkinCapeService :=
  { s with
    DB := s.DB.filter (fun r => decide (r.ID ≠ row.ID)),
    log := s.log ++ [Effect.dbDelete row] }

/-- The bytes of the file at a path, if there is one. -/
def readFile (s : SkinCapeService) (path : String) : Option (List Nat) :=
  s.disk.lookup path

/-- The call `os.Open(path)` followed by reading the file. -/
def Open (s : SkinCapeService) (path : String) : Option (List Nat) × SkinCapeService :=
  (s.readFile path, s.emit (Effect.fsOpen path))

/-- The call `os.Create(path)` followed by writing `data`: `none` when the file
cannot be created. -/
def CreateFile (s : SkinCapeService) (path : String) (data : List Nat) :
    Option SkinCapeService :=
  if path ∈ s.unwritable then none
  else some
    { s with
      disk := (path, data) :: s.disk.filter (fun e => decide (e.1 ≠ path)),
      log := s.log ++ [Effect.fsCreate path] }

/-- The call `os.Remove(path)`. -/
def Remove (s : SkinCapeService) (path : String) : SkinCapeService :=
  { s with
    disk := s.disk.filter (fun e => decide (e.1 ≠ path)),
    log := s.log ++ [Effect.fsRemove path] }

/-- Name of the directory entry of `dir` that a path denotes, if it lies
directly in `dir`. -/
def entryName (dir path : String) : Option String :=
  let pre := dir.data ++ ['/']
  if pre.isPrefixOf path.data then
    let name := path.data.drop pre.length
    if name ≠ [] ∧ '/' ∉ name then some ⟨name⟩ else none
  else none

/-- The call `os.ReadDir(dir)`: the names of the files in the directory. -/
def ReadDir (s : SkinCapeService) (dir : String) : List String :=
  s.disk.filterMap (fun e => entryName dir e.1)

/-- The bytes a client receives for a response: `c.File` serves the file at the
path, if there is one. -/
def served (s : SkinCapeService) : Response → Option (List Nat)
  | Response.json _ _ => none
  | Response.png body => some body
  | Response.file path => s.readFile path

/-- The guarded cache read of the render handlers: nothing happens when
`RedisClient` is nil. -/
def cacheGet (s : SkinCapeService) (cacheKey : String) : Option String × SkinCapeService :=
  match s.RedisClient with
  | none => (none, s)
  | some r => (r.Get cacheKey, s.emit (Effect.redisGet cacheKey))

/-- The guarded cache write of the render handlers, with the expiration
`time.Hour`. -/
def cacheSet (s : SkinCapeService) (cacheKey path : String) : SkinCapeService :=
  match s.RedisClient with
  | none => s
  | some r =>
    { s with
      RedisClient := some (r.Set cacheKey path 3600),
      log := s.log ++ [Effect.redisSet cacheKey path] }

/-- The passing of time between two requests: nothing changes but the clock of
the Redis server and the keys that expire. -/
def elapse (s : SkinCapeService) (seconds : Nat) : SkinCapeService :=
  { s with RedisClient := s.RedisClient.map (fun r => r.Elapse seconds) }

end SkinCapeService

/-- The response `c.JSON(400, gin.H{"error": "Invalid size parameter"})`. -/
def invalidSize : Response :=
  Response.json 400 [("error", "Invalid size parameter")]

/-! ## Renders -/

/-- The method `serveDefaultAvatar`. -/
def serveDefaultAvatar (lib : Lib) (s : SkinCapeService) (size : Int) :
    Response × SkinCapeService :=
  (Response.png (lib.pngEncode (defaultAvatarImage size.toNat)), s.emit Effect.pngEncode)

/-- The method `serveDefaultHead`. -/
def serveDefaultHead (lib : Lib) (s : SkinCapeService) (size : Int) :
    Response × SkinCapeService :=
  (Response.png (lib.pngEncode (defaultHeadImage size.toNat)), s.emit Effect.pngEncode)

/-- The method `clearAvatarCache`. -/
def clearAvatarCache (s : SkinCapeService) (uuid : String) : SkinCapeService :=
  match s.RedisClient with
  | none => s
  | some r =>
    let pattern := "avatar:" ++ uuid ++ ":*"
    let s := s.emit (Effect.redisKeys pattern)
    let s :=
      match r.Keys pattern with
      | some keys =>
        { s with RedisClient := some (r.Del keys), log := s.log ++ [Effect.redisDel keys] }
      | none => s
    let avatarDir := filepath.Join [s.StoragePath, "avatars"]
    let files := s.ReadDir avatarDir
    files.foldl
      (fun s name =>
        if HasPrefix name (uuid ++ "_avatar_") then s.Remove (filepath.Join [avatarDir, name])
        else s)
      (s.emit (Effect.fsReadDir avatarDir))

/-- The method `generateAvatar`; the empty string is returned on failure. -/
def generateAvatar (lib : Lib) (s : SkinCapeService) (uuid skinURL : String) (size : Int) :
    String × SkinCapeService :=
  let skinPath := filepath.Join [".", skinURL]
  match s.Open skinPath with
  | (none, s) => ("", s)
  | (some data, s) =>
    let s := s.emit Effect.pngDecode
    match lib.pngDecode data with
    | none => ("", s)
    | some skinImg =>
      let avatarImg := avatarImage lib skinImg size.toNat
      let avatarFilename := uuid ++ "_avatar_" ++ fmtInt size ++ ".png"
      let avatarPath := filepath.Join [s.StoragePath, "avatars", avatarFilename]
      match s.CreateFile avatarPath (lib.pngEncode avatarImg) with
      | none => ("", s)
      | some s => (avatarPath, s.emit Effect.pngEncode)

/-- The method `generateHead`; the empty string is returned on failure. -/
def generateHead (lib : Lib) (s : SkinCapeService) (uuid skinURL : String) (size : Int) :
    String × SkinCapeService :=
  let skinPath := filepath.Join [".", skinURL]
  match s.Open skinPath with
  | (none, s) => ("", s)
  | (some data, s) =>
    let s := s.emit Effect.pngDecode
    match lib.pngDecode data with
    | none => ("", s)
    | some skinImg =>
      let finalImg := headImage lib skinImg size.toNat
      let headFilename := uuid ++ "_head_" ++ fmtInt size ++ ".png"
      let headPath := filepath.Join [s.StoragePath, "avatars", headFilename]
      match s.CreateFile headPath (lib.pngEncode finalImg) with
      | none => ("", s)
      | some s => (headPath, s.emit Effect.pngEncode)

/-- The handler `GetAvatarWithSize`; `uuid` and `sizeParam` are the path
parameters (`sizeParam` is empty on the route without a size). -/
def GetAvatarWithSize (lib : Lib) (s : SkinCapeService) (uuid sizeParam : String) :
    Response × SkinCapeService :=
  let sizeParam := if sizeParam = "" then "64" else sizeParam
  match Atoi sizeParam with
  | none => (invalidSize, s)
  | some size =>
    if size < 8 ∨ size > 512 then (invalidSize, s)
    else
      let uuid := stripHyphens uuid
      let cacheKey := "avatar:" ++ uuid ++ ":" ++ fmtInt size
      match s.cacheGet cacheKey with
      | (some cachedPath, s) => (Response.file cachedPath, s.emit (Effect.serveFile cachedPath))
      | (none, s) =>
        match s.First uuid with
        | (none, s) => serveDefaultAvatar lib s size
        | (some userSkin, s) =>
          if userSkin.SkinURL = "" then serveDefaultAvatar lib s size
          else
            match generateAvatar lib s uuid userSkin.SkinURL size with
            | (avatarPath, s) =>
              if avatarPath = "" then serveDefaultAvatar lib s size
              else
                let s := s.cacheSet cacheKey avatarPath
                (Response.file avatarPath, s.emit (Effect.serveFile avatarPath))

/-- The handler `GetHeadWithSize`. -/
def GetHeadWithSize (lib : Lib) (s : SkinCapeService) (uuid sizeParam : String) :
    Response × SkinCapeService :=
  let sizeParam := if sizeParam = "" then "64" else sizeParam
  match Atoi sizeParam with
  | none => (invalidSize, s)
  | some size =>
    if size < 8 ∨ size > 512 then (invalidSize, s)
    else
      let uuid := stripHyphens uuid
      let cacheKey := "head:" ++ uuid ++ ":" ++ fmtInt size
      match s.cacheGet cacheKey with
      | (some cachedPath, s) => (Response.file cachedPath, s.emit (Effect.serveFile cachedPath))
      | (none, s) =>
        match s.First uuid with
        | (none, s) => serveDefaultHead lib s size
        | (some userSkin, s) =>
          if userSkin.SkinURL = "" then serveDefaultHead lib s size
          else
            match generateHead lib s uuid userSkin.SkinURL size with
            | (headPath, s) =>
              if headPath = "" then serveDefaultHead lib s size
              else
                let s := s.cacheSet cacheKey headPath
                (Response.file headPath, s.emit (Effect.serveFile headPath))

/-! ## Uploads and deletes -/

/-- A file of a multipart form: the `Content-Type` of its part and its bytes. -/
structure FormFile where
  ContentType : String
  data : List Nat
deriving DecidableEq, Repr

/-- The handler `UploadSkin`; `file` is the form file `skin` (`none` when the
form has none) and `is_slim` the form value of that name. -/
def UploadSkin (lib : Lib) (s : SkinCapeService) (uuid : String) (file : Option FormFile)
    (is_slim : String) : Response × SkinCapeService :=
  let uuid := stripHyphens uuid
  match file with
  | none => (Response.json 400 [("error", "No skin file provided")], s)
  | some file =>
    if ¬ HasPrefix file.ContentType "image/" then
      (Response.json 400 [("error", "File must be an image")], s)
    else
      let s := s.emit Effect.pngDecode
      match lib.pngDecode file.data with
      | none => (Response.json 400 [("error", "Invalid PNG image")], s)
      | some img =>
        if img.Dx ≠ 64 ∨ (img.Dy ≠ 64 ∧ img.Dy ≠ 32) then
          (Response.json 400 [("error", "Skin must be 64x64 or 64x32 pixels")], s)
        else
          let isSlim := decide (is_slim = "true")
          let skinHash := lib.md5Hex file.data
          let filename := uuid ++ "_skin.png"
          let filepath := filepath.Join [s.StoragePath, "skins", filename]
          match s.CreateFile filepath file.data with
          | none => (Response.json 500 [("error", "Failed to save skin")], s)
          | some s =>
            let s :=
              match s.First uuid with
              | (none, s) =>
                s.Create
                  { ID := 0, UserUUID := uuid, SkinURL := "/storage/skins/" ++ filename,
                    CapeURL := "", SkinHash := skinHash, CapeHash := "", IsSlim := isSlim }
              | (some userSkin, s) =>
                s.Save
                  { userSkin with
                    SkinURL := "/storage/skins/" ++ filename, IsSlim := isSlim,
                    SkinHash := skinHash }
            let s := clearAvatarCache s uuid
            (Response.json 200
              [("message", "Skin uploaded successfully"), ("url", "/storage/skins/" ++ filename)],
              s)

/-- The handler `UploadCape`; `file` is the form file `cape`. -/
def UploadCape (lib : Lib) (s : SkinCapeService) (uuid : String) (file : Option FormFile) :
    Response × SkinCapeService :=
  let uuid := stripHyphens uuid
  match file with
  | none => (Response.json 400 [("error", "No cape file provided")], s)
  | some file =>
    if ¬ HasPrefix file.ContentType "image/" then
      (Response.json 400 [("error", "File must be an image")], s)
    else
      let s := s.emit Effect.pngDecode
      match lib.pngDecode file.data with
      | none => (Response.json 400 [("error", "Invalid PNG image")], s)
      | some img =>
        if img.Dx ≠ 64 ∨ img.Dy ≠ 32 then
          (Response.json 400 [("error", "Cape must be 64x32 pixels")], s)
        else
          let capeHash := lib.md5Hex file.data
          let filename := uuid ++ "_cape.png"
          let filepath := filepath.Join [s.StoragePath, "capes", filename]
          match s.CreateFile filepath file.data with
          | none => (Response.json 500 [("error", "Failed to save cape")], s)
          | some s =>
            let s :=
              match s.First uuid with
              | (none, s) =>
                s.Create
                  { ID := 0, UserUUID := uuid, SkinURL := "",
                    CapeURL := "/storage/capes/" ++ filename, SkinHash := "",
                    CapeHash := capeHash, IsSlim := false }
              | (some userSkin, s) =>
                s.Save
                  { userSkin with
                    CapeURL := "/storage/capes/" ++ filename, CapeHash := capeHash }
            (Response.json 200
              [("message", "Cape uploaded successfully"), ("url", "/storage/capes/" ++ filename)],
              s)

/-- The handler `DeleteSkin`. -/
def DeleteSkin (s : SkinCapeService) (uuid : String) : Response × SkinCapeService :=
  let uuid := stripHyphens uuid
  match s.First uuid with
  | (none, s) => (Response.json 404 [("error", "Skin not found")], s)
  | (some userSkin, s) =>
    let s :=
      if userSkin.SkinURL ≠ "" then s.Remove (filepath.Join [".", userSkin.SkinURL]) else s
    let s := s.Save { userSkin with SkinURL := "", SkinHash := "", IsSlim := false }
    let s := clearAvatarCache s uuid
    (Response.json 200 [("message", "Skin deleted successfully")], s)

/-- The handler `DeleteCape`. -/
def DeleteCape (s : SkinCapeService) (uuid : String) : Response × SkinCapeService :=
  let uuid := stripHyphens uuid
  match s.First uuid with
  | (none, s) => (Response.json 404 [("error", "Cape not found")], s)
  | (some userSkin, s) =>
    let s :=
      if userSkin.CapeURL ≠ "" then s.Remove (filepath.Join [".", userSkin.CapeURL]) else s
    let s := s.Save { userSkin with CapeURL := "", CapeHash := "" }
    (Response.json 200 [("message", "Cape deleted successfully")], s)

/-- The handler `DeleteUserData`. -/
def DeleteUserData (s : SkinCapeService) (uuid : String) : Response × SkinCapeService :=
  let uuid := stripHyphens uuid
  match s.First uuid with
  | (none, s) => (Response.json 404 [("error", "User data not found")], s)
  | (some userSkin, s) =>
    let s :=
      if userSkin.SkinURL ≠ "" then s.Remove (filepath.Join [".", userSkin.SkinURL]) else s
    let s :=
      if userSkin.CapeURL ≠ "" then s.Remove (filepath.Join [".", userSkin.CapeURL]) else s
    let s := s.Delete userSkin
    let s := clearAvatarCache s uuid
    (Response.json 200 [("message", "User data deleted successfully")], s)

/-! ## Inputs for closed evaluations -/

/-- Samples of a bitmap, row by row. -/
def samples (img : Image RGBA) : List Nat :=
  (List.range img.Dy).flatMap fun y =>
    (List.range img.Dx).flatMap fun x =>
      let c := img.At x y
      [c.R.val, c.G.val, c.B.val, c.A.val]

/-- A bitmap with one colour on its left half (which holds the face region of
a skin) and another on its right half (which holds the overlay region). -/
def twoTone (w h : Nat) (left right : NRGBA) : Image NRGBA :=
  ⟨w, h, fun x _ => if x < 32 then left else right⟩

/-- An instance of the library parameters for evaluating the service on given
inputs.  A picture file that is read holds a width, a height and the samples of
two colours, and stands for the two-tone bitmap of that size; any other file
fails to decode.  A picture file that is written holds the width, the height
and every sample in order.  The digest of a file is written out from a running
checksum.  The index choice rounds an exact tie upwards. -/
def refLib : Lib where
  pngDecode := fun data =>
    match data with
    | [w, h, lr, lg, lb, la, rr, rg, rb, ra] =>
      some (twoTone w h ⟨u8 lr, u8 lg, u8 lb, u8 la⟩ ⟨u8 rr, u8 rg, u8 rb, u8 ra⟩)
    | _ => none
  pngEncode := fun img => img.Dx :: img.Dy :: samples img
  md5Hex := fun data => toString (data.foldl (fun acc b => (acc * 257 + b + 1) % 2 ^ 128) 0)
  nearest := fun n size i => n * (2 * i + 1) / (2 * size)

/-- The picture file that `refLib` reads as the two-tone bitmap. -/
def skinFile (w h : Nat) (left right : NRGBA) : List Nat :=
  [w, h, left.R.val, left.G.val, left.B.val, left.A.val,
    right.R.val, right.G.val, right.B.val, right.A.val]

/-- A freshly started service: empty table, empty and answering Redis, no file. -/
def freshService (storagePath : String) : SkinCapeService :=
  { DB := [], nextID := 1, RedisClient := some ⟨[], true, [], 0⟩, StoragePath := storagePath,
    disk := [], unwritable := [], log := [] }

/-- An opaque blue skin without overlay. -/
def blueSkin : Image NRGBA :=
  twoTone 64 64 ⟨0, 0, 255, 255⟩ ⟨0, 0, 0, 0⟩

/-- An opaque red skin without overlay. -/
def redSkin : Image NRGBA :=
  twoTone 64 64 ⟨255, 0, 0, 255⟩ ⟨0, 0, 0, 0⟩

/-- The form file with the blue skin. -/
def blueUpload : Option FormFile :=
  some ⟨"image/png", skinFile 64 64 ⟨0, 0, 255, 255⟩ ⟨0, 0, 0, 0⟩⟩

/-- The form file with the red skin. -/
def redUpload : Option FormFile :=
  some ⟨"image/png", skinFile 64 64 ⟨255, 0, 0, 255⟩ ⟨0, 0, 0, 0⟩⟩

/-- A service with storage path `./storage` after three requests: the blue skin
is uploaded for `abc`, then its head and its avatar are rendered at size 16. -/
def rendered : SkinCapeService :=
  let s := (UploadSkin refLib (freshService "./storage") "abc" blueUpload "false").2
  let s := (GetHeadWithSize refLib s "abc" "16").2
  (GetAvatarWithSize refLib s "abc" "16").2

/-- The service `rendered` after the red skin is uploaded for `abc`. -/
def reuploaded : SkinCapeService :=
  (UploadSkin refLib rendered "abc" redUpload "false").2

/-- A service with storage path `./storage` after the blue skin is uploaded
for `abc`. -/
def uploaded : SkinCapeService :=
  (UploadSkin refLib (freshService "./storage") "abc" blueUpload "false").2

/-- A legacy 64x32 skin. -/
def legacySkin : Image NRGBA :=
  twoTone 64 32 ⟨0, 0, 255, 255⟩ ⟨255, 0, 0, 128⟩

/-- A service with storage path `./storage` after the legacy skin is uploaded
for `abc`. -/
def legacyUploaded : SkinCapeService :=
  (UploadSkin refLib (freshService "./storage") "abc"
    (some ⟨"image/png", skinFile 64 32 ⟨0, 0, 255, 255⟩ ⟨255, 0, 0, 128⟩⟩) "false").2

/-- The service `rendered` after the skin of `abc` is deleted. -/
def skinDeleted : SkinCapeService :=
  (DeleteSkin rendered "abc").2

/-- The service `rendered` after all data of `abc` is deleted. -/
def userDeleted : SkinCapeService :=
  (DeleteUserData rendered "abc").2

/-- A service with the default storage path `./storage/skins` after the blue
skin is uploaded for `abc`. -/
def defaultUploaded : SkinCapeService :=
  (UploadSkin refLib (freshService "./storage/skins") "abc" blueUpload "false").2

/-- A service with storage path `./storage` after three requests for the
identity `[a]`: the blue skin is uploaded, its avatar is rendered at size 16,
and all data of the identity is deleted. -/
def bracketDeleted : SkinCapeService :=
  let s := (UploadSkin refLib (freshService "./storage") "[a]" blueUpload "false").2
  let s := (GetAvatarWithSize refLib s "[a]" "16").2
  (DeleteUserData s "[a]").2

/-- A skin whose face region is nearly transparent orange. -/
def translucentSkin : Image NRGBA :=
  twoTone 64 64 ⟨255, 100, 50, 3⟩ ⟨0, 0, 0, 0⟩

/-- A skin with an opaque blue face and a half-transparent red overlay. -/
def overlaySkin : Image NRGBA :=
  twoTone 64 64 ⟨0, 0, 255, 255⟩ ⟨255, 0, 0, 128⟩

/-- The effects a handler added to the log. -/
def trace (before after : SkinCapeService) : List Effect :=
  after.log.drop before.log.length

/-- The cache keys read or written by a run of effects. -/
def cacheKeys : List Effect → List String
  | [] => []
  | Effect.redisGet key :: es => key :: cacheKeys es
  | Effect.redisSet key _ :: es => key :: cacheKeys es
  | _ :: es => cacheKeys es

/-- A later state whose log continues the log of an earlier one with effects
that touch the cache under the key `key` only. -/
def Extends (key : String) (s s1 : SkinCapeService) : Prop :=
  ∃ t, s1.log = s.log ++ t ∧ ∀ k ∈ cacheKeys t, k = key

/-- Source-over compositing as the specification words it, in premultiplied
terms `overlay + face * (1 - a)`, at the precision at which `draw.Draw` with
`draw.Over` computes it for two `*image.RGBA` bitmaps. -/
def sourceOver (face overlay : RGBA) : RGBA :=
  let m := 0xffff
  let a := (m - overlay.A.val * 0x101) * 0x101
  ⟨u8 ((face.R.val * a / m + overlay.R.val * 0x101) >>> 8),
   u8 ((face.G.val * a / m + overlay.G.val * 0x101) >>> 8),
   u8 ((face.B.val * a / m + overlay.B.val * 0x101) >>> 8),
   u8 ((face.A.val * a / m + overlay.A.val * 0x101) >>> 8)⟩

/-! ## Devices for the proofs about renders -/

/-- The characters of a path after its last slash. -/
def afterSlash (path : List Char) : List Char :=
  (splitSlash path).getLastD []

/-- A path component that `filepath.Clean` keeps as it is. -/
def NormalComp (c : List Char) : Prop :=
  c ≠ [] ∧ c ≠ ['.'] ∧ c ≠ ['.', '.']

/-- The common shape of `generateAvatar` and `generateHead`: `tag` is the part
of the file name that names the kind and `recipe` the bitmap that is encoded. -/
def deriveWith (tag : String) (recipe : Lib → Image NRGBA → Nat → Image RGBA) (lib : Lib)
    (s : SkinCapeService) (uuid skinURL : String) (size : Int) : String × SkinCapeService :=
  let skinPath := filepath.Join [".", skinURL]
  match s.Open skinPath with
  | (none, s) => ("", s)
  | (some data, s) =>
    let s := s.emit Effect.pngDecode
    match lib.pngDecode data with
    | none => ("", s)
    | some skinImg =>
      let img := recipe lib skinImg size.toNat
      let filename := uuid ++ tag ++ fmtInt size ++ ".png"
      let path := filepath.Join [s.StoragePath, "avatars", filename]
      match s.CreateFile path (lib.pngEncode img) with
      | none => ("", s)
      | some s => (path, s.emit Effect.pngEncode)

/-- The common shape of `GetAvatarWithSize` and `GetHeadWithSize`: `kind` is
the prefix of the cache key and `fallback` the bitmap of the placeholder. -/
def renderWith (kind tag : String) (recipe : Lib → Image NRGBA → Nat → Image RGBA)
    (fallback : Nat → Image RGBA) (lib : Lib) (s : SkinCapeService) (uuid sizeParam : String) :
    Response × SkinCapeService :=
  let sizeParam := if sizeParam = "" then "64" else sizeParam
  match Atoi sizeParam with
  | none => (invalidSize, s)
  | some size =>
    if size < 8 ∨ size > 512 then (invalidSize, s)
    else
      let uuid := stripHyphens uuid
      let cacheKey := kind ++ uuid ++ ":" ++ fmtInt size
      match s.cacheGet cacheKey with
      | (some cachedPath, s) => (Response.file cachedPath, s.emit (Effect.serveFile cachedPath))
      | (none, s) =>
        match s.First uuid with
        | (none, s) =>
          (Response.png (lib.pngEncode (fallback size.toNat)), s.emit Effect.pngEncode)
        | (some userSkin, s) =>
          if userSkin.SkinURL = "" then
            (Response.png (lib.pngEncode (fallback size.toNat)), s.emit Effect.pngEncode)
          else
            match deriveWith tag recipe lib s uuid userSkin.SkinURL size with
            | (path, s) =>
              if path = "" then
                (Response.png (lib.pngEncode (fallback size.toNat)), s.emit Effect.pngEncode)
              else
                let s := s.cacheSet cacheKey path
                (Response.file path, s.emit (Effect.serveFile path))

/-- The bitmap of the identity's stored skin: the record's `SkinURL` is not
empty, a file is at the path the renders resolve it to, and the file decodes. -/
def storedSkin (lib : Lib) (s : SkinCapeService) (uuid : String) : Option (Image NRGBA) :=
  match s.DB.find? (fun r => decide (r.UserUUID = uuid)) with
  | none => none
  | some userSkin =>
    if userSkin.SkinURL = "" then none
    else
      match s.readFile (filepath.Join [".", userSkin.SkinURL]) with
      | none => none
      | some data => lib.pngDecode data

/-- The path at which the renders look for the identity's skin, if its record
names one. -/
def skinPathOf (s : SkinCapeService) (uuid : String) : Option String :=
  match s.DB.find? (fun r => decide (r.UserUUID = uuid)) with
  | none => none
  | some userSkin =>
    if userSkin.SkinURL = "" then none else some (filepath.Join [".", userSkin.SkinURL])

/-- Two states that differ in their effect logs at most. -/
def SameWorld (s s1 : SkinCapeService) : Prop :=
  s1.DB = s.DB ∧ s1.nextID = s.nextID ∧ s1.RedisClient = s.RedisClient ∧
    s1.StoragePath = s.StoragePath ∧ s1.disk = s.disk ∧ s1.unwritable = s.unwritable

/-! ## Profiles -/

/-- A `Texture`. -/
structure Texture where
  URL : String
  Metadata : List (String × String)
deriving DecidableEq, Repr

/-- A `TexturesValue`; the map `Textures` is listed in the order of its keys. -/
structure TexturesValue where
  Timestamp : Int
  ProfileID : String
  ProfileName : String
  Textures : List (String × Texture)
deriving DecidableEq, Repr

/-- A `ProfileProperty`; `Value` is the value whose JSON encoding the handler
writes out in base64. -/
structure ProfileProperty where
  Name : String
  Value : TexturesValue
deriving DecidableEq, Repr

/-- A `ProfileResponse`. -/
structure ProfileResponse where
  ID : String
  Name : String
  Properties : List ProfileProperty
deriving DecidableEq, Repr

/-- What `GetProfile` writes to the client: the error
`c.JSON(400, gin.H{"error": "Invalid UUID format"})` or `c.JSON(200, response)`. -/
inductive ProfileResult where
  | invalidUUID
  | profile (body : ProfileResponse)
deriving DecidableEq, Repr

/-- The handler `GetProfile`; `now` is `time.Now().Unix()` and `baseURL` the
value of `getEnv("BASE_URL", "http://localhost:8081")`.  The length tested is
the length in bytes. -/
def GetProfile (s : SkinCapeService) (uuid : String) (now : Int) (baseURL : String) :
    ProfileResult × SkinCapeService :=
  let uuid := stripHyphens uuid
  if uuid.utf8ByteSize ≠ 32 then (ProfileResult.invalidUUID, s)
  else
    match s.First uuid with
    | (none, s) => (ProfileResult.profile ⟨uuid, "Player", []⟩, s)
    | (some userSkin, s) =>
      let skin : List (String × Texture) :=
        if userSkin.SkinURL ≠ "" then
          [("SKIN", ⟨baseURL ++ userSkin.SkinURL,
            if userSkin.IsSlim then [("model", "slim")] else []⟩)]
        else []
      let cape : List (String × Texture) :=
        if userSkin.CapeURL ≠ "" then [("CAPE", ⟨baseURL ++ userSkin.CapeURL, []⟩)] else []
      let textures : TexturesValue := ⟨now, uuid, "Player", cape ++ skin⟩
      (ProfileResult.profile ⟨uuid, "Player", [⟨"textures", textures⟩]⟩, s)

/-! ## Further inputs for closed evaluations -/

/-- Whether an effect writes the record table. -/
def Effect.isRecordWrite : Effect → Bool
  | Effect.dbCreate _ => true
  | Effect.dbSave _ => true
  | Effect.dbDelete _ => true
  | _ => false

/-- Whether an effect belongs to the invalidation of cached renders. -/
def Effect.isInvalidation : Effect → Bool
  | Effect.redisKeys _ => true
  | Effect.redisDel _ => true
  | _ => false

/-- A service with storage path `./storage` and no Redis client (the ping
failed at start-up) after the blue skin is uploaded for `abc`. -/
def uploadedWithoutRedis : SkinCapeService :=
  (UploadSkin refLib { freshService "./storage" with RedisClient := none } "abc" blueUpload
    "false").2

/-- The service `uploaded` with a Redis server that does not answer. -/
def uploadedRedisDown : SkinCapeService :=
  { uploaded with RedisClient := some ⟨[], false, [], 0⟩ }

/-- The service `uploaded` when the derived files of `abc` at size 16 cannot be
created. -/
def uploadedReadOnly : SkinCapeService :=
  { uploaded with
    unwritable := ["storage/avatars/abc_avatar_16.png", "storage/avatars/abc_head_16.png"] }

/-- A 4x4 bitmap. -/
def tinyImage : Image NRGBA :=
  twoTone 4 4 ⟨0, 0, 255, 255⟩ ⟨0, 0, 255, 255⟩

/-- A service in which the file at the skin location of `abc` holds a 4x4
picture. -/
def tinySource : SkinCapeService :=
  { DB := [⟨1, "abc", "/storage/skins/abc_skin.png", "", "", "", false⟩], nextID := 2,
    RedisClient := some ⟨[], true, [], 0⟩, StoragePath := "./storage",
    disk := [("storage/skins/abc_skin.png", skinFile 4 4 ⟨0, 0, 255, 255⟩ ⟨0, 0, 255, 255⟩)],
    unwritable := [], log := [] }

/-- The form file with a 32x32 picture. -/
def smallUpload : Option FormFile :=
  some ⟨"image/png", skinFile 32 32 ⟨0, 0, 255, 255⟩ ⟨0, 0, 0, 0⟩⟩

/-- The form file with a 64x32 picture. -/
def legacyUpload : Option FormFile :=
  some ⟨"image/png", skinFile 64 32 ⟨0, 0, 255, 255⟩ ⟨0, 0, 0, 0⟩⟩

/-- Every record names its skin the way `UploadSkin` and `DeleteSkin` leave it:
`SkinURL` is empty or `/storage/skins/<UserUUID>_skin.png`. -/
def WrittenByService (s : SkinCapeService) : Prop :=
  ∀ r ∈ s.DB, r.SkinURL = "" ∨ r.SkinURL = "/storage/skins/" ++ r.UserUUID ++ "_skin.png"

instance (s : SkinCapeService) : Decidable (WrittenByService s) :=
  inferInstanceAs (Decidable (∀ r ∈ s.DB,
    r.SkinURL = "" ∨ r.SkinURL = "/storage/skins/" ++ r.UserUUID ++ "_skin.png"))

/-- The service `uploaded` after the skin file of `abc` is overwritten with
bytes that do not decode as a picture. -/
def sourceCorrupt : SkinCapeService :=
  { uploaded with disk := [("storage/skins/abc_skin.png", [1, 2, 3])] }

/-- The service `uploaded` after the skin file of `abc` is lost. -/
def sourceLost : SkinCapeService :=
  { uploaded with disk := [] }

/-- The effects a handler added between the states `s` and `s1` are, in order:
effects that neither write the record table nor invalidate, then one write of
the record table, then effects that do not write the record table; with a
Redis client the effect right after the write is the `KEYS` command of
`clearAvatarCache` for the identity, and without one nothing follows the
write. -/
def WriteThenInvalidate (s s1 : SkinCapeService) (uuid : String) : Prop :=
  ∃ pre w post, trace s s1 = pre ++ w :: post ∧ w.isRecordWrite = true ∧
    (∀ e ∈ pre, e.isInvalidation = false ∧ e.isRecordWrite = false) ∧
    (∀ e ∈ post, e.isRecordWrite = false) ∧
    (∀ r, s.RedisClient = some r →
      post.head? = some (Effect.redisKeys ("avatar:" ++ uuid ++ ":*"))) ∧
    (s.RedisClient = none → post = [])

/-! ## Requests -/

/-- A request to one of the routes that `main` registers for uploads, deletes
and renders, with the parameters the handler reads. -/
inductive Request where
  | uploadSkin (uuid : String) (file : Option FormFile) (is_slim : String)
  | uploadCape (uuid : String) (file : Option FormFile)
  | deleteSkin (uuid : String)
  | deleteCape (uuid : String)
  | deleteUserData (uuid : String)
  | getAvatar (uuid sizeParam : String)
  | getHead (uuid sizeParam : String)

/-- The state after the handler of a request has run. -/
def handle (lib : Lib) (s : SkinCapeService) : Request → SkinCapeService
  | Request.uploadSkin uuid file is_slim => (UploadSkin lib s uuid file is_slim).2
  | Request.uploadCape uuid file => (UploadCape lib s uuid file).2
  | Request.deleteSkin uuid => (DeleteSkin s uuid).2
  | Request.deleteCape uuid => (DeleteCape s uuid).2
  | Request.deleteUserData uuid => (DeleteUserData s uuid).2
  | Request.getAvatar uuid sizeParam => (GetAvatarWithSize lib s uuid sizeParam).2
  | Request.getHead uuid sizeParam => (GetHeadWithSize lib s uuid sizeParam).2

/-- The state after a sequence of requests, handled one after the other. -/
def run (lib : Lib) (s : SkinCapeService) (reqs : List Request) : SkinCapeService :=
  reqs.foldl (handle lib) s

/-- The three conditions on a record: a skin location if and only if a skin
hash, a cape location if and only if a cape hash, and the slim flag only with a
skin location. -/
def WellFormed (r : UserSkin) : Prop :=
  (r.SkinURL = "" ↔ r.SkinHash = "") ∧ (r.CapeURL = "" ↔ r.CapeHash = "") ∧
    (r.IsSlim = true → r.SkinURL ≠ "")

instance (r : UserSkin) : Decidable (WellFormed r) :=
  inferInstanceAs (Decidable ((r.SkinURL = "" ↔ r.SkinHash = "") ∧
    (r.CapeURL = "" ↔ r.CapeHash = "") ∧ (r.IsSlim = true → r.SkinURL ≠ "")))

/-- A service with storage path `./storage` after the blue skin is uploaded for
the identity `x_avatar_y` and its avatar is rendered at size 16. -/
def nestedRendered : SkinCapeService :=
  run refLib (freshService "./storage")
    [Request.uploadSkin "x_avatar_y" blueUpload "false", Request.getAvatar "x_avatar_y" "16"]

/-- The requests for the identity `[a]`: the blue skin is uploaded, its avatar
is rendered at size 16, and the red skin is uploaded. -/
def bracketRequests : List Request :=
  [Request.uploadSkin "[a]" blueUpload "false", Request.getAvatar "[a]" "16",
    Request.uploadSkin "[a]" redUpload "false"]

/-- Every record names its cape the way `UploadCape` and `DeleteCape` leave it:
`CapeURL` is empty or `/storage/capes/<UserUUID>_cape.png`. -/
def CapeWrittenByService (s : SkinCapeService) : Prop :=
  ∀ r ∈ s.DB, r.CapeURL = "" ∨ r.CapeURL = "/storage/capes/" ++ r.UserUUID ++ "_cape.png"

instance (s : SkinCapeService) : Decidable (CapeWrittenByService s) :=
  inferInstanceAs (Decidable (∀ r ∈ s.DB,
    r.CapeURL = "" ∨ r.CapeURL = "/storage/capes/" ++ r.UserUUID ++ "_cape.png"))

/-- The form file with a 64x32 picture offered as a cape. -/
def capeUpload : Option FormFile :=
  some ⟨"image/png", skinFile 64 32 ⟨255, 0, 0, 255⟩ ⟨255, 0, 0, 255⟩⟩

/-- The service `rendered` after a cape is uploaded for `abc`. -/
def capeUploaded : SkinCapeService :=
  (UploadCape refLib rendered "abc" capeUpload).2

/-- The form file with the blue skin, sent with the media type
`application/octet-stream`. -/
def octetStreamUpload : Option FormFile :=
  some ⟨"application/octet-stream", skinFile 64 64 ⟨0, 0, 255, 255⟩ ⟨0, 0, 0, 0⟩⟩

/-- The form file with the blue skin, sent with the media type `IMAGE/PNG`. -/
def upperCaseTypeUpload : Option FormFile :=
  some ⟨"IMAGE/PNG", skinFile 64 64 ⟨0, 0, 255, 255⟩ ⟨0, 0, 0, 0⟩⟩

/-- The form file with a 64x32 picture, sent with the media type
`application/octet-stream`. -/
def octetStreamCapeUpload : Option FormFile :=
  some ⟨"application/octet-stream", skinFile 64 32 ⟨255, 0, 0, 255⟩ ⟨255, 0, 0, 255⟩⟩

/-- The service `rendered` after the skin file of `abc` is lost: the renders
of `abc` at size 16 are still cached. -/
def renderedSourceLost : SkinCapeService :=
  { rendered with
    disk := rendered.disk.filter (fun e => decide (e.1 ≠ "storage/skins/abc_skin.png")) }

/-- An identity of 40 characters. -/
def longIdentity : String :=
  "0123456789012345678901234567890123456789"

/-- A service with storage path `./storage` after the blue skin is uploaded
for `longIdentity`. -/
def longUploaded : SkinCapeService :=
  (UploadSkin refLib (freshService "./storage") longIdentity blueUpload "false").2

/-- A service in which the record of `abc` names the derived avatar file of
`abc` at size 16 as its skin (a location the service itself never writes), with
the blue skin stored there and no Redis client. -/
def foreignSource : SkinCapeService :=
  { DB := [⟨1, "abc", "/storage/avatars/abc_avatar_16.png", "", "", "", false⟩], nextID := 2,
    RedisClient := none, StoragePath := "./storage",
    disk := [("storage/avatars/abc_avatar_16.png",
      skinFile 64 64 ⟨0, 0, 255, 255⟩ ⟨0, 0, 0, 0⟩)],
    unwritable := [], log := [] }

/-- The entry that Redis holds under `key`, if there is one, does not expire
within the next `seconds` seconds. -/
def SkinCapeService.keeps (s : SkinCapeService) (key : String) (seconds : Nat) : Prop :=
  ∀ r ∈ s.RedisClient.toList, ∀ d ∈ r.deadlines, d.1 = key → r.now + seconds < d.2

instance (s : SkinCapeService) (key : String) (seconds : Nat) :
    Decidable (s.keeps key seconds) :=
  inferInstanceAs (Decidable (∀ r ∈ s.RedisClient.toList, ∀ d ∈ r.deadlines,
    d.1 = key → r.now + seconds < d.2))

/-! ## Size validation -/

theorem Atoi_ne_empty {sizeParam : String} {size : Int} (h : Atoi sizeParam = some size) :
    sizeParam ≠ "" := by
  rintro rfl
  simp [Atoi] at h

theorem serveDefaultAvatar_ne_invalidSize (lib : Lib) (s : SkinCapeService) (size : Int) :
    (serveDefaultAvatar lib s size).1 ≠ invalidSize := by
  simp [serveDefaultAvatar, invalidSize]

theorem serveDefaultHead_ne_invalidSize (lib : Lib) (s : SkinCapeService) (size : Int) :
    (serveDefaultHead lib s size).1 ≠ invalidSize := by
  simp [serveDefaultHead, invalidSize]

theorem GetAvatarWithSize_rejected (lib : Lib) (s : SkinCapeService) (uuid sizeParam : String)
    (size : Int) (h : Atoi sizeParam = some size) (hr : size < 8 ∨ size > 512) :
    GetAvatarWithSize lib s uuid sizeParam = (invalidSize, s) := by
  simp [GetAvatarWithSize, Atoi_ne_empty h, h, hr]

theorem GetHeadWithSize_rejected (lib : Lib) (s : SkinCapeService) (uuid sizeParam : String)
    (size : Int) (h : Atoi sizeParam = some size) (hr : size < 8 ∨ size > 512) :
    GetHeadWithSize lib s uuid sizeParam = (invalidSize, s) := by
  simp [GetHeadWithSize, Atoi_ne_empty h, h, hr]

theorem GetAvatarWithSize_served (lib : Lib) (s : SkinCapeService) (uuid sizeParam : String)
    (size : Int) (h : Atoi sizeParam = some size) (hr : ¬ (size < 8 ∨ size > 512)) :
    (GetAvatarWithSize lib s uuid sizeParam).1 ≠ invalidSize := by
  simp only [GetAvatarWithSize, Atoi_ne_empty h, h, hr, if_false]
  split
  · simp [invalidSize]
  · split
    · exact serveDefaultAvatar_ne_invalidSize _ _ _
    · split
      · exact serveDefaultAvatar_ne_invalidSize _ _ _
      · split
        · exact serveDefaultAvatar_ne_invalidSize _ _ _
        · simp [invalidSize]

theorem GetHeadWithSize_served (lib : Lib) (s : SkinCapeService) (uuid sizeParam : String)
    (size : Int) (h : Atoi sizeParam = some size) (hr : ¬ (size < 8 ∨ size > 512)) :
    (GetHeadWithSize lib s uuid sizeParam).1 ≠ invalidSize := by
  simp only [GetHeadWithSize, Atoi_ne_empty h, h, hr, if_false]
  split
  · simp [invalidSize]
  · split
    · exact serveDefaultHead_ne_invalidSize _ _ _
    · split
      · exact serveDefaultHead_ne_invalidSize _ _ _
      · split
        · exact serveDefaultHead_ne_invalidSize _ _ _
        · simp [invalidSize]

/-- C1: for a size parameter that reads as the integer `size`, both render
handlers answer with the invalid-size error exactly when `size < 8` or
`size > 512`, and a rejected request leaves the whole service state as it was,
effect log included: no cache lookup, no record lookup and no file access took
place. -/
theorem size_rejected_iff_out_of_range (lib : Lib) (s : SkinCapeService)
    (uuid sizeParam : String) (size : Int) (h : Atoi sizeParam = some size) :
    (((GetAvatarWithSize lib s uuid sizeParam).1 = invalidSize ↔ (size < 8 ∨ size > 512)) ∧
      ((GetHeadWithSize lib s uuid sizeParam).1 = invalidSize ↔ (size < 8 ∨ size > 512))) ∧
    ((size < 8 ∨ size > 512) →
      (GetAvatarWithSize lib s uuid sizeParam).2 = s ∧
      (GetHeadWithSize lib s uuid sizeParam).2 = s) := by
  refine ⟨⟨⟨fun hresp => ?_, fun hr => ?_⟩, ⟨fun hresp => ?_, fun hr => ?_⟩⟩, fun hr => ⟨?_, ?_⟩⟩
  · by_contra hr
    exact GetAvatarWithSize_served lib s uuid sizeParam size h hr hresp
  · rw [GetAvatarWithSize_rejected lib s uuid sizeParam size h hr]
  · by_contra hr
    exact GetHeadWithSize_served lib s uuid sizeParam size h hr hresp
  · rw [GetHeadWithSize_rejected lib s uuid sizeParam size h hr]
  · rw [GetAvatarWithSize_rejected lib s uuid sizeParam size h hr]
  · rw [GetHeadWithSize_rejected lib s uuid sizeParam size h hr]

/-- Witness of C1 at the sizes 7, 513, 8 and 512. -/
theorem size_rejected_iff_out_of_range_witness :
    (GetAvatarWithSize refLib (freshService "./storage") "abc" "7").1 = invalidSize ∧
    (GetHeadWithSize refLib (freshService "./storage") "abc" "513").1 = invalidSize ∧
    (GetAvatarWithSize refLib (freshService "./storage") "abc" "7").2 = freshService "./storage" ∧
    (GetAvatarWithSize refLib (freshService "./storage") "abc" "8").1 ≠ invalidSize ∧
    (GetHeadWithSize refLib (freshService "./storage") "abc" "512").1 ≠ invalidSize :=
  ⟨(size_rejected_iff_out_of_range refLib _ "abc" "7" 7 (by decide)).1.1.2 (by decide),
   (size_rejected_iff_out_of_range refLib _ "abc" "513" 513 (by decide)).1.2.2 (by decide),
   ((size_rejected_iff_out_of_range refLib _ "abc" "7" 7 (by decide)).2 (by decide)).1,
   fun hresp => absurd
     ((size_rejected_iff_out_of_range refLib _ "abc" "8" 8 (by decide)).1.1.1 hresp) (by decide),
   fun hresp => absurd
     ((size_rejected_iff_out_of_range refLib _ "abc" "512" 512 (by decide)).1.2.1 hresp)
     (by decide)⟩

/-! ## Invalidation on source change -/

set_option maxRecDepth 100000 in
/-- C2 (evaluation at the failing input): after the blue skin of `abc` was
rendered as a head at size 16 and the red skin was uploaded in its place, the
head render at size 16 serves the file cached under `head:abc:16`, whose bytes
are still those derived from the blue skin and differ from what the red skin
gives; the avatar render for the same identity and size is derived from the red
skin. -/
theorem head_render_stale_after_reupload :
    (GetHeadWithSize refLib reuploaded "abc" "16").1 =
      Response.file "storage/avatars/abc_head_16.png" ∧
    (GetHeadWithSize refLib reuploaded "abc" "16").2.served
        (GetHeadWithSize refLib reuploaded "abc" "16").1 =
      some (refLib.pngEncode (headImage refLib blueSkin 16)) ∧
    refLib.pngEncode (headImage refLib blueSkin 16) ≠
      refLib.pngEncode (headImage refLib redSkin 16) ∧
    (GetAvatarWithSize refLib reuploaded "abc" "16").2.served
        (GetAvatarWithSize refLib reuploaded "abc" "16").1 =
      some (refLib.pngEncode (avatarImage refLib redSkin 16)) := by
  decide!

set_option maxRecDepth 100000 in
/-- C3 (evaluation at the failing input): with a head and an avatar of `abc`
cached at size 16, `clearAvatarCache` removes the avatar entry and the avatar
file and leaves the cache entry `head:abc:16` and the file
`abc_head_16.png` in place. -/
theorem clearAvatarCache_keeps_head_artifacts :
    (rendered.RedisClient.map fun r => r.store.map Prod.fst) =
      some ["avatar:abc:16", "head:abc:16"] ∧
    ((clearAvatarCache rendered "abc").RedisClient.map fun r => r.store) =
      some [("head:abc:16", "storage/avatars/abc_head_16.png")] ∧
    (clearAvatarCache rendered "abc").ReadDir "storage/avatars" = ["abc_head_16.png"] ∧
    (clearAvatarCache rendered "abc").readFile "storage/avatars/abc_head_16.png" =
      some (refLib.pngEncode (headImage refLib blueSkin 16)) := by
  decide!

set_option maxRecDepth 100000 in
/-- C10 (evaluation at the failing input): with a head of `abc` cached at size
16, after `DeleteSkin` and after `DeleteUserData` the head render at size 16
serves the cached file with the bytes derived from the deleted skin, not the
placeholder; the avatar render serves the placeholder. -/
theorem head_render_survives_delete :
    (GetHeadWithSize refLib skinDeleted "abc" "16").2.served
        (GetHeadWithSize refLib skinDeleted "abc" "16").1 =
      some (refLib.pngEncode (headImage refLib blueSkin 16)) ∧
    (GetHeadWithSize refLib userDeleted "abc" "16").2.served
        (GetHeadWithSize refLib userDeleted "abc" "16").1 =
      some (refLib.pngEncode (headImage refLib blueSkin 16)) ∧
    refLib.pngEncode (headImage refLib blueSkin 16) ≠
      refLib.pngEncode (defaultHeadImage 16) ∧
    (GetAvatarWithSize refLib skinDeleted "abc" "16").1 =
      Response.png (refLib.pngEncode (defaultAvatarImage 16)) ∧
    (GetAvatarWithSize refLib userDeleted "abc" "16").1 =
      Response.png (refLib.pngEncode (defaultAvatarImage 16)) := by
  decide!

/-! ## Raw location of a skin -/

set_option maxRecDepth 100000 in
/-- C9 (evaluation at the failing input): with the default storage path
`./storage/skins`, `UploadSkin` writes the skin of `abc` to
`storage/skins/skins/abc_skin.png` and records the location
`/storage/skins/abc_skin.png`, which the renders resolve to
`storage/skins/abc_skin.png`; no file is there, and the avatar render serves
the placeholder although a valid skin was uploaded. -/
theorem default_storage_path_mismatch :
    filepath.Join ["./storage/skins", "skins", "abc_skin.png"] =
      "storage/skins/skins/abc_skin.png" ∧
    defaultUploaded.disk.map Prod.fst = ["storage/skins/skins/abc_skin.png"] ∧
    defaultUploaded.DB.map UserSkin.SkinURL = ["/storage/skins/abc_skin.png"] ∧
    filepath.Join [".", "/storage/skins/abc_skin.png"] = "storage/skins/abc_skin.png" ∧
    defaultUploaded.readFile "storage/skins/abc_skin.png" = none ∧
    (GetAvatarWithSize refLib defaultUploaded "abc" "16").1 =
      Response.png (refLib.pngEncode (defaultAvatarImage 16)) := by
  decide!

/-! ## Derivation recipes -/

theorem refLib_nearestNeighbour : refLib.NearestNeighbour := by
  intro n size i hi
  have hpos : 0 < 2 * size := by omega
  refine ⟨Nat.div_mul_le_self _ _, ?_⟩
  have := Nat.lt_succ_iff.mp (Nat.lt_succ_of_le (le_of_lt (Nat.lt_div_mul_add hpos (a := n * (2 * i + 1)))))
  show n * (2 * i + 1) ≤ (n * (2 * i + 1) / (2 * size) + 1) * (2 * size)
  rw [Nat.add_mul, Nat.one_mul]
  exact this

theorem premultiply_alpha_255 (v : Nat) (hv : v < 256) : v * 65535 / 255 / 256 % 256 = v := by
  have h1 : v * 65535 / 255 = v * 257 := by omega
  have h2 : v * 257 / 256 = v := by omega
  rw [h1, h2]
  exact Nat.mod_eq_of_lt hv

theorem toRGBA_alpha_255 (c : NRGBA) (h : c.A = 255) : c.toRGBA.RGBA16 = c.RGBA16 := by
  have hA : c.A.val = 255 := by rw [h]; rfl
  simp only [NRGBA.toRGBA, NRGBA.RGBA16, RGBA.RGBA16, u8, Nat.shiftRight_eq_div_pow,
    Prod.mk.injEq, hA]
  norm_num
  exact ⟨premultiply_alpha_255 _ c.R.isLt, premultiply_alpha_255 _ c.G.isLt,
    premultiply_alpha_255 _ c.B.isLt⟩

theorem nearest_lt (lib : Lib) (hNN : lib.NearestNeighbour) (n size i : Nat) (hn : 0 < n)
    (hi : i < size) : lib.nearest n size i < n := by
  have h := (hNN n size i hi).1
  by_contra hge
  have hge : n ≤ lib.nearest n size i := Nat.le_of_not_lt hge
  have h1 : n * (2 * size) ≤ lib.nearest n size i * (2 * size) := Nat.mul_le_mul_right _ hge
  have h2 : n * (2 * i + 1) < n * (2 * size) := Nat.mul_lt_mul_of_pos_left (by omega) hn
  omega

theorem avatarImage_extent (lib : Lib) (skinImg : Image NRGBA) (size : Nat) :
    (avatarImage lib skinImg size).Dx = size ∧ (avatarImage lib skinImg size).Dy = size := by
  unfold avatarImage resize.Resize
  by_cases h : size = 8
  · subst h
    simp [draw.Draw, image.NewRGBA]
  · simp [draw.Draw, image.NewRGBA, h]

theorem avatarImage_pixel (lib : Lib) (hNN : lib.NearestNeighbour) (skinImg : Image NRGBA)
    (size : Nat) (hDx : skinImg.Dx = 64) (hDy : skinImg.Dy = 64 ∨ skinImg.Dy = 32)
    (x y : Nat) (hx : x < size) (hy : y < size) (h8 : 8 ≤ size) :
    ∃ i j, i < 8 ∧ j < 8 ∧
      i * (2 * size) ≤ 8 * (2 * x + 1) ∧ 8 * (2 * x + 1) ≤ (i + 1) * (2 * size) ∧
      j * (2 * size) ≤ 8 * (2 * y + 1) ∧ 8 * (2 * y + 1) ≤ (j + 1) * (2 * size) ∧
      (avatarImage lib skinImg size).Pix x y = (skinImg.Pix (8 + i) (8 + j)).toRGBA := by
  by_cases h : size = 8
  · subst h
    refine ⟨x, y, hx, hy, by omega, by omega, by omega, by omega, ?_⟩
    have hy2 : 8 + y < skinImg.Dy := by omega
    simp [avatarImage, resize.Resize, draw.Draw, image.NewRGBA, hx, hy, hDx, hy2]
    omega
  · have hi := nearest_lt lib hNN 8 size x (by omega) hx
    have hj := nearest_lt lib hNN 8 size y (by omega) hy
    refine ⟨lib.nearest 8 size x, lib.nearest 8 size y, hi, hj, (hNN 8 size x hx).1,
      (hNN 8 size x hx).2, (hNN 8 size y hy).1, (hNN 8 size y hy).2, ?_⟩
    have hi7 : min (lib.nearest 8 size x) 7 = lib.nearest 8 size x := by omega
    have hj7 : min (lib.nearest 8 size y) 7 = lib.nearest 8 size y := by omega
    have hy2 : 8 + lib.nearest 8 size y < skinImg.Dy := by omega
    simp [avatarImage, resize.Resize, draw.Draw, image.NewRGBA, h, hx, hy, hDx, hi7, hj7, hi,
      hj, hy2]
    omega

theorem avatarImage_top_left (lib : Lib) (hNN : lib.NearestNeighbour) (skinImg : Image NRGBA)
    (size : Nat) (hDx : skinImg.Dx = 64) (hDy : skinImg.Dy = 64 ∨ skinImg.Dy = 32)
    (h8 : 8 ≤ size) :
    (avatarImage lib skinImg size).Pix 0 0 = (skinImg.Pix 8 8).toRGBA := by
  obtain ⟨i, j, _, _, hi, _, hj, _, hpix⟩ :=
    avatarImage_pixel lib hNN skinImg size hDx hDy 0 0 (by omega) (by omega) h8
  have hi0 : i = 0 := by
    rcases Nat.eq_zero_or_pos i with h0 | h0
    · exact h0
    · have : 1 * (2 * size) ≤ i * (2 * size) := Nat.mul_le_mul_right _ h0
      omega
  have hj0 : j = 0 := by
    rcases Nat.eq_zero_or_pos j with h0 | h0
    · exact h0
    · have : 1 * (2 * size) ≤ j * (2 * size) := Nat.mul_le_mul_right _ h0
      omega
  subst hi0 hj0
  simpa using hpix

theorem headImage_legacy (lib : Lib) (skinImg : Image NRGBA) (size : Nat)
    (hDy : skinImg.Dy < 64) : headImage lib skinImg size = avatarImage lib skinImg size := by
  have h : ¬ (skinImg.Dx ≥ 64 ∧ skinImg.Dy ≥ 64) := by omega
  simp [headImage, headComposite, avatarImage, h]

theorem lookup_filter_ne (disk : List (String × List Nat)) (p q : String) (h : q ≠ p) :
    (disk.filter (fun e => decide (e.1 ≠ p))).lookup q = disk.lookup q := by
  induction disk with
  | nil => rfl
  | cons e es ih =>
    rcases e with ⟨k, v⟩
    simp only [ne_eq, decide_not] at ih ⊢
    by_cases hk : k = p
    · subst hk
      have hq : (q == k) = false := by simpa using h
      simp [List.filter, List.lookup, hq, ih]
    · by_cases hqk : q = k
      · subst hqk
        simp [List.filter, List.lookup, hk]
      · have hq : (q == k) = false := by simpa using hqk
        simp [List.filter, List.lookup, hk, hq, ih]

theorem readFile_write_same (s : SkinCapeService) (path : String) (data : List Nat)
    (log : List Effect) :
    SkinCapeService.readFile
      { s with disk := (path, data) :: s.disk.filter (fun e => decide (e.1 ≠ path)), log := log }
      path = some data := by
  simp [SkinCapeService.readFile, List.lookup]

theorem readFile_write_other (s : SkinCapeService) (path p : String) (data : List Nat)
    (log : List Effect) (hp : p ≠ path) :
    SkinCapeService.readFile
      { s with disk := (path, data) :: s.disk.filter (fun e => decide (e.1 ≠ path)), log := log }
      p = s.readFile p := by
  have hq : (p == path) = false := by simpa using hp
  have h := lookup_filter_ne s.disk path p hp
  simp only [SkinCapeService.readFile, List.lookup, hq]
  exact h

theorem generateAvatar_success (lib : Lib) (s : SkinCapeService) (uuid skinURL : String)
    (size : Int) (data : List Nat) (skinImg : Image NRGBA)
    (hfile : s.readFile (filepath.Join [".", skinURL]) = some data)
    (hdec : lib.pngDecode data = some skinImg)
    (hw : filepath.Join [s.StoragePath, "avatars", uuid ++ "_avatar_" ++ fmtInt size ++ ".png"]
      ∉ s.unwritable) :
    (generateAvatar lib s uuid skinURL size).1 =
      filepath.Join [s.StoragePath, "avatars", uuid ++ "_avatar_" ++ fmtInt size ++ ".png"] ∧
    (generateAvatar lib s uuid skinURL size).2.readFile
        (generateAvatar lib s uuid skinURL size).1 =
      some (lib.pngEncode (avatarImage lib skinImg size.toNat)) ∧
    ∀ p, p ≠ (generateAvatar lib s uuid skinURL size).1 →
      (generateAvatar lib s uuid skinURL size).2.readFile p = s.readFile p := by
  have hgen : generateAvatar lib s uuid skinURL size =
      (filepath.Join [s.StoragePath, "avatars", uuid ++ "_avatar_" ++ fmtInt size ++ ".png"],
        { s with
          disk := (filepath.Join [s.StoragePath, "avatars",
              uuid ++ "_avatar_" ++ fmtInt size ++ ".png"],
            lib.pngEncode (avatarImage lib skinImg size.toNat)) ::
              s.disk.filter (fun e => decide (e.1 ≠ filepath.Join [s.StoragePath, "avatars",
                uuid ++ "_avatar_" ++ fmtInt size ++ ".png"])),
          log := s.log ++ [Effect.fsOpen (filepath.Join [".", skinURL])] ++ [Effect.pngDecode] ++
            [Effect.fsCreate (filepath.Join [s.StoragePath, "avatars",
              uuid ++ "_avatar_" ++ fmtInt size ++ ".png"])] ++ [Effect.pngEncode] }) := by
    simp [generateAvatar, SkinCapeService.Open, hfile, hdec, SkinCapeService.emit,
      SkinCapeService.CreateFile, hw]
  rw [hgen]
  exact ⟨rfl, readFile_write_same _ _ _ _, fun p hp => readFile_write_other _ _ _ _ _ hp⟩

theorem generateHead_success (lib : Lib) (s : SkinCapeService) (uuid skinURL : String)
    (size : Int) (data : List Nat) (skinImg : Image NRGBA)
    (hfile : s.readFile (filepath.Join [".", skinURL]) = some data)
    (hdec : lib.pngDecode data = some skinImg)
    (hw : filepath.Join [s.StoragePath, "avatars", uuid ++ "_head_" ++ fmtInt size ++ ".png"]
      ∉ s.unwritable) :
    (generateHead lib s uuid skinURL size).1 =
      filepath.Join [s.StoragePath, "avatars", uuid ++ "_head_" ++ fmtInt size ++ ".png"] ∧
    (generateHead lib s uuid skinURL size).2.readFile
        (generateHead lib s uuid skinURL size).1 =
      some (lib.pngEncode (headImage lib skinImg size.toNat)) := by
  have hgen : generateHead lib s uuid skinURL size =
      (filepath.Join [s.StoragePath, "avatars", uuid ++ "_head_" ++ fmtInt size ++ ".png"],
        { s with
          disk := (filepath.Join [s.StoragePath, "avatars",
              uuid ++ "_head_" ++ fmtInt size ++ ".png"],
            lib.pngEncode (headImage lib skinImg size.toNat)) ::
              s.disk.filter (fun e => decide (e.1 ≠ filepath.Join [s.StoragePath, "avatars",
                uuid ++ "_head_" ++ fmtInt size ++ ".png"])),
          log := s.log ++ [Effect.fsOpen (filepath.Join [".", skinURL])] ++ [Effect.pngDecode] ++
            [Effect.fsCreate (filepath.Join [s.StoragePath, "avatars",
              uuid ++ "_head_" ++ fmtInt size ++ ".png"])] ++ [Effect.pngEncode] }) := by
    simp [generateHead, SkinCapeService.Open, hfile, hdec, SkinCapeService.emit,
      SkinCapeService.CreateFile, hw]
  rw [hgen]
  exact ⟨rfl, readFile_write_same _ _ _ _⟩

theorem over_alpha_255_channel (d v : Nat) (hv : v < 256) :
    u32 (d * u32 ((65535 - u32 (255 * 257 * (255 * 257)) / 65535) * 257) + v * 257 * (255 * 257))
      / 65535 / 256 % 256 = v ∧
    (d * ((65535 - 255 * 257) * 257) / 65535 + v * 257) / 256 % 256 = v := by
  have h0 : u32 ((65535 - u32 (255 * 257 * (255 * 257)) / 65535) * 257) = 0 := by decide
  have h1 : u32 (v * 257 * (255 * 257)) = v * 257 * (255 * 257) := by
    unfold u32
    apply Nat.mod_eq_of_lt
    omega
  have h2 : v * 257 * (255 * 257) / 65535 = v * 257 := by omega
  have h3 : v * 257 / 256 = v := by omega
  have h5 : v % 256 = v := Nat.mod_eq_of_lt hv
  constructor
  · rw [h0]
    simp only [Nat.mul_zero, Nat.zero_add]
    rw [h1, h2, h3, h5]
  · have h4 : d * ((65535 - 255 * 257) * 257) / 65535 = 0 := by simp
    rw [h4, Nat.zero_add, h3, h5]

theorem over_alpha_0_channel (d : Nat) (hd : d < 256) :
    u32 (d * u32 ((65535 - u32 (0 * 257 * (0 * 257)) / 65535) * 257) + 0 * 257 * (0 * 257))
      / 65535 / 256 % 256 = d ∧
    (d * ((65535 - 0 * 257) * 257) / 65535 + 0 * 257) / 256 % 256 = d := by
  have h0 : u32 ((65535 - u32 (0 * 257 * (0 * 257)) / 65535) * 257) = 16842495 := by decide
  have h1 : u32 (d * 16842495) = d * 16842495 := by
    unfold u32
    apply Nat.mod_eq_of_lt
    omega
  have h2 : d * 16842495 / 65535 = d * 257 := by omega
  have h3 : d * 257 / 256 = d := by omega
  have h5 : d % 256 = d := Nat.mod_eq_of_lt hd
  constructor
  · rw [h0]
    simp only [Nat.zero_mul, Nat.add_zero]
    rw [h1, h2, h3, h5]
  · simp only [Nat.zero_mul, Nat.add_zero, Nat.sub_zero]
    have h6 : d * (65535 * 257) / 65535 = d * 257 := by omega
    rw [h6, h3, h5]

theorem composite_agrees_at_alpha_255 (d s : RGBA) (h : s.A = 255) :
    drawMaskOverPixel d s s = s ∧ sourceOver d s = s := by
  have hA : s.A.val = 255 := by rw [h]; rfl
  rcases s with ⟨r, g, b, a⟩
  simp only at hA
  have hr := over_alpha_255_channel d.R.val r.val r.isLt
  have hg := over_alpha_255_channel d.G.val g.val g.isLt
  have hb := over_alpha_255_channel d.B.val b.val b.isLt
  have ha := over_alpha_255_channel d.A.val 255 (by decide)
  refine ⟨?_, ?_⟩
  · simp only [drawMaskOverPixel, u8, Nat.shiftRight_eq_div_pow, hA, RGBA.mk.injEq]
    refine ⟨Fin.ext hr.1, Fin.ext hg.1, Fin.ext hb.1, Fin.ext ?_⟩
    simp only [hA]
    exact ha.1
  · simp only [sourceOver, u8, Nat.shiftRight_eq_div_pow, hA, RGBA.mk.injEq]
    refine ⟨Fin.ext hr.2, Fin.ext hg.2, Fin.ext hb.2, Fin.ext ?_⟩
    simp only [hA]
    exact ha.2

theorem composite_agrees_at_alpha_0 (d : RGBA) :
    drawMaskOverPixel d ⟨0, 0, 0, 0⟩ ⟨0, 0, 0, 0⟩ = d ∧ sourceOver d ⟨0, 0, 0, 0⟩ = d := by
  rcases d with ⟨r, g, b, a⟩
  have hr := over_alpha_0_channel r.val r.isLt
  have hg := over_alpha_0_channel g.val g.isLt
  have hb := over_alpha_0_channel b.val b.isLt
  have ha := over_alpha_0_channel a.val a.isLt
  refine ⟨?_, ?_⟩
  · simp only [drawMaskOverPixel, u8, Nat.shiftRight_eq_div_pow, RGBA.mk.injEq]
    exact ⟨Fin.ext hr.1, Fin.ext hg.1, Fin.ext hb.1, Fin.ext ha.1⟩
  · simp only [sourceOver, u8, Nat.shiftRight_eq_div_pow, RGBA.mk.injEq]
    exact ⟨Fin.ext hr.2, Fin.ext hg.2, Fin.ext hb.2, Fin.ext ha.2⟩

/-- C7 (evaluation at the failing input): for a 64x64 skin with an opaque blue
face and a red overlay of alpha 128, the pixel that `generateHead` computes is
RGBA(64,0,191,255), whereas the overlay composited over the face is
RGBA(128,0,127,255): drawing the overlay with itself as mask weighs it by its
alpha twice. -/
theorem head_overlay_weighted_by_alpha_twice :
    (overlaySkin.At 8 8).toRGBA = ⟨0, 0, 255, 255⟩ ∧
    (overlaySkin.At 40 8).toRGBA = ⟨128, 0, 0, 128⟩ ∧
    (headComposite overlaySkin).At 0 0 = ⟨64, 0, 191, 255⟩ ∧
    sourceOver (overlaySkin.At 8 8).toRGBA (overlaySkin.At 40 8).toRGBA =
      ⟨128, 0, 127, 255⟩ := by
  decide

/-- C8: for a 64x32 skin and a size in [8,512] the overlay step is skipped: the
bitmap `generateHead` encodes equals the bitmap `generateAvatar` encodes, pixel
for pixel, and the two derived files hold the same bytes. -/
theorem legacy_head_equals_avatar (lib : Lib) (s : SkinCapeService) (uuid skinURL : String)
    (size : Int) (data : List Nat) (skinImg : Image NRGBA)
    (hfile : s.readFile (filepath.Join [".", skinURL]) = some data)
    (hdec : lib.pngDecode data = some skinImg)
    (hwa : filepath.Join [s.StoragePath, "avatars", uuid ++ "_avatar_" ++ fmtInt size ++ ".png"]
      ∉ s.unwritable)
    (hwh : filepath.Join [s.StoragePath, "avatars", uuid ++ "_head_" ++ fmtInt size ++ ".png"]
      ∉ s.unwritable)
    (_hDx : skinImg.Dx = 64) (hDy : skinImg.Dy = 32) (_h8 : 8 ≤ size) (_h512 : size ≤ 512) :
    headImage lib skinImg size.toNat = avatarImage lib skinImg size.toNat ∧
    (∀ x y, (headImage lib skinImg size.toNat).Pix x y =
      (avatarImage lib skinImg size.toNat).Pix x y) ∧
    (generateHead lib s uuid skinURL size).2.readFile (generateHead lib s uuid skinURL size).1 =
      (generateAvatar lib s uuid skinURL size).2.readFile
        (generateAvatar lib s uuid skinURL size).1 := by
  have heq := headImage_legacy lib skinImg size.toNat (by omega)
  refine ⟨heq, fun x y => by rw [heq], ?_⟩
  rw [(generateHead_success lib s uuid skinURL size data skinImg hfile hdec hwh).2,
    (generateAvatar_success lib s uuid skinURL size data skinImg hfile hdec hwa).2.1, heq]

set_option maxRecDepth 100000 in
/-- Witness of C8: the legacy skin of `abc` at size 16. -/
theorem legacy_head_equals_avatar_witness :
    headImage refLib legacySkin (16 : Int).toNat = avatarImage refLib legacySkin (16 : Int).toNat ∧
    (generateHead refLib legacyUploaded "abc" "/storage/skins/abc_skin.png" 16).2.readFile
        (generateHead refLib legacyUploaded "abc" "/storage/skins/abc_skin.png" 16).1 =
      (generateAvatar refLib legacyUploaded "abc" "/storage/skins/abc_skin.png" 16).2.readFile
        (generateAvatar refLib legacyUploaded "abc" "/storage/skins/abc_skin.png" 16).1 :=
  have h := legacy_head_equals_avatar refLib legacyUploaded "abc" "/storage/skins/abc_skin.png"
    16 (skinFile 64 32 ⟨0, 0, 255, 255⟩ ⟨255, 0, 0, 128⟩) legacySkin
    (by decide!) rfl (by decide!) (by decide!) rfl rfl (by decide) (by decide)
  ⟨h.1, h.2.2⟩

/-! ## Cache keys -/

theorem cacheKeys_append (a b : List Effect) : cacheKeys (a ++ b) = cacheKeys a ++ cacheKeys b := by
  induction a with
  | nil => rfl
  | cons e es ih => cases e <;> simp [cacheKeys, ih]

theorem Extends.refl (key : String) (s : SkinCapeService) : Extends key s s :=
  ⟨[], by simp, by simp [cacheKeys]⟩

theorem Extends.trans {key : String} {s s1 s2 : SkinCapeService} (h1 : Extends key s s1)
    (h2 : Extends key s1 s2) : Extends key s s2 := by
  obtain ⟨t1, e1, k1⟩ := h1
  obtain ⟨t2, e2, k2⟩ := h2
  refine ⟨t1 ++ t2, by rw [e2, e1, List.append_assoc], ?_⟩
  intro k hk
  rw [cacheKeys_append, List.mem_append] at hk
  rcases hk with hk | hk
  · exact k1 k hk
  · exact k2 k hk

theorem Extends.of_log {key : String} {s s1 : SkinCapeService} (t : List Effect)
    (h : s1.log = s.log ++ t) (hk : ∀ k ∈ cacheKeys t, k = key) : Extends key s s1 :=
  ⟨t, h, hk⟩

theorem trace_of_log {s s1 : SkinCapeService} {t : List Effect} (h : s1.log = s.log ++ t) :
    trace s s1 = t := by
  simp [trace, h]

theorem Extends.keys {key : String} {s s1 : SkinCapeService} (h : Extends key s s1) :
    ∀ k ∈ cacheKeys (trace s s1), k = key := by
  obtain ⟨t, e, hk⟩ := h
  rw [trace_of_log e]
  exact hk

theorem Extends.mem_trace {key : String} {s s1 s2 : SkinCapeService} {e : Effect}
    (h1 : s1.log = s.log ++ [e]) (h2 : Extends key s1 s2) : e ∈ trace s s2 := by
  obtain ⟨t, e2, _⟩ := h2
  have : s2.log = s.log ++ (e :: t) := by rw [e2, h1]; simp
  rw [trace_of_log this]
  simp

theorem cacheGet_extends (key : String) (s : SkinCapeService) :
    Extends key s (s.cacheGet key).2 := by
  unfold SkinCapeService.cacheGet
  cases s.RedisClient with
  | none => exact Extends.refl _ _
  | some r => exact Extends.of_log [Effect.redisGet key] rfl (by simp [cacheKeys])

theorem cacheSet_extends (key path : String) (s : SkinCapeService) :
    Extends key s (s.cacheSet key path) := by
  unfold SkinCapeService.cacheSet
  cases s.RedisClient with
  | none => exact Extends.refl _ _
  | some r => exact Extends.of_log [Effect.redisSet key path] rfl (by simp [cacheKeys])

theorem First_extends (key uuid : String) (s : SkinCapeService) :
    Extends key s (s.First uuid).2 :=
  Extends.of_log [Effect.dbFirst uuid] rfl (by simp [cacheKeys])

theorem serveFile_extends (key path : String) (s : SkinCapeService) :
    Extends key s (s.emit (Effect.serveFile path)) :=
  Extends.of_log [Effect.serveFile path] rfl (by simp [cacheKeys])

theorem serveDefaultAvatar_extends (key : String) (lib : Lib) (s : SkinCapeService) (size : Int) :
    Extends key s (serveDefaultAvatar lib s size).2 :=
  Extends.of_log [Effect.pngEncode] rfl (by simp [cacheKeys])

theorem serveDefaultHead_extends (key : String) (lib : Lib) (s : SkinCapeService) (size : Int) :
    Extends key s (serveDefaultHead lib s size).2 :=
  Extends.of_log [Effect.pngEncode] rfl (by simp [cacheKeys])

theorem generateAvatar_extends (key : String) (lib : Lib) (s : SkinCapeService)
    (uuid skinURL : String) (size : Int) :
    Extends key s (generateAvatar lib s uuid skinURL size).2 := by
  cases hf : s.readFile (filepath.Join [".", skinURL]) with
  | none =>
    simp only [generateAvatar, SkinCapeService.Open, hf]
    exact Extends.of_log [Effect.fsOpen (filepath.Join [".", skinURL])] rfl (by simp [cacheKeys])
  | some data =>
    cases hd : lib.pngDecode data with
    | none =>
      simp only [generateAvatar, SkinCapeService.Open, hf, hd]
      exact Extends.of_log [Effect.fsOpen (filepath.Join [".", skinURL]), Effect.pngDecode] (by simp [SkinCapeService.emit])
        (by simp [cacheKeys])
    | some skinImg =>
      by_cases hw : filepath.Join [s.StoragePath, "avatars",
          uuid ++ "_avatar_" ++ fmtInt size ++ ".png"] ∈ s.unwritable
      · simp only [generateAvatar, SkinCapeService.Open, hf, hd, SkinCapeService.CreateFile,
          SkinCapeService.emit, hw, if_true]
        exact Extends.of_log [Effect.fsOpen (filepath.Join [".", skinURL]), Effect.pngDecode] (by simp) (by simp [cacheKeys])
      · simp only [generateAvatar, SkinCapeService.Open, hf, hd, SkinCapeService.CreateFile,
          SkinCapeService.emit, hw, if_false]
        exact Extends.of_log [Effect.fsOpen (filepath.Join [".", skinURL]), Effect.pngDecode, Effect.fsCreate (filepath.Join [s.StoragePath, "avatars",
          uuid ++ "_avatar_" ++ fmtInt size ++ ".png"]),
          Effect.pngEncode] (by simp) (by simp [cacheKeys])

theorem generateHead_extends (key : String) (lib : Lib) (s : SkinCapeService)
    (uuid skinURL : String) (size : Int) :
    Extends key s (generateHead lib s uuid skinURL size).2 := by
  cases hf : s.readFile (filepath.Join [".", skinURL]) with
  | none =>
    simp only [generateHead, SkinCapeService.Open, hf]
    exact Extends.of_log [Effect.fsOpen (filepath.Join [".", skinURL])] rfl (by simp [cacheKeys])
  | some data =>
    cases hd : lib.pngDecode data with
    | none =>
      simp only [generateHead, SkinCapeService.Open, hf, hd]
      exact Extends.of_log [Effect.fsOpen (filepath.Join [".", skinURL]), Effect.pngDecode] (by simp [SkinCapeService.emit])
        (by simp [cacheKeys])
    | some skinImg =>
      by_cases hw : filepath.Join [s.StoragePath, "avatars",
          uuid ++ "_head_" ++ fmtInt size ++ ".png"] ∈ s.unwritable
      · simp only [generateHead, SkinCapeService.Open, hf, hd, SkinCapeService.CreateFile,
          SkinCapeService.emit, hw, if_true]
        exact Extends.of_log [Effect.fsOpen (filepath.Join [".", skinURL]), Effect.pngDecode] (by simp) (by simp [cacheKeys])
      · simp only [generateHead, SkinCapeService.Open, hf, hd, SkinCapeService.CreateFile,
          SkinCapeService.emit, hw, if_false]
        exact Extends.of_log [Effect.fsOpen (filepath.Join [".", skinURL]), Effect.pngDecode, Effect.fsCreate (filepath.Join [s.StoragePath, "avatars",
          uuid ++ "_head_" ++ fmtInt size ++ ".png"]),
          Effect.pngEncode] (by simp) (by simp [cacheKeys])

theorem GetAvatarWithSize_extends (lib : Lib) (s : SkinCapeService) (uuid sizeParam : String)
    (size : Int) (h : Atoi sizeParam = some size) (hr : ¬ (size < 8 ∨ size > 512)) :
    Extends ("avatar:" ++ stripHyphens uuid ++ ":" ++ fmtInt size)
      (s.cacheGet ("avatar:" ++ stripHyphens uuid ++ ":" ++ fmtInt size)).2
      (GetAvatarWithSize lib s uuid sizeParam).2 := by
  simp only [GetAvatarWithSize, Atoi_ne_empty h, h, hr, if_false]
  generalize s.cacheGet ("avatar:" ++ stripHyphens uuid ++ ":" ++ fmtInt size) = cg
  rcases cg with ⟨o, s1⟩
  cases o with
  | some cachedPath => exact serveFile_extends _ _ _
  | none =>
    simp only
    have E2 := First_extends ("avatar:" ++ stripHyphens uuid ++ ":" ++ fmtInt size)
      (stripHyphens uuid) s1
    generalize s1.First (stripHyphens uuid) = fr at E2 ⊢
    rcases fr with ⟨ou, s2⟩
    cases ou with
    | none => exact E2.trans (serveDefaultAvatar_extends _ _ _ _)
    | some userSkin =>
      simp only
      split
      · exact E2.trans (serveDefaultAvatar_extends _ _ _ _)
      · have E3 := generateAvatar_extends ("avatar:" ++ stripHyphens uuid ++ ":" ++ fmtInt size)
          lib s2 (stripHyphens uuid) userSkin.SkinURL size
        generalize generateAvatar lib s2 (stripHyphens uuid) userSkin.SkinURL size = gr at E3 ⊢
        rcases gr with ⟨avatarPath, s3⟩
        simp only
        split
        · exact (E2.trans E3).trans (serveDefaultAvatar_extends _ _ _ _)
        · exact ((E2.trans E3).trans (cacheSet_extends _ _ _)).trans (serveFile_extends _ _ _)

theorem GetHeadWithSize_extends (lib : Lib) (s : SkinCapeService) (uuid sizeParam : String)
    (size : Int) (h : Atoi sizeParam = some size) (hr : ¬ (size < 8 ∨ size > 512)) :
    Extends ("head:" ++ stripHyphens uuid ++ ":" ++ fmtInt size)
      (s.cacheGet ("head:" ++ stripHyphens uuid ++ ":" ++ fmtInt size)).2
      (GetHeadWithSize lib s uuid sizeParam).2 := by
  simp only [GetHeadWithSize, Atoi_ne_empty h, h, hr, if_false]
  generalize s.cacheGet ("head:" ++ stripHyphens uuid ++ ":" ++ fmtInt size) = cg
  rcases cg with ⟨o, s1⟩
  cases o with
  | some cachedPath => exact serveFile_extends _ _ _
  | none =>
    simp only
    have E2 := First_extends ("head:" ++ stripHyphens uuid ++ ":" ++ fmtInt size)
      (stripHyphens uuid) s1
    generalize s1.First (stripHyphens uuid) = fr at E2 ⊢
    rcases fr with ⟨ou, s2⟩
    cases ou with
    | none => exact E2.trans (serveDefaultHead_extends _ _ _ _)
    | some userSkin =>
      simp only
      split
      · exact E2.trans (serveDefaultHead_extends _ _ _ _)
      · have E3 := generateHead_extends ("head:" ++ stripHyphens uuid ++ ":" ++ fmtInt size)
          lib s2 (stripHyphens uuid) userSkin.SkinURL size
        generalize generateHead lib s2 (stripHyphens uuid) userSkin.SkinURL size = gr at E3 ⊢
        rcases gr with ⟨headPath, s3⟩
        simp only
        split
        · exact (E2.trans E3).trans (serveDefaultHead_extends _ _ _ _)
        · exact ((E2.trans E3).trans (cacheSet_extends _ _ _)).trans (serveFile_extends _ _ _)

theorem cacheGet_log (s : SkinCapeService) (r : Redis) (key : String)
    (hr : s.RedisClient = some r) : (s.cacheGet key).2.log = s.log ++ [Effect.redisGet key] := by
  simp [SkinCapeService.cacheGet, hr, SkinCapeService.emit]

/-- C4 (as amended): the cache key that a render looks up and stores under is
built from kind, identity and size alone, `avatar:<identity>:<size>` or
`head:<identity>:<size>`: whatever the state of the service, and so whatever the
fingerprint of the stored skin, every cache key a render touches is that one,
and with a Redis client and a size in [8,512] it is looked up. -/
theorem cache_key_is_kind_identity_size (lib : Lib) (s : SkinCapeService)
    (uuid sizeParam : String) (size : Int) (h : Atoi sizeParam = some size) :
    (∀ k ∈ cacheKeys (trace s (GetAvatarWithSize lib s uuid sizeParam).2),
      k = "avatar:" ++ stripHyphens uuid ++ ":" ++ fmtInt size) ∧
    (∀ k ∈ cacheKeys (trace s (GetHeadWithSize lib s uuid sizeParam).2),
      k = "head:" ++ stripHyphens uuid ++ ":" ++ fmtInt size) ∧
    (s.RedisClient ≠ none → 8 ≤ size → size ≤ 512 →
      Effect.redisGet ("avatar:" ++ stripHyphens uuid ++ ":" ++ fmtInt size) ∈
        trace s (GetAvatarWithSize lib s uuid sizeParam).2 ∧
      Effect.redisGet ("head:" ++ stripHyphens uuid ++ ":" ++ fmtInt size) ∈
        trace s (GetHeadWithSize lib s uuid sizeParam).2) := by
  refine ⟨?_, ?_, ?_⟩
  · by_cases hr : size < 8 ∨ size > 512
    · rw [GetAvatarWithSize_rejected lib s uuid sizeParam size h hr]
      exact (Extends.refl _ s).keys
    · exact ((cacheGet_extends _ s).trans
        (GetAvatarWithSize_extends lib s uuid sizeParam size h hr)).keys
  · by_cases hr : size < 8 ∨ size > 512
    · rw [GetHeadWithSize_rejected lib s uuid sizeParam size h hr]
      exact (Extends.refl _ s).keys
    · exact ((cacheGet_extends _ s).trans
        (GetHeadWithSize_extends lib s uuid sizeParam size h hr)).keys
  · intro hR h8 h512
    have hr : ¬ (size < 8 ∨ size > 512) := by omega
    obtain ⟨r, hR⟩ := Option.ne_none_iff_exists'.mp hR
    exact ⟨Extends.mem_trace (cacheGet_log s r _ hR)
        (GetAvatarWithSize_extends lib s uuid sizeParam size h hr),
      Extends.mem_trace (cacheGet_log s r _ hR)
        (GetHeadWithSize_extends lib s uuid sizeParam size h hr)⟩

set_option maxRecDepth 100000 in
/-- Witness of C4 (as amended): the renders of `abc` at size 16 after the
re-upload. -/
theorem cache_key_is_kind_identity_size_witness :
    Effect.redisGet ("avatar:" ++ stripHyphens "abc" ++ ":" ++ fmtInt 16) ∈
        trace reuploaded (GetAvatarWithSize refLib reuploaded "abc" "16").2 ∧
      Effect.redisGet ("head:" ++ stripHyphens "abc" ++ ":" ++ fmtInt 16) ∈
        trace reuploaded (GetHeadWithSize refLib reuploaded "abc" "16").2 :=
  (cache_key_is_kind_identity_size refLib reuploaded "abc" "16" 16 (by decide)).2.2
    (by decide!) (by decide) (by decide)

set_option maxRecDepth 100000 in
/-- C4 (counterexample to the claim as stated): the two versions of the skin of
`abc`, before and after the re-upload, have different fingerprints, and the
renders at size 16 look up and store under the same keys `avatar:abc:16` and
`head:abc:16` for both. -/
theorem cache_key_same_for_two_fingerprints :
    rendered.DB.map UserSkin.SkinHash ≠ reuploaded.DB.map UserSkin.SkinHash ∧
    cacheKeys (trace rendered (GetAvatarWithSize refLib rendered "abc" "16").2) =
      ["avatar:abc:16"] ∧
    cacheKeys (trace reuploaded (GetAvatarWithSize refLib reuploaded "abc" "16").2) =
      ["avatar:abc:16", "avatar:abc:16"] ∧
    cacheKeys (trace rendered (GetHeadWithSize refLib rendered "abc" "16").2) =
      ["head:abc:16"] ∧
    cacheKeys (trace reuploaded (GetHeadWithSize refLib reuploaded "abc" "16").2) =
      ["head:abc:16"] := by
  decide!

/-! ## Placeholder -/

theorem splitSlash_ne_nil (p : List Char) : splitSlash p ≠ [] := by
  cases p with
  | nil => simp [splitSlash]
  | cons c cs =>
    simp only [splitSlash]
    split
    · simp
    · split <;> simp

theorem splitSlash_append_slash (x y : List Char) :
    splitSlash (x ++ '/' :: y) = splitSlash x ++ splitSlash y := by
  induction x with
  | nil => simp [splitSlash]
  | cons c cs ih =>
    by_cases hc : c = '/'
    · subst hc
      simp [splitSlash, ih]
    · simp only [List.cons_append, splitSlash, hc, if_false]
      have ih2 : splitSlash (cs.append ('/' :: y)) = splitSlash cs ++ splitSlash y := ih
      rw [ih2]
      cases h : splitSlash cs with
      | nil => exact absurd h (splitSlash_ne_nil cs)
      | cons w ws => simp

theorem splitSlash_of_not_mem (y : List Char) (h : '/' ∉ y) : splitSlash y = [y] := by
  induction y with
  | nil => rfl
  | cons c cs ih =>
    have hc : c ≠ '/' := fun e => h (by simp [e])
    have hcs : '/' ∉ cs := fun e => h (List.mem_cons_of_mem _ e)
    simp [splitSlash, hc, ih hcs]

theorem afterSlash_append_slash (x y : List Char) :
    afterSlash (x ++ '/' :: y) = afterSlash y := by
  unfold afterSlash
  rw [splitSlash_append_slash]
  cases h : splitSlash y with
  | nil => exact absurd h (splitSlash_ne_nil y)
  | cons w ws =>
    obtain ⟨z, hz⟩ : ∃ z, (w :: ws).getLast? = some z := by
      cases hl : (w :: ws).getLast? with
      | none => simp at hl
      | some z => exact ⟨z, rfl⟩
    simp [List.getLastD_eq_getLast?, List.getLast?_append, hz]

theorem afterSlash_of_not_mem (y : List Char) (h : '/' ∉ y) : afterSlash y = y := by
  simp [afterSlash, splitSlash_of_not_mem y h]

theorem afterSlash_cons_slash (y : List Char) : afterSlash ('/' :: y) = afterSlash y :=
  afterSlash_append_slash [] y

theorem splitSlash_eq_append_afterSlash (p : List Char) :
    ∃ front, splitSlash p = front ++ [afterSlash p] := by
  unfold afterSlash
  rcases List.eq_nil_or_concat (splitSlash p) with h | ⟨front, c, h⟩
  · exact absurd h (splitSlash_ne_nil p)
  · exact ⟨front, by rw [h]; simp⟩

theorem mem_splitSlash_not_slash (p : List Char) : ∀ w ∈ splitSlash p, '/' ∉ w := by
  induction p with
  | nil => simp [splitSlash]
  | cons c cs ih =>
    by_cases hc : c = '/'
    · subst hc
      intro w hw
      simp only [splitSlash, if_true, List.mem_cons] at hw
      rcases hw with hw | hw
      · subst hw; simp
      · exact ih w hw
    · intro w hw
      simp only [splitSlash, hc, if_false] at hw
      cases h : splitSlash cs with
      | nil => exact absurd h (splitSlash_ne_nil cs)
      | cons v vs =>
        rw [h] at hw ih
        simp only [List.mem_cons] at hw
        rcases hw with hw | hw
        · subst hw
          have := ih v (by simp)
          simp only [List.mem_cons, not_or]
          exact ⟨fun e => hc e.symm, this⟩
        · exact ih w (by simp [hw])

theorem afterSlash_not_slash (p : List Char) : '/' ∉ afterSlash p := by
  obtain ⟨front, h⟩ := splitSlash_eq_append_afterSlash p
  exact mem_splitSlash_not_slash p _ (by rw [h]; simp)

theorem afterSlash_joinSlash_concat (l : List (List Char)) (c : List Char) :
    afterSlash (joinSlash (l ++ [c])) = afterSlash c := by
  induction l with
  | nil => simp [joinSlash]
  | cons w ws ih =>
    have : joinSlash (w :: ws ++ [c]) = w ++ '/' :: joinSlash (ws ++ [c]) := by
      cases ws <;> simp [joinSlash]
    rw [this, afterSlash_append_slash, ih]

theorem foldl_cleanStep_concat (rooted : Bool) (front : List (List Char)) (c : List Char)
    (hc : NormalComp c) :
    (front ++ [c]).foldl (cleanStep rooted) [] = c :: front.foldl (cleanStep rooted) [] := by
  rw [List.foldl_append]
  simp [cleanStep, hc.1, hc.2.1, hc.2.2]

theorem afterSlash_Clean (path : String) (hc : NormalComp (afterSlash path.data)) :
    afterSlash (filepath.Clean path).data = afterSlash path.data := by
  obtain ⟨front, hfront⟩ := splitSlash_eq_append_afterSlash path.data
  have hns := afterSlash_not_slash path.data
  have hbody : afterSlash (joinSlash (((splitSlash path.data).foldl
      (cleanStep (decide (path.data.head? = some '/'))) []).reverse)) = afterSlash path.data := by
    rw [hfront, foldl_cleanStep_concat _ _ _ hc, List.reverse_cons, afterSlash_joinSlash_concat,
      afterSlash_of_not_mem _ hns]
  unfold filepath.Clean
  simp only
  split
  · show afterSlash ('/' :: _) = _
    rw [afterSlash_cons_slash]
    exact hbody
  · split
    · rename_i hb
      rw [hb] at hbody
      exact absurd hbody.symm hc.1
    · exact hbody

theorem digitChar_ne_slash (n : Nat) : Nat.digitChar n ≠ '/' := by
  by_cases h : n < 16
  · interval_cases n <;> decide
  ·
    have h0 : n ≠ 0 := by omega
    have h1 : n ≠ 1 := by omega
    have h2 : n ≠ 2 := by omega
    have h3 : n ≠ 3 := by omega
    have h4 : n ≠ 4 := by omega
    have h5 : n ≠ 5 := by omega
    have h6 : n ≠ 6 := by omega
    have h7 : n ≠ 7 := by omega
    have h8 : n ≠ 8 := by omega
    have h9 : n ≠ 9 := by omega
    have h10 : n ≠ 10 := by omega
    have h11 : n ≠ 11 := by omega
    have h12 : n ≠ 12 := by omega
    have h13 : n ≠ 13 := by omega
    have h14 : n ≠ 14 := by omega
    have h15 : n ≠ 15 := by omega
    simp only [Nat.digitChar, h0, h1, h2, h3, h4, h5, h6, h7, h8, h9, h10, h11, h12, h13, h14, h15, if_false]
    decide

theorem toDigitsCore_not_slash (base : Nat) :
    ∀ (fuel n : Nat) (ds : List Char), '/' ∉ ds → '/' ∉ Nat.toDigitsCore base fuel n ds := by
  intro fuel
  induction fuel with
  | zero => intro n ds h; simpa [Nat.toDigitsCore] using h
  | succ f ih =>
    intro n ds h
    have hd : '/' ∉ Nat.digitChar (n % base) :: ds := by
      simp only [List.mem_cons, not_or]
      exact ⟨fun e => digitChar_ne_slash _ e.symm, h⟩
    simp only [Nat.toDigitsCore]
    split
    · exact hd
    · exact ih _ _ hd

theorem natRepr_not_slash (n : Nat) : '/' ∉ (Nat.repr n).data := by
  simp only [Nat.repr, Nat.toDigits, List.asString]
  exact toDigitsCore_not_slash 10 _ _ _ (by simp)

theorem fmtInt_not_slash (n : Int) : '/' ∉ (fmtInt n).data := by
  cases n with
  | ofNat m => exact natRepr_not_slash m
  | negSucc m =>
    show '/' ∉ ("-" ++ Nat.repr (Nat.succ m)).data
    simp only [String.data_append, List.mem_append, not_or]
    exact ⟨by decide, natRepr_not_slash _⟩

theorem string_append_ne_empty (a b : String) (hb : b.data ≠ []) : a ++ b ≠ "" := by
  intro h
  have := congrArg String.data h
  simp only [String.data_append, List.append_eq_nil] at this
  exact hb this.2

theorem dropWhile_empty_concat (pre : List String) (last : String) (h : last ≠ "") :
    ∃ front, (pre ++ [last]).dropWhile (fun e => decide (e = "")) = front ++ [last] := by
  induction pre with
  | nil => exact ⟨[], by simp [List.dropWhile, h]⟩
  | cons e es ih =>
    by_cases he : e = ""
    · obtain ⟨front, hf⟩ := ih
      exact ⟨front, by simp [List.dropWhile, he, hf]⟩
    · exact ⟨e :: es, by simp [List.dropWhile, he]⟩

theorem afterSlash_Join (pre : List String) (last : String) (h : last ≠ "")
    (hc : NormalComp (afterSlash last.data)) :
    afterSlash (filepath.Join (pre ++ [last])).data = afterSlash last.data := by
  obtain ⟨front, hf⟩ := dropWhile_empty_concat pre last h
  have hjoin : afterSlash (joinSlash ((front ++ [last]).map String.data)) = afterSlash last.data := by
    rw [List.map_append]
    exact afterSlash_joinSlash_concat _ _
  unfold filepath.Join
  rw [hf]
  have hne : front ++ [last] ≠ [] := by simp
  split
  · rename_i heq
    exact absurd heq hne
  · rw [afterSlash_Clean]
    · exact hjoin
    · show NormalComp (afterSlash (joinSlash ((front ++ [last]).map String.data)))
      rw [hjoin]
      exact hc

theorem afterSlash_cons_ne (c : Char) (w : List Char) (hc : c ≠ '/') :
    afterSlash (c :: w) = if '/' ∈ w then afterSlash w else c :: w := by
  by_cases h : '/' ∈ w
  · obtain ⟨a, b, rfl⟩ := List.append_of_mem h
    rw [if_pos h]
    have : c :: (a ++ '/' :: b) = (c :: a) ++ '/' :: b := rfl
    rw [this, afterSlash_append_slash, afterSlash_append_slash]
  · rw [if_neg h]
    exact afterSlash_of_not_mem _ (by simp [h, Ne.symm hc])

theorem afterSlash_append_of_not_mem (u t : List Char) (ht : '/' ∉ t) :
    afterSlash (u ++ t) = afterSlash u ++ t := by
  induction u with
  | nil => simp [afterSlash_of_not_mem t ht, afterSlash_of_not_mem [] (by simp)]
  | cons c cs ih =>
    by_cases hc : c = '/'
    · subst hc
      rw [List.cons_append, afterSlash_cons_slash, afterSlash_cons_slash, ih]
    · rw [List.cons_append, afterSlash_cons_ne c _ hc, afterSlash_cons_ne c _ hc]
      by_cases hs : '/' ∈ cs
      · simp [hs, ih]
      · simp [hs, ht]

theorem normalComp_append (x t : List Char) (ht : 3 ≤ t.length) : NormalComp (x ++ t) := by
  have hl : 3 ≤ (x ++ t).length := by rw [List.length_append]; omega
  refine ⟨?_, ?_, ?_⟩ <;> intro e <;> rw [e] at hl <;> simp at hl

theorem derived_name_after (u tag : String) (size : Int) (htag : '/' ∉ tag.data) :
    afterSlash (u ++ tag ++ fmtInt size ++ ".png").data =
      afterSlash u.data ++ (tag.data ++ ((fmtInt size).data ++ ".png".data)) := by
  have ht : '/' ∉ tag.data ++ ((fmtInt size).data ++ ".png".data) := by
    simp only [List.mem_append, not_or]
    exact ⟨htag, fmtInt_not_slash size, by decide⟩
  simp only [String.data_append, List.append_assoc]
  exact afterSlash_append_of_not_mem _ _ ht

theorem skin_name_after (u : String) :
    afterSlash ("/storage/skins/" ++ u ++ "_skin.png").data = afterSlash u.data ++ "_skin.png".data := by
  have h1 : ("/storage/skins/" ++ u ++ "_skin.png").data =
      "/storage/skins".data ++ '/' :: (u.data ++ "_skin.png".data) := by
    simp only [String.data_append, List.append_assoc]
    rfl
  rw [h1, afterSlash_append_slash]
  exact afterSlash_append_of_not_mem _ _ (by decide)

theorem skin_path_ne_derived_path (sp u tag : String) (size : Int) (htag : '/' ∉ tag.data)
    (hkind : ∀ rest, "_skin.png".data ≠ tag.data ++ rest) :
    filepath.Join [".", "/storage/skins/" ++ u ++ "_skin.png"] ≠
      filepath.Join [sp, "avatars", u ++ tag ++ fmtInt size ++ ".png"] := by
  intro e
  have e2 := congrArg (fun p => afterSlash p.data) e
  simp only at e2
  have hl := afterSlash_Join ["."] ("/storage/skins/" ++ u ++ "_skin.png")
    (string_append_ne_empty _ _ (by decide))
    (by rw [skin_name_after]; exact normalComp_append _ _ (by decide))
  have hr := afterSlash_Join [sp, "avatars"] (u ++ tag ++ fmtInt size ++ ".png")
    (string_append_ne_empty _ _ (by decide))
    (by rw [derived_name_after u tag size htag]
        rw [← List.append_assoc, ← List.append_assoc]
        exact normalComp_append _ _ (by decide))
  rw [show [".", "/storage/skins/" ++ u ++ "_skin.png"] =
      ["."] ++ ["/storage/skins/" ++ u ++ "_skin.png"] from rfl, hl,
    show [sp, "avatars", u ++ tag ++ fmtInt size ++ ".png"] =
      [sp, "avatars"] ++ [u ++ tag ++ fmtInt size ++ ".png"] from rfl, hr,
    skin_name_after, derived_name_after u tag size htag] at e2
  exact hkind _ (List.append_cancel_left e2)

/-! ## Renders, case by case -/

theorem Clean_ne_empty (path : String) : filepath.Clean path ≠ "" := by
  unfold filepath.Clean
  simp only
  split
  · intro h
    have := congrArg String.data h
    simp at this
  · split
    · decide
    · rename_i hb
      intro h
      exact hb (congrArg String.data h)

theorem derived_path_ne_empty (sp name : String) :
    filepath.Join [sp, "avatars", name] ≠ "" := by
  unfold filepath.Join
  by_cases h : sp = ""
  · subst h
    simp only [List.dropWhile, decide_True, show decide ("avatars" = "") = false from by decide]
    exact Clean_ne_empty _
  · simp only [List.dropWhile, h, decide_False]
    exact Clean_ne_empty _

theorem SameWorld.same (s : SkinCapeService) : SameWorld s s :=
  ⟨rfl, rfl, rfl, rfl, rfl, rfl⟩

theorem SameWorld.chain {s s1 s2 : SkinCapeService} (h1 : SameWorld s s1) (h2 : SameWorld s1 s2) :
    SameWorld s s2 :=
  ⟨h2.1.trans h1.1, h2.2.1.trans h1.2.1, h2.2.2.1.trans h1.2.2.1, h2.2.2.2.1.trans h1.2.2.2.1,
    h2.2.2.2.2.1.trans h1.2.2.2.2.1, h2.2.2.2.2.2.trans h1.2.2.2.2.2⟩

theorem SameWorld.symm {s s1 : SkinCapeService} (h : SameWorld s s1) : SameWorld s1 s :=
  ⟨h.1.symm, h.2.1.symm, h.2.2.1.symm, h.2.2.2.1.symm, h.2.2.2.2.1.symm, h.2.2.2.2.2.symm⟩

theorem SameWorld.emit (s : SkinCapeService) (e : Effect) : SameWorld s (s.emit e) :=
  ⟨rfl, rfl, rfl, rfl, rfl, rfl⟩

theorem SameWorld.cacheGet (s : SkinCapeService) (key : String) :
    SameWorld s (s.cacheGet key).2 := by
  unfold SkinCapeService.cacheGet
  cases s.RedisClient <;> exact ⟨rfl, rfl, rfl, rfl, rfl, rfl⟩

theorem SameWorld.cacheGet_eq {s s1 : SkinCapeService} (h : SameWorld s s1) (key : String) :
    (s1.cacheGet key).1 = (s.cacheGet key).1 := by
  unfold SkinCapeService.cacheGet
  rw [h.2.2.1]
  cases s.RedisClient <;> rfl

theorem SameWorld.readFile {s s1 : SkinCapeService} (h : SameWorld s s1) (path : String) :
    s1.readFile path = s.readFile path := by
  unfold SkinCapeService.readFile
  rw [h.2.2.2.2.1]

theorem SameWorld.storedSkin {s s1 : SkinCapeService} (h : SameWorld s s1) (lib : Lib)
    (uuid : String) : storedSkin lib s1 uuid = storedSkin lib s uuid := by
  unfold SkinsCapes.storedSkin SkinCapeService.readFile
  rw [h.1, h.2.2.2.2.1]

theorem SameWorld.served {s s1 : SkinCapeService} (h : SameWorld s s1) (r : Response) :
    s1.served r = s.served r := by
  cases r <;> simp [SkinCapeService.served, h.readFile]

theorem deriveWith_of_source (tag : String) (recipe : Lib → Image NRGBA → Nat → Image RGBA)
    (lib : Lib) (s : SkinCapeService) (uuid skinURL : String) (size : Int) (data : List Nat)
    (img : Image NRGBA) (hfile : s.readFile (filepath.Join [".", skinURL]) = some data)
    (hdec : lib.pngDecode data = some img)
    (hw : filepath.Join [s.StoragePath, "avatars", uuid ++ tag ++ fmtInt size ++ ".png"]
      ∉ s.unwritable) :
    deriveWith tag recipe lib s uuid skinURL size =
      (filepath.Join [s.StoragePath, "avatars", uuid ++ tag ++ fmtInt size ++ ".png"],
        { s with
          disk := (filepath.Join [s.StoragePath, "avatars", uuid ++ tag ++ fmtInt size ++ ".png"],
            lib.pngEncode (recipe lib img size.toNat)) ::
              s.disk.filter (fun e => decide (e.1 ≠ filepath.Join [s.StoragePath, "avatars",
                uuid ++ tag ++ fmtInt size ++ ".png"])),
          log := s.log ++ [Effect.fsOpen (filepath.Join [".", skinURL])] ++ [Effect.pngDecode] ++
            [Effect.fsCreate (filepath.Join [s.StoragePath, "avatars",
              uuid ++ tag ++ fmtInt size ++ ".png"])] ++ [Effect.pngEncode] }) := by
  simp [deriveWith, SkinCapeService.Open, hfile, hdec, SkinCapeService.emit,
    SkinCapeService.CreateFile, hw]

theorem deriveWith_without_source (tag : String)
    (recipe : Lib → Image NRGBA → Nat → Image RGBA) (lib : Lib) (s : SkinCapeService)
    (uuid skinURL : String) (size : Int)
    (h : (match s.readFile (filepath.Join [".", skinURL]) with
      | none => none
      | some data => lib.pngDecode data) = none ∨
      filepath.Join [s.StoragePath, "avatars", uuid ++ tag ++ fmtInt size ++ ".png"]
        ∈ s.unwritable) :
    (deriveWith tag recipe lib s uuid skinURL size).1 = "" ∧
    SameWorld s (deriveWith tag recipe lib s uuid skinURL size).2 := by
  cases hf : s.readFile (filepath.Join [".", skinURL]) with
  | none =>
    simp only [deriveWith, SkinCapeService.Open, hf]
    exact ⟨trivial, SameWorld.emit _ _⟩
  | some data =>
    cases hd : lib.pngDecode data with
    | none =>
      simp only [deriveWith, SkinCapeService.Open, hf, hd]
      exact ⟨trivial, (SameWorld.emit _ _).chain (SameWorld.emit _ _)⟩
    | some img =>
      rw [hf] at h
      simp only [hd] at h
      rcases h with h | h
      · exact absurd h (by simp)
      · simp only [deriveWith, SkinCapeService.Open, hf, hd, SkinCapeService.CreateFile,
          SkinCapeService.emit, h, if_true]
        exact ⟨trivial, ⟨rfl, rfl, rfl, rfl, rfl, rfl⟩⟩

theorem storedSkin_some {lib : Lib} {s : SkinCapeService} {uuid : String} {img : Image NRGBA}
    (h : storedSkin lib s uuid = some img) :
    ∃ userSkin data, s.DB.find? (fun r => decide (r.UserUUID = uuid)) = some userSkin ∧
      userSkin.SkinURL ≠ "" ∧ s.readFile (filepath.Join [".", userSkin.SkinURL]) = some data ∧
      lib.pngDecode data = some img := by
  unfold storedSkin at h
  cases hf : s.DB.find? (fun r => decide (r.UserUUID = uuid)) with
  | none => simp [hf] at h
  | some userSkin =>
    simp only [hf] at h
    by_cases hu : userSkin.SkinURL = ""
    · simp [hu] at h
    · simp only [hu, if_false] at h
      cases hd : s.readFile (filepath.Join [".", userSkin.SkinURL]) with
      | none => simp [hd] at h
      | some data =>
        simp only [hd] at h
        exact ⟨userSkin, data, rfl, hu, hd, h⟩

theorem renderWith_hit (kind tag : String) (recipe : Lib → Image NRGBA → Nat → Image RGBA)
    (fallback : Nat → Image RGBA) (lib : Lib) (s : SkinCapeService) (uuid sizeParam : String)
    (size : Int) (p : String) (h : Atoi sizeParam = some size) (h8 : 8 ≤ size)
    (h512 : size ≤ 512)
    (hhit : (s.cacheGet (kind ++ stripHyphens uuid ++ ":" ++ fmtInt size)).1 = some p) :
    renderWith kind tag recipe fallback lib s uuid sizeParam =
      (Response.file p,
        (s.cacheGet (kind ++ stripHyphens uuid ++ ":" ++ fmtInt size)).2.emit
          (Effect.serveFile p)) := by
  have hr : ¬ (size < 8 ∨ size > 512) := by omega
  simp only [renderWith, Atoi_ne_empty h, h, hr, if_false]
  generalize s.cacheGet (kind ++ stripHyphens uuid ++ ":" ++ fmtInt size) = cg at hhit ⊢
  rcases cg with ⟨o, s1⟩
  simp only at hhit
  subst hhit
  rfl

theorem renderWith_fallback (kind tag : String) (recipe : Lib → Image NRGBA → Nat → Image RGBA)
    (fallback : Nat → Image RGBA) (lib : Lib) (s : SkinCapeService) (uuid sizeParam : String)
    (size : Int) (h : Atoi sizeParam = some size) (h8 : 8 ≤ size) (h512 : size ≤ 512)
    (hmiss : (s.cacheGet (kind ++ stripHyphens uuid ++ ":" ++ fmtInt size)).1 = none)
    (hsrc : storedSkin lib s (stripHyphens uuid) = none ∨
      filepath.Join [s.StoragePath, "avatars",
        stripHyphens uuid ++ tag ++ fmtInt size ++ ".png"] ∈ s.unwritable) :
    (renderWith kind tag recipe fallback lib s uuid sizeParam).1 =
      Response.png (lib.pngEncode (fallback size.toNat)) ∧
    SameWorld s (renderWith kind tag recipe fallback lib s uuid sizeParam).2 := by
  have hr : ¬ (size < 8 ∨ size > 512) := by omega
  have hs1 := SameWorld.cacheGet s (kind ++ stripHyphens uuid ++ ":" ++ fmtInt size)
  simp only [renderWith, Atoi_ne_empty h, h, hr, if_false]
  generalize s.cacheGet (kind ++ stripHyphens uuid ++ ":" ++ fmtInt size) = cg at hmiss hs1 ⊢
  rcases cg with ⟨o, s1⟩
  simp only at hmiss hs1
  subst hmiss
  simp only [SkinCapeService.First, hs1.1]
  cases hf : s.DB.find? (fun r => decide (r.UserUUID = stripHyphens uuid)) with
  | none => exact ⟨rfl, hs1.chain ((SameWorld.emit _ _).chain (SameWorld.emit _ _))⟩
  | some userSkin =>
    simp only
    by_cases hu : userSkin.SkinURL = ""
    · simp only [hu, if_true]
      exact ⟨trivial, hs1.chain ((SameWorld.emit _ _).chain (SameWorld.emit _ _))⟩
    · simp only [hu, if_false]
      have hs2 : SameWorld s (s1.emit (Effect.dbFirst (stripHyphens uuid))) :=
        hs1.chain (SameWorld.emit _ _)
      have hd := deriveWith_without_source tag recipe lib
        (s1.emit (Effect.dbFirst (stripHyphens uuid))) (stripHyphens uuid) userSkin.SkinURL size
        (by
          rw [hs2.readFile, hs2.2.2.2.1, hs2.2.2.2.2.2]
          rcases hsrc with hsrc | hsrc
          · left
            simpa [storedSkin, hf, hu] using hsrc
          · exact Or.inr hsrc)
      generalize deriveWith tag recipe lib (s1.emit (Effect.dbFirst (stripHyphens uuid)))
        (stripHyphens uuid) userSkin.SkinURL size = dr at hd ⊢
      rcases dr with ⟨path, s3⟩
      simp only at hd
      simp only [hd.1, if_true]
      exact ⟨trivial, (hs2.chain hd.2).chain (SameWorld.emit _ _)⟩

theorem renderWith_derive (kind tag : String) (recipe : Lib → Image NRGBA → Nat → Image RGBA)
    (fallback : Nat → Image RGBA) (lib : Lib) (s : SkinCapeService) (uuid sizeParam : String)
    (size : Int) (img : Image NRGBA) (h : Atoi sizeParam = some size) (h8 : 8 ≤ size)
    (h512 : size ≤ 512)
    (hmiss : (s.cacheGet (kind ++ stripHyphens uuid ++ ":" ++ fmtInt size)).1 = none)
    (hsrc : storedSkin lib s (stripHyphens uuid) = some img)
    (hw : filepath.Join [s.StoragePath, "avatars",
      stripHyphens uuid ++ tag ++ fmtInt size ++ ".png"] ∉ s.unwritable) :
    (renderWith kind tag recipe fallback lib s uuid sizeParam).1 =
      Response.file (filepath.Join [s.StoragePath, "avatars",
        stripHyphens uuid ++ tag ++ fmtInt size ++ ".png"]) ∧
    (renderWith kind tag recipe fallback lib s uuid sizeParam).2.disk =
      (filepath.Join [s.StoragePath, "avatars",
          stripHyphens uuid ++ tag ++ fmtInt size ++ ".png"],
        lib.pngEncode (recipe lib img size.toNat)) ::
        s.disk.filter (fun e => decide (e.1 ≠ filepath.Join [s.StoragePath, "avatars",
          stripHyphens uuid ++ tag ++ fmtInt size ++ ".png"])) ∧
    (renderWith kind tag recipe fallback lib s uuid sizeParam).2.RedisClient =
      s.RedisClient.map (fun r =>
        r.Set (kind ++ stripHyphens uuid ++ ":" ++ fmtInt size)
          (filepath.Join [s.StoragePath, "avatars",
            stripHyphens uuid ++ tag ++ fmtInt size ++ ".png"]) 3600) ∧
    (renderWith kind tag recipe fallback lib s uuid sizeParam).2.DB = s.DB ∧
    (renderWith kind tag recipe fallback lib s uuid sizeParam).2.nextID = s.nextID ∧
    (renderWith kind tag recipe fallback lib s uuid sizeParam).2.StoragePath = s.StoragePath ∧
    (renderWith kind tag recipe fallback lib s uuid sizeParam).2.unwritable = s.unwritable := by
  have hr : ¬ (size < 8 ∨ size > 512) := by omega
  obtain ⟨userSkin, data, hf, hu, hfile, hdec⟩ := storedSkin_some hsrc
  have hs1 := SameWorld.cacheGet s (kind ++ stripHyphens uuid ++ ":" ++ fmtInt size)
  simp only [renderWith, Atoi_ne_empty h, h, hr, if_false]
  generalize s.cacheGet (kind ++ stripHyphens uuid ++ ":" ++ fmtInt size) = cg at hmiss hs1 ⊢
  rcases cg with ⟨o, s1⟩
  simp only at hmiss hs1
  subst hmiss
  have hs2 : SameWorld s (s1.emit (Effect.dbFirst (stripHyphens uuid))) :=
    hs1.chain (SameWorld.emit _ _)
  have hd := deriveWith_of_source tag recipe lib (s1.emit (Effect.dbFirst (stripHyphens uuid)))
    (stripHyphens uuid) userSkin.SkinURL size data img (by rw [hs2.readFile]; exact hfile) hdec
    (by rw [hs2.2.2.2.1, hs2.2.2.2.2.2]; exact hw)
  simp only [SkinCapeService.First, hs1.1, hf, hu, if_false, hd]
  have hp := derived_path_ne_empty s.StoragePath
    (stripHyphens uuid ++ tag ++ fmtInt size ++ ".png")
  have hsp : (s1.emit (Effect.dbFirst (stripHyphens uuid))).StoragePath = s.StoragePath :=
    hs2.2.2.2.1
  have hdisk : (s1.emit (Effect.dbFirst (stripHyphens uuid))).disk = s.disk := hs2.2.2.2.2.1
  rw [hsp, hdisk]
  simp only [hp, if_false]
  have hredis : s1.RedisClient = s.RedisClient := hs1.2.2.1
  unfold SkinCapeService.cacheSet
  simp only [SkinCapeService.emit]
  rw [hredis]
  cases s.RedisClient <;> refine ⟨?_, ?_, ?_, ?_, ?_, ?_, ?_⟩ <;>
    first
      | trivial
      | rfl
      | exact hs1.1
      | exact hs1.2.1
      | exact hs1.2.2.2.2.2

/-! ## Repeated renders -/

theorem readFile_of_disk {s s1 : SkinCapeService} {path : String} {data : List Nat}
    (h : s1.disk = (path, data) :: s.disk.filter (fun e => decide (e.1 ≠ path))) :
    s1.readFile path = some data ∧ ∀ p, p ≠ path → s1.readFile p = s.readFile p := by
  refine ⟨?_, ?_⟩
  · simp [SkinCapeService.readFile, h, List.lookup]
  · intro p hp
    have hq : (p == path) = false := by simpa using hp
    have hl := lookup_filter_ne s.disk path p hp
    simp only [SkinCapeService.readFile, h, List.lookup, hq]
    exact hl

theorem storedSkin_congr (lib : Lib) {s s1 : SkinCapeService} (uuid : String)
    (hDB : s1.DB = s.DB)
    (hfile : ∀ p, skinPathOf s uuid = some p → s1.readFile p = s.readFile p) :
    storedSkin lib s1 uuid = storedSkin lib s uuid := by
  unfold storedSkin
  rw [hDB]
  cases hf : s.DB.find? (fun r => decide (r.UserUUID = uuid)) with
  | none => rfl
  | some userSkin =>
    simp only
    by_cases hu : userSkin.SkinURL = ""
    · simp [hu]
    · simp only [hu, if_false]
      rw [hfile _ (by simp [skinPathOf, hf, hu])]

theorem Redis.Get_Set (r : Redis) (key value : String) (expiration : Nat)
    (h : r.alive = true) : (r.Set key value expiration).Get key = some value := by
  simp [Redis.Get, Redis.Set, h, List.lookup]

theorem Redis.Set_of_not_alive (r : Redis) (key value : String) (expiration : Nat)
    (h : r.alive = false) : r.Set key value expiration = r := by
  simp [Redis.Set, h]

theorem cacheGet_fst (s : SkinCapeService) (key : String) :
    (s.cacheGet key).1 = (match s.RedisClient with
      | none => none
      | some r => r.Get key) := by
  unfold SkinCapeService.cacheGet
  cases s.RedisClient <;> rfl

theorem renderWith_twice (kind tag : String) (recipe : Lib → Image NRGBA → Nat → Image RGBA)
    (fallback : Nat → Image RGBA) (lib : Lib) (s : SkinCapeService) (uuid sizeParam : String)
    (size : Int) (h : Atoi sizeParam = some size) (h8 : 8 ≤ size) (h512 : size ≤ 512)
    (hsrc : skinPathOf s (stripHyphens uuid) ≠ some (filepath.Join [s.StoragePath, "avatars",
      stripHyphens uuid ++ tag ++ fmtInt size ++ ".png"])) :
    (renderWith kind tag recipe fallback lib
        (renderWith kind tag recipe fallback lib s uuid sizeParam).2 uuid sizeParam).2.served
      (renderWith kind tag recipe fallback lib
        (renderWith kind tag recipe fallback lib s uuid sizeParam).2 uuid sizeParam).1 =
    (renderWith kind tag recipe fallback lib s uuid sizeParam).2.served
      (renderWith kind tag recipe fallback lib s uuid sizeParam).1 := by
  cases hcg : (s.cacheGet (kind ++ stripHyphens uuid ++ ":" ++ fmtInt size)).1 with
  | some p =>
    have e1 := renderWith_hit kind tag recipe fallback lib s uuid sizeParam size p h h8 h512 hcg
    have hs1 : SameWorld s (renderWith kind tag recipe fallback lib s uuid sizeParam).2 := by
      rw [e1]
      exact (SameWorld.cacheGet _ _).chain (SameWorld.emit _ _)
    have e2 := renderWith_hit kind tag recipe fallback lib _ uuid sizeParam size p h h8 h512
      ((hs1.cacheGet_eq _).trans hcg)
    have hs2 : SameWorld (renderWith kind tag recipe fallback lib s uuid sizeParam).2
        (renderWith kind tag recipe fallback lib
          (renderWith kind tag recipe fallback lib s uuid sizeParam).2 uuid sizeParam).2 := by
      rw [e2]
      exact (SameWorld.cacheGet _ _).chain (SameWorld.emit _ _)
    rw [hs2.served]
    rw [e2]
    simp only
    rw [e1]
  | none =>
    by_cases hfb : storedSkin lib s (stripHyphens uuid) = none ∨
        filepath.Join [s.StoragePath, "avatars",
          stripHyphens uuid ++ tag ++ fmtInt size ++ ".png"] ∈ s.unwritable
    · have e1 := renderWith_fallback kind tag recipe fallback lib s uuid sizeParam size h h8 h512
        hcg hfb
      have hs1 := e1.2
      have e2 := renderWith_fallback kind tag recipe fallback lib
        (renderWith kind tag recipe fallback lib s uuid sizeParam).2 uuid sizeParam size h h8 h512
        ((hs1.cacheGet_eq _).trans hcg)
        (by rw [hs1.storedSkin, hs1.2.2.2.1, hs1.2.2.2.2.2]; exact hfb)
      rw [e2.2.served, e2.1, e1.1]
    · have hfb2 := not_or.mp hfb
      obtain ⟨img, himg⟩ := Option.ne_none_iff_exists'.mp hfb2.1
      obtain ⟨e1, hdisk, hredis, hDB, _, hsp, hunw⟩ := renderWith_derive kind tag recipe fallback
        lib s uuid sizeParam size img h h8 h512 hcg himg hfb2.2
      obtain ⟨hread, hframe⟩ := readFile_of_disk hdisk
      have hserved1 : (renderWith kind tag recipe fallback lib s uuid sizeParam).2.served
          (renderWith kind tag recipe fallback lib s uuid sizeParam).1 =
          some (lib.pngEncode (recipe lib img size.toNat)) := by
        rw [e1]
        exact hread
      rw [hserved1]
      cases hcg2 : ((renderWith kind tag recipe fallback lib s uuid sizeParam).2.cacheGet
          (kind ++ stripHyphens uuid ++ ":" ++ fmtInt size)).1 with
      | some p =>
        have hp : p = filepath.Join [s.StoragePath, "avatars",
            stripHyphens uuid ++ tag ++ fmtInt size ++ ".png"] := by
          rw [cacheGet_fst, hredis] at hcg2
          rw [cacheGet_fst] at hcg
          cases hR : s.RedisClient with
          | none => simp [hR] at hcg2
          | some r =>
            simp only [hR, Option.map] at hcg2 hcg
            by_cases ha : r.alive = true
            · rw [Redis.Get_Set r _ _ _ ha] at hcg2
              exact (Option.some.inj hcg2).symm
            · rw [Redis.Set_of_not_alive r _ _ _ (by simpa using ha), hcg] at hcg2
              exact absurd hcg2 (by simp)
        subst hp
        have e2 := renderWith_hit kind tag recipe fallback lib _ uuid sizeParam size _ h h8 h512
          hcg2
        have hs2 : SameWorld (renderWith kind tag recipe fallback lib s uuid sizeParam).2
            (renderWith kind tag recipe fallback lib
              (renderWith kind tag recipe fallback lib s uuid sizeParam).2 uuid sizeParam).2 := by
          rw [e2]
          exact (SameWorld.cacheGet _ _).chain (SameWorld.emit _ _)
        rw [hs2.served, e2]
        exact hread
      | none =>
        have hstored : storedSkin lib (renderWith kind tag recipe fallback lib s uuid sizeParam).2
            (stripHyphens uuid) = some img := by
          rw [storedSkin_congr lib (stripHyphens uuid) hDB, himg]
          intro p hp
          exact hframe p (fun e => hsrc (by rw [hp, e]))
        obtain ⟨e2, hdisk2, _⟩ := renderWith_derive kind tag recipe fallback lib
          (renderWith kind tag recipe fallback lib s uuid sizeParam).2 uuid sizeParam size img
          h h8 h512 hcg2 hstored (by rw [hsp, hunw]; exact hfb2.2)
        rw [e2, hsp]
        rw [hsp] at hdisk2
        exact (readFile_of_disk hdisk2).1

theorem skinPathOf_ne_derived (s : SkinCapeService) (hw : WrittenByService s)
    (sp uuid tag : String) (size : Int) (htag : '/' ∉ tag.data)
    (hkind : ∀ rest, "_skin.png".data ≠ tag.data ++ rest) :
    skinPathOf s uuid ≠
      some (filepath.Join [sp, "avatars", uuid ++ tag ++ fmtInt size ++ ".png"]) := by
  unfold skinPathOf
  cases hf : s.DB.find? (fun r => decide (r.UserUUID = uuid)) with
  | none => simp
  | some userSkin =>
    simp only
    by_cases hu : userSkin.SkinURL = ""
    · simp [hu]
    · simp only [hu, if_false]
      have hmem := List.mem_of_find?_eq_some hf
      have huuid : userSkin.UserUUID = uuid := by simpa using List.find?_some hf
      rcases hw userSkin hmem with h0 | h1
      · exact absurd h0 hu
      · rw [h1, huuid]
        intro e
        exact skin_path_ne_derived_path sp uuid tag size htag hkind (Option.some.inj e)

theorem avatar_tag_kind : ∀ rest, "_skin.png".data ≠ "_avatar_".data ++ rest := by
  intro rest e
  have := congrArg (fun l => l.get? 1) e
  simp at this

theorem head_tag_kind : ∀ rest, "_skin.png".data ≠ "_head_".data ++ rest := by
  intro rest e
  have := congrArg (fun l => l.get? 1) e
  simp at this

theorem renderWith_hit_sameWorld (kind tag : String)
    (recipe : Lib → Image NRGBA → Nat → Image RGBA) (fallback : Nat → Image RGBA) (lib : Lib)
    (s : SkinCapeService) (uuid sizeParam : String) (size : Int) (p : String)
    (h : Atoi sizeParam = some size) (h8 : 8 ≤ size) (h512 : size ≤ 512)
    (hhit : (s.cacheGet (kind ++ stripHyphens uuid ++ ":" ++ fmtInt size)).1 = some p) :
    (renderWith kind tag recipe fallback lib s uuid sizeParam).1 = Response.file p ∧
    SameWorld s (renderWith kind tag recipe fallback lib s uuid sizeParam).2 := by
  rw [renderWith_hit kind tag recipe fallback lib s uuid sizeParam size p h h8 h512 hhit]
  exact ⟨rfl, (SameWorld.cacheGet _ _).chain (SameWorld.emit _ _)⟩

theorem lookup_filter_of_key {β : Type} (l : List (String × β)) (k : String)
    (p : String × β → Bool) (h : ∀ e ∈ l, e.1 = k → p e = true) :
    (l.filter p).lookup k = l.lookup k := by
  induction l with
  | nil => rfl
  | cons a as ih =>
    have ih2 := ih (fun e he => h e (List.mem_cons_of_mem _ he))
    by_cases hk : a.1 = k
    · have hp := h a (List.mem_cons_self _ _) hk
      rw [List.filter_cons_of_pos hp]
      rcases a with ⟨a1, a2⟩
      simp only at hk
      subst hk
      simp [List.lookup]
    · have hq : (k == a.1) = false := by
        simpa using fun e : k = a.1 => hk e.symm
      rcases a with ⟨a1, a2⟩
      cases hp : p (a1, a2) with
      | true =>
        rw [List.filter_cons_of_pos hp]
        simp only [List.lookup, hq]
        exact ih2
      | false =>
        rw [List.filter_cons_of_neg (by simp [hp])]
        simp only [List.lookup, hq]
        exact ih2

theorem Redis.Get_Elapse (r : Redis) (key : String) (seconds : Nat)
    (h : ∀ d ∈ r.deadlines, d.1 = key → r.now + seconds < d.2) :
    (r.Elapse seconds).Get key = r.Get key := by
  unfold Redis.Get Redis.Elapse
  simp only
  split
  · apply lookup_filter_of_key
    intro e _ he
    rw [decide_eq_true_eq]
    intro d hd hde
    exact h d hd (hde.trans he)
  · rfl

theorem cacheGet_elapse (s : SkinCapeService) (key : String) (seconds : Nat)
    (h : s.keeps key seconds) : ((s.elapse seconds).cacheGet key).1 = (s.cacheGet key).1 := by
  rw [cacheGet_fst, cacheGet_fst]
  unfold SkinCapeService.keeps at h
  unfold SkinCapeService.elapse
  cases hR : s.RedisClient with
  | none => rfl
  | some r =>
    rw [hR] at h
    exact Redis.Get_Elapse r key seconds (h r (by simp [Option.toList]))

theorem renderWith_served_congr (kind tag : String)
    (recipe : Lib → Image NRGBA → Nat → Image RGBA) (fallback : Nat → Image RGBA) (lib : Lib)
    (s s1 : SkinCapeService) (uuid sizeParam : String) (size : Int)
    (h : Atoi sizeParam = some size) (h8 : 8 ≤ size) (h512 : size ≤ 512)
    (hDB : s1.DB = s.DB) (hsp : s1.StoragePath = s.StoragePath) (hdisk : s1.disk = s.disk)
    (hunw : s1.unwritable = s.unwritable)
    (hget : (s1.cacheGet (kind ++ stripHyphens uuid ++ ":" ++ fmtInt size)).1 =
      (s.cacheGet (kind ++ stripHyphens uuid ++ ":" ++ fmtInt size)).1) :
    (renderWith kind tag recipe fallback lib s1 uuid sizeParam).2.served
        (renderWith kind tag recipe fallback lib s1 uuid sizeParam).1 =
      (renderWith kind tag recipe fallback lib s uuid sizeParam).2.served
        (renderWith kind tag recipe fallback lib s uuid sizeParam).1 := by
  have hread : ∀ p, s1.readFile p = s.readFile p := by
    intro p
    unfold SkinCapeService.readFile
    rw [hdisk]
  cases hcg : (s.cacheGet (kind ++ stripHyphens uuid ++ ":" ++ fmtInt size)).1 with
  | some p =>
    have e := renderWith_hit_sameWorld kind tag recipe fallback lib s uuid sizeParam size p
      h h8 h512 hcg
    have e1 := renderWith_hit_sameWorld kind tag recipe fallback lib s1 uuid sizeParam size p
      h h8 h512 (hget.trans hcg)
    rw [e.2.served, e1.2.served, e.1, e1.1]
    exact hread p
  | none =>
    have hst : storedSkin lib s1 (stripHyphens uuid) = storedSkin lib s (stripHyphens uuid) :=
      storedSkin_congr lib (stripHyphens uuid) hDB (fun p _ => hread p)
    by_cases hfb : storedSkin lib s (stripHyphens uuid) = none ∨
        filepath.Join [s.StoragePath, "avatars",
          stripHyphens uuid ++ tag ++ fmtInt size ++ ".png"] ∈ s.unwritable
    · have e := renderWith_fallback kind tag recipe fallback lib s uuid sizeParam size h h8 h512
        hcg hfb
      have e1 := renderWith_fallback kind tag recipe fallback lib s1 uuid sizeParam size h h8
        h512 (hget.trans hcg) (by rw [hst, hsp, hunw]; exact hfb)
      rw [e.2.served, e1.2.served, e.1, e1.1]
      rfl
    · have hfb2 := not_or.mp hfb
      obtain ⟨img, himg⟩ := Option.ne_none_iff_exists'.mp hfb2.1
      obtain ⟨e, hd, _⟩ := renderWith_derive kind tag recipe fallback lib s uuid sizeParam size
        img h h8 h512 hcg himg hfb2.2
      obtain ⟨e1, hd1, _⟩ := renderWith_derive kind tag recipe fallback lib s1 uuid sizeParam
        size img h h8 h512 (hget.trans hcg) (hst.trans himg) (by rw [hsp, hunw]; exact hfb2.2)
      rw [e, e1, hsp]
      rw [hsp] at hd1
      exact ((readFile_of_disk hd1).1).trans ((readFile_of_disk hd).1).symm

theorem renderWith_twice_later (kind tag : String)
    (recipe : Lib → Image NRGBA → Nat → Image RGBA) (fallback : Nat → Image RGBA) (lib : Lib)
    (s : SkinCapeService) (uuid sizeParam : String) (size : Int) (seconds : Nat)
    (h : Atoi sizeParam = some size) (h8 : 8 ≤ size) (h512 : size ≤ 512)
    (hsrc : skinPathOf s (stripHyphens uuid) ≠ some (filepath.Join [s.StoragePath, "avatars",
      stripHyphens uuid ++ tag ++ fmtInt size ++ ".png"]))
    (hkeep : (renderWith kind tag recipe fallback lib s uuid sizeParam).2.keeps
      (kind ++ stripHyphens uuid ++ ":" ++ fmtInt size) seconds) :
    (renderWith kind tag recipe fallback lib
        ((renderWith kind tag recipe fallback lib s uuid sizeParam).2.elapse seconds)
        uuid sizeParam).2.served
      (renderWith kind tag recipe fallback lib
        ((renderWith kind tag recipe fallback lib s uuid sizeParam).2.elapse seconds)
        uuid sizeParam).1 =
    (renderWith kind tag recipe fallback lib s uuid sizeParam).2.served
      (renderWith kind tag recipe fallback lib s uuid sizeParam).1 :=
  (renderWith_served_congr kind tag recipe fallback lib
    (renderWith kind tag recipe fallback lib s uuid sizeParam).2
    ((renderWith kind tag recipe fallback lib s uuid sizeParam).2.elapse seconds)
    uuid sizeParam size h h8 h512 rfl rfl rfl rfl
    (cacheGet_elapse _ _ seconds hkeep)).trans
    (renderWith_twice kind tag recipe fallback lib s uuid sizeParam size h h8 h512 hsrc)

set_option maxRecDepth 100000 in
/-- Two renders of one identity, kind and size with nothing between them can
serve different bytes in a store whose record names a skin location that the
service never writes: when the record of `abc` names the derived avatar file
itself, the first avatar render at size 16 overwrites its own source. -/
theorem render_twice_differs_for_foreign_location :
    ¬ WrittenByService foreignSource ∧
    (GetAvatarWithSize refLib (GetAvatarWithSize refLib foreignSource "abc" "16").2
          "abc" "16").2.served
        (GetAvatarWithSize refLib (GetAvatarWithSize refLib foreignSource "abc" "16").2
          "abc" "16").1 ≠
      (GetAvatarWithSize refLib foreignSource "abc" "16").2.served
        (GetAvatarWithSize refLib foreignSource "abc" "16").1 := by
  decide!

/-! ## Cache effect -/

theorem renderWith_second_hit (kind tag : String)
    (recipe : Lib → Image NRGBA → Nat → Image RGBA) (fallback : Nat → Image RGBA) (lib : Lib)
    (s : SkinCapeService) (uuid sizeParam : String) (size : Int) (r : Redis) (p : String)
    (h : Atoi sizeParam = some size) (h8 : 8 ≤ size) (h512 : size ≤ 512)
    (hR : s.RedisClient = some r) (ha : r.alive = true)
    (hfile : (renderWith kind tag recipe fallback lib s uuid sizeParam).1 = Response.file p) :
    (renderWith kind tag recipe fallback lib
        (renderWith kind tag recipe fallback lib s uuid sizeParam).2 uuid sizeParam).1 =
      Response.file p ∧
    trace (renderWith kind tag recipe fallback lib s uuid sizeParam).2
        (renderWith kind tag recipe fallback lib
          (renderWith kind tag recipe fallback lib s uuid sizeParam).2 uuid sizeParam).2 =
      [Effect.redisGet (kind ++ stripHyphens uuid ++ ":" ++ fmtInt size), Effect.serveFile p] := by
  have key : ∃ r1, (renderWith kind tag recipe fallback lib s uuid sizeParam).2.RedisClient =
        some r1 ∧
      ((renderWith kind tag recipe fallback lib s uuid sizeParam).2.cacheGet
        (kind ++ stripHyphens uuid ++ ":" ++ fmtInt size)).1 = some p := by
    cases hcg : (s.cacheGet (kind ++ stripHyphens uuid ++ ":" ++ fmtInt size)).1 with
    | some p1 =>
      have e1 := renderWith_hit kind tag recipe fallback lib s uuid sizeParam size p1 h h8 h512
        hcg
      have hs1 : SameWorld s (renderWith kind tag recipe fallback lib s uuid sizeParam).2 := by
        rw [e1]
        exact (SameWorld.cacheGet _ _).chain (SameWorld.emit _ _)
      have hp : p1 = p := by
        rw [e1] at hfile
        exact Response.file.inj hfile
      subst hp
      exact ⟨r, hs1.2.2.1.trans hR, (hs1.cacheGet_eq _).trans hcg⟩
    | none =>
      by_cases hfb : storedSkin lib s (stripHyphens uuid) = none ∨
          filepath.Join [s.StoragePath, "avatars",
            stripHyphens uuid ++ tag ++ fmtInt size ++ ".png"] ∈ s.unwritable
      · have e1 := renderWith_fallback kind tag recipe fallback lib s uuid sizeParam size h h8
          h512 hcg hfb
        rw [e1.1] at hfile
        exact absurd hfile (by simp)
      · have hfb2 := not_or.mp hfb
        obtain ⟨img, himg⟩ := Option.ne_none_iff_exists'.mp hfb2.1
        obtain ⟨e1, _, hredis, _⟩ := renderWith_derive kind tag recipe fallback lib s uuid
          sizeParam size img h h8 h512 hcg himg hfb2.2
        have hp : filepath.Join [s.StoragePath, "avatars",
            stripHyphens uuid ++ tag ++ fmtInt size ++ ".png"] = p := by
          rw [e1] at hfile
          exact Response.file.inj hfile
        rw [hR, Option.map, hp] at hredis
        refine ⟨_, hredis, ?_⟩
        rw [cacheGet_fst, hredis]
        exact Redis.Get_Set r _ _ _ ha
  obtain ⟨r1, hR1, hhit⟩ := key
  have e2 := renderWith_hit kind tag recipe fallback lib
    (renderWith kind tag recipe fallback lib s uuid sizeParam).2 uuid sizeParam size p h h8 h512
    hhit
  rw [e2]
  refine ⟨rfl, ?_⟩
  apply trace_of_log
  simp only [SkinCapeService.emit]
  rw [cacheGet_log _ r1 _ hR1]
  simp

/-- C12 (as amended): with a Redis client whose server answers, after a render
that served a file (from the cache or freshly derived), the next render for the
same identity, kind and size with no change in between serves the same path
from the cache: its effects are the cache read and the file being served, with
no skin file opened and nothing decoded. -/
theorem second_render_served_from_cache (lib : Lib) (s : SkinCapeService)
    (uuid sizeParam : String) (size : Int) (r : Redis) (h : Atoi sizeParam = some size)
    (h8 : 8 ≤ size) (h512 : size ≤ 512) (hR : s.RedisClient = some r) (ha : r.alive = true) :
    (∀ p, (GetAvatarWithSize lib s uuid sizeParam).1 = Response.file p →
      (GetAvatarWithSize lib (GetAvatarWithSize lib s uuid sizeParam).2 uuid sizeParam).1 =
        Response.file p ∧
      trace (GetAvatarWithSize lib s uuid sizeParam).2
          (GetAvatarWithSize lib (GetAvatarWithSize lib s uuid sizeParam).2 uuid sizeParam).2 =
        [Effect.redisGet ("avatar:" ++ stripHyphens uuid ++ ":" ++ fmtInt size),
          Effect.serveFile p]) ∧
    (∀ p, (GetHeadWithSize lib s uuid sizeParam).1 = Response.file p →
      (GetHeadWithSize lib (GetHeadWithSize lib s uuid sizeParam).2 uuid sizeParam).1 =
        Response.file p ∧
      trace (GetHeadWithSize lib s uuid sizeParam).2
          (GetHeadWithSize lib (GetHeadWithSize lib s uuid sizeParam).2 uuid sizeParam).2 =
        [Effect.redisGet ("head:" ++ stripHyphens uuid ++ ":" ++ fmtInt size),
          Effect.serveFile p]) :=
  ⟨fun p hp => renderWith_second_hit "avatar:" "_avatar_" avatarImage defaultAvatarImage lib s
      uuid sizeParam size r p h h8 h512 hR ha hp,
    fun p hp => renderWith_second_hit "head:" "_head_" headImage defaultHeadImage lib s
      uuid sizeParam size r p h h8 h512 hR ha hp⟩

set_option maxRecDepth 100000 in
/-- Witness of C12 (as amended): the second avatar render of `abc` at size 16
with Redis. -/
theorem second_render_served_from_cache_witness :
    (GetAvatarWithSize refLib (GetAvatarWithSize refLib uploaded "abc" "16").2 "abc" "16").1 =
        Response.file "storage/avatars/abc_avatar_16.png" ∧
      trace (GetAvatarWithSize refLib uploaded "abc" "16").2
          (GetAvatarWithSize refLib (GetAvatarWithSize refLib uploaded "abc" "16").2
            "abc" "16").2 =
        [Effect.redisGet ("avatar:" ++ stripHyphens "abc" ++ ":" ++ fmtInt 16),
          Effect.serveFile "storage/avatars/abc_avatar_16.png"] :=
  (second_render_served_from_cache refLib uploaded "abc" "16" 16 ⟨[], true, [], 0⟩ (by decide)
    (by decide) (by decide) (by decide!) rfl).1 "storage/avatars/abc_avatar_16.png" (by decide!)

set_option maxRecDepth 100000 in
/-- C12 (counterexample to the claim as stated): without a Redis client
(`RedisClient == nil`), after a successful avatar render of `abc` at size 16
the second render opens and decodes the skin and writes the derived file
again. -/
theorem second_render_derives_again_without_redis :
    uploadedWithoutRedis.RedisClient = none ∧
    (GetAvatarWithSize refLib uploadedWithoutRedis "abc" "16").1 =
      Response.file "storage/avatars/abc_avatar_16.png" ∧
    trace (GetAvatarWithSize refLib uploadedWithoutRedis "abc" "16").2
        (GetAvatarWithSize refLib (GetAvatarWithSize refLib uploadedWithoutRedis "abc" "16").2
          "abc" "16").2 =
      [Effect.dbFirst "abc", Effect.fsOpen "storage/skins/abc_skin.png", Effect.pngDecode,
        Effect.fsCreate "storage/avatars/abc_avatar_16.png", Effect.pngEncode,
        Effect.serveFile "storage/avatars/abc_avatar_16.png"] := by
  decide!

theorem renderWith_derive_trace (kind tag : String)
    (recipe : Lib → Image NRGBA → Nat → Image RGBA) (fallback : Nat → Image RGBA) (lib : Lib)
    (s : SkinCapeService) (uuid sizeParam : String) (size : Int) (img : Image NRGBA)
    (h : Atoi sizeParam = some size) (h8 : 8 ≤ size) (h512 : size ≤ 512)
    (hmiss : (s.cacheGet (kind ++ stripHyphens uuid ++ ":" ++ fmtInt size)).1 = none)
    (hsrc : storedSkin lib s (stripHyphens uuid) = some img)
    (hw : filepath.Join [s.StoragePath, "avatars",
      stripHyphens uuid ++ tag ++ fmtInt size ++ ".png"] ∉ s.unwritable) :
    ∃ p pre post, skinPathOf s (stripHyphens uuid) = some p ∧
      trace s (renderWith kind tag recipe fallback lib s uuid sizeParam).2 =
        pre ++ [Effect.dbFirst (stripHyphens uuid), Effect.fsOpen p, Effect.pngDecode,
          Effect.fsCreate (filepath.Join [s.StoragePath, "avatars",
            stripHyphens uuid ++ tag ++ fmtInt size ++ ".png"]),
          Effect.pngEncode] ++ post := by
  have hr : ¬ (size < 8 ∨ size > 512) := by omega
  obtain ⟨userSkin, data, hf, hu, hfile, hdec⟩ := storedSkin_some hsrc
  have hs1 := SameWorld.cacheGet s (kind ++ stripHyphens uuid ++ ":" ++ fmtInt size)
  obtain ⟨t0, ht0, _⟩ := cacheGet_extends (kind ++ stripHyphens uuid ++ ":" ++ fmtInt size) s
  refine ⟨filepath.Join [".", userSkin.SkinURL], t0, ?_⟩
  simp only [renderWith, Atoi_ne_empty h, h, hr, if_false]
  generalize s.cacheGet (kind ++ stripHyphens uuid ++ ":" ++ fmtInt size) = cg at hmiss hs1 ht0 ⊢
  rcases cg with ⟨o, s1⟩
  simp only at hmiss hs1 ht0
  subst hmiss
  have hs2 : SameWorld s (s1.emit (Effect.dbFirst (stripHyphens uuid))) :=
    hs1.chain (SameWorld.emit _ _)
  have hd := deriveWith_of_source tag recipe lib (s1.emit (Effect.dbFirst (stripHyphens uuid)))
    (stripHyphens uuid) userSkin.SkinURL size data img (by rw [hs2.readFile]; exact hfile) hdec
    (by rw [hs2.2.2.2.1, hs2.2.2.2.2.2]; exact hw)
  simp only [SkinCapeService.First, hs1.1, hf, hu, if_false, hd]
  have hp := derived_path_ne_empty s.StoragePath
    (stripHyphens uuid ++ tag ++ fmtInt size ++ ".png")
  have hsp : (s1.emit (Effect.dbFirst (stripHyphens uuid))).StoragePath = s.StoragePath :=
    hs2.2.2.2.1
  rw [hsp]
  simp only [hp, if_false]
  have hpath : skinPathOf s (stripHyphens uuid) = some (filepath.Join [".", userSkin.SkinURL]) := by
    simp [skinPathOf, hf, hu]
  cases hR1 : s1.RedisClient with
  | none =>
    refine ⟨[Effect.serveFile (filepath.Join [s.StoragePath, "avatars",
      stripHyphens uuid ++ tag ++ fmtInt size ++ ".png"])], hpath, ?_⟩
    apply trace_of_log
    simp [SkinCapeService.cacheSet, SkinCapeService.emit, hR1, ht0]
  | some r =>
    refine ⟨[Effect.redisSet (kind ++ stripHyphens uuid ++ ":" ++ fmtInt size)
        (filepath.Join [s.StoragePath, "avatars",
          stripHyphens uuid ++ tag ++ fmtInt size ++ ".png"]),
      Effect.serveFile (filepath.Join [s.StoragePath, "avatars",
        stripHyphens uuid ++ tag ++ fmtInt size ++ ".png"])], hpath, ?_⟩
    apply trace_of_log
    simp [SkinCapeService.cacheSet, SkinCapeService.emit, hR1, ht0]

theorem renderWith_uncached (kind tag : String)
    (recipe : Lib → Image NRGBA → Nat → Image RGBA) (fallback : Nat → Image RGBA) (lib : Lib)
    (s : SkinCapeService) (uuid sizeParam : String) (size : Int) (img : Image NRGBA)
    (h : Atoi sizeParam = some size) (h8 : 8 ≤ size) (h512 : size ≤ 512)
    (hR : ∀ r, s.RedisClient = some r → r.alive = false)
    (hsrc : storedSkin lib s (stripHyphens uuid) = some img)
    (hne : skinPathOf s (stripHyphens uuid) ≠ some (filepath.Join [s.StoragePath, "avatars",
      stripHyphens uuid ++ tag ++ fmtInt size ++ ".png"]))
    (hw : filepath.Join [s.StoragePath, "avatars",
      stripHyphens uuid ++ tag ++ fmtInt size ++ ".png"] ∉ s.unwritable) :
    ((renderWith kind tag recipe fallback lib s uuid sizeParam).1 =
        Response.file (filepath.Join [s.StoragePath, "avatars",
          stripHyphens uuid ++ tag ++ fmtInt size ++ ".png"]) ∧
      ∃ p pre post, skinPathOf s (stripHyphens uuid) = some p ∧
        trace s (renderWith kind tag recipe fallback lib s uuid sizeParam).2 =
          pre ++ [Effect.dbFirst (stripHyphens uuid), Effect.fsOpen p, Effect.pngDecode,
            Effect.fsCreate (filepath.Join [s.StoragePath, "avatars",
              stripHyphens uuid ++ tag ++ fmtInt size ++ ".png"]),
            Effect.pngEncode] ++ post) ∧
    (renderWith kind tag recipe fallback lib s uuid sizeParam).2.RedisClient = s.RedisClient ∧
    (renderWith kind tag recipe fallback lib s uuid sizeParam).2.DB = s.DB ∧
    (renderWith kind tag recipe fallback lib s uuid sizeParam).2.StoragePath = s.StoragePath ∧
    (renderWith kind tag recipe fallback lib s uuid sizeParam).2.unwritable = s.unwritable ∧
    storedSkin lib (renderWith kind tag recipe fallback lib s uuid sizeParam).2
      (stripHyphens uuid) = some img := by
  have hmiss : (s.cacheGet (kind ++ stripHyphens uuid ++ ":" ++ fmtInt size)).1 = none := by
    rw [cacheGet_fst]
    cases hc : s.RedisClient with
    | none => rfl
    | some r => simp [Redis.Get, hR r hc]
  obtain ⟨e1, hdisk, hredis, hDB, _, hsp, hunw⟩ := renderWith_derive kind tag recipe fallback
    lib s uuid sizeParam size img h h8 h512 hmiss hsrc hw
  have htr := renderWith_derive_trace kind tag recipe fallback lib s uuid sizeParam size img
    h h8 h512 hmiss hsrc hw
  refine ⟨⟨e1, htr⟩, ?_, hDB, hsp, hunw, ?_⟩
  · rw [hredis]
    cases hc : s.RedisClient with
    | none => rfl
    | some r => simp [Redis.Set_of_not_alive r _ _ _ (hR r hc)]
  · rw [storedSkin_congr lib (stripHyphens uuid) hDB, hsrc]
    intro p hp
    exact (readFile_of_disk hdisk).2 p (fun e => hne (by rw [hp, e]))

theorem renderWith_uncached_twice (kind tag : String)
    (recipe : Lib → Image NRGBA → Nat → Image RGBA) (fallback : Nat → Image RGBA) (lib : Lib)
    (s : SkinCapeService) (uuid sizeParam : String) (size : Int) (img : Image NRGBA)
    (h : Atoi sizeParam = some size) (h8 : 8 ≤ size) (h512 : size ≤ 512)
    (hR : ∀ r, s.RedisClient = some r → r.alive = false)
    (hsrc : storedSkin lib s (stripHyphens uuid) = some img)
    (hne : skinPathOf s (stripHyphens uuid) ≠ some (filepath.Join [s.StoragePath, "avatars",
      stripHyphens uuid ++ tag ++ fmtInt size ++ ".png"]))
    (hw : filepath.Join [s.StoragePath, "avatars",
      stripHyphens uuid ++ tag ++ fmtInt size ++ ".png"] ∉ s.unwritable) :
    (∃ p pre post, skinPathOf s (stripHyphens uuid) = some p ∧
      trace s (renderWith kind tag recipe fallback lib s uuid sizeParam).2 =
        pre ++ [Effect.dbFirst (stripHyphens uuid), Effect.fsOpen p, Effect.pngDecode,
          Effect.fsCreate (filepath.Join [s.StoragePath, "avatars",
            stripHyphens uuid ++ tag ++ fmtInt size ++ ".png"]),
          Effect.pngEncode] ++ post) ∧
    (∃ p pre post, skinPathOf s (stripHyphens uuid) = some p ∧
      trace (renderWith kind tag recipe fallback lib s uuid sizeParam).2
          (renderWith kind tag recipe fallback lib
            (renderWith kind tag recipe fallback lib s uuid sizeParam).2 uuid sizeParam).2 =
        pre ++ [Effect.dbFirst (stripHyphens uuid), Effect.fsOpen p, Effect.pngDecode,
          Effect.fsCreate (filepath.Join [s.StoragePath, "avatars",
            stripHyphens uuid ++ tag ++ fmtInt size ++ ".png"]),
          Effect.pngEncode] ++ post) := by
  obtain ⟨⟨_, p, pre, post, hp, htr⟩, hR1, hDB, hsp, hunw, hst⟩ :=
    renderWith_uncached kind tag recipe fallback lib s uuid sizeParam size img h h8 h512 hR hsrc
      hne hw
  refine ⟨⟨p, pre, post, hp, htr⟩, ?_⟩
  have hpp : skinPathOf (renderWith kind tag recipe fallback lib s uuid sizeParam).2
      (stripHyphens uuid) = skinPathOf s (stripHyphens uuid) := by
    unfold skinPathOf
    rw [hDB]
  obtain ⟨⟨_, p1, pre1, post1, hp1, htr1⟩, _⟩ :=
    renderWith_uncached kind tag recipe fallback lib
      (renderWith kind tag recipe fallback lib s uuid sizeParam).2 uuid sizeParam size img
      h h8 h512 (fun r hr => hR r (hR1 ▸ hr)) hst (by rw [hpp, hsp]; exact hne)
      (by rw [hsp, hunw]; exact hw)
  rw [hsp] at htr1
  exact ⟨p1, pre1, post1, hpp ▸ hp1, htr1⟩

/-- General form of the second sentence of C12 (as amended): when
`RedisClient` is nil or its server does not answer, and the skin stored for
the identity decodes, a render at a size in [8,512] whose derived file can be
created asks for the record, opens and decodes the skin and creates the derived
file; and so does the render that follows it. -/
theorem render_without_cache_derives_every_time (lib : Lib) (s : SkinCapeService)
    (uuid sizeParam : String) (size : Int) (img : Image NRGBA)
    (h : Atoi sizeParam = some size) (h8 : 8 ≤ size) (h512 : size ≤ 512)
    (hR : ∀ r, s.RedisClient = some r → r.alive = false)
    (hws : WrittenByService s)
    (hsrc : storedSkin lib s (stripHyphens uuid) = some img) :
    (filepath.Join [s.StoragePath, "avatars",
        stripHyphens uuid ++ "_avatar_" ++ fmtInt size ++ ".png"] ∉ s.unwritable →
      (∃ p pre post, skinPathOf s (stripHyphens uuid) = some p ∧
        trace s (GetAvatarWithSize lib s uuid sizeParam).2 =
          pre ++ [Effect.dbFirst (stripHyphens uuid), Effect.fsOpen p, Effect.pngDecode,
            Effect.fsCreate (filepath.Join [s.StoragePath, "avatars",
              stripHyphens uuid ++ "_avatar_" ++ fmtInt size ++ ".png"]),
            Effect.pngEncode] ++ post) ∧
      (∃ p pre post, skinPathOf s (stripHyphens uuid) = some p ∧
        trace (GetAvatarWithSize lib s uuid sizeParam).2
            (GetAvatarWithSize lib (GetAvatarWithSize lib s uuid sizeParam).2 uuid
              sizeParam).2 =
          pre ++ [Effect.dbFirst (stripHyphens uuid), Effect.fsOpen p, Effect.pngDecode,
            Effect.fsCreate (filepath.Join [s.StoragePath, "avatars",
              stripHyphens uuid ++ "_avatar_" ++ fmtInt size ++ ".png"]),
            Effect.pngEncode] ++ post)) ∧
    (filepath.Join [s.StoragePath, "avatars",
        stripHyphens uuid ++ "_head_" ++ fmtInt size ++ ".png"] ∉ s.unwritable →
      (∃ p pre post, skinPathOf s (stripHyphens uuid) = some p ∧
        trace s (GetHeadWithSize lib s uuid sizeParam).2 =
          pre ++ [Effect.dbFirst (stripHyphens uuid), Effect.fsOpen p, Effect.pngDecode,
            Effect.fsCreate (filepath.Join [s.StoragePath, "avatars",
              stripHyphens uuid ++ "_head_" ++ fmtInt size ++ ".png"]),
            Effect.pngEncode] ++ post) ∧
      (∃ p pre post, skinPathOf s (stripHyphens uuid) = some p ∧
        trace (GetHeadWithSize lib s uuid sizeParam).2
            (GetHeadWithSize lib (GetHeadWithSize lib s uuid sizeParam).2 uuid sizeParam).2 =
          pre ++ [Effect.dbFirst (stripHyphens uuid), Effect.fsOpen p, Effect.pngDecode,
            Effect.fsCreate (filepath.Join [s.StoragePath, "avatars",
              stripHyphens uuid ++ "_head_" ++ fmtInt size ++ ".png"]),
            Effect.pngEncode] ++ post)) :=
  ⟨fun hw => renderWith_uncached_twice "avatar:" "_avatar_" avatarImage defaultAvatarImage lib s
      uuid sizeParam size img h h8 h512 hR hsrc
      (skinPathOf_ne_derived s hws _ _ "_avatar_" size (by decide) avatar_tag_kind) hw,
    fun hw => renderWith_uncached_twice "head:" "_head_" headImage defaultHeadImage lib s
      uuid sizeParam size img h h8 h512 hR hsrc
      (skinPathOf_ne_derived s hws _ _ "_head_" size (by decide) head_tag_kind) hw⟩

set_option maxRecDepth 100000 in
/-- An instance of `render_without_cache_derives_every_time`: the skin of
`abc` rendered as an avatar at size 16 when the Redis server does not
answer. -/
theorem render_redis_down_derives_every_time :
    ∃ p pre post, skinPathOf uploadedRedisDown (stripHyphens "abc") = some p ∧
      trace (GetAvatarWithSize refLib uploadedRedisDown "abc" "16").2
          (GetAvatarWithSize refLib (GetAvatarWithSize refLib uploadedRedisDown "abc" "16").2
            "abc" "16").2 =
        pre ++ [Effect.dbFirst (stripHyphens "abc"), Effect.fsOpen p, Effect.pngDecode,
          Effect.fsCreate (filepath.Join [uploadedRedisDown.StoragePath, "avatars",
            stripHyphens "abc" ++ "_avatar_" ++ fmtInt 16 ++ ".png"]),
          Effect.pngEncode] ++ post :=
  ((render_without_cache_derives_every_time refLib uploadedRedisDown "abc" "16" 16 blueSkin
    (by decide) (by decide) (by decide) (fun r hr => by cases hr; rfl) (by decide!)
    rfl).1 (by decide!)).2

/-! ## Sources that are unusable -/

theorem avatarImage_blank (lib : Lib) (skinImg : Image NRGBA) (size : Nat)
    (hsmall : skinImg.Dx ≤ 8 ∨ skinImg.Dy ≤ 8) (x y : Nat) :
    (avatarImage lib skinImg size).Pix x y = default := by
  have hcrop : ∀ a b, (draw.Draw (image.NewRGBA 8 8) skinImg (8, 8)).Pix a b = default := by
    intro a b
    have hn : ¬ (a < 8 ∧ b < 8 ∧ 8 + a < skinImg.Dx ∧ 8 + b < skinImg.Dy) := by omega
    simp only [draw.Draw, image.NewRGBA]
    rw [if_neg hn]
  unfold avatarImage resize.Resize
  simp only
  split
  · exact hcrop _ _
  · split
    · exact hcrop _ _
    · simp only
      split
      · exact hcrop _ _
      · rfl

theorem renderWith_served_derived (kind tag : String)
    (recipe : Lib → Image NRGBA → Nat → Image RGBA) (fallback : Nat → Image RGBA) (lib : Lib)
    (s : SkinCapeService) (uuid sizeParam : String) (size : Int) (img : Image NRGBA)
    (h : Atoi sizeParam = some size) (h8 : 8 ≤ size) (h512 : size ≤ 512)
    (hmiss : (s.cacheGet (kind ++ stripHyphens uuid ++ ":" ++ fmtInt size)).1 = none)
    (hsrc : storedSkin lib s (stripHyphens uuid) = some img)
    (hw : filepath.Join [s.StoragePath, "avatars",
      stripHyphens uuid ++ tag ++ fmtInt size ++ ".png"] ∉ s.unwritable) :
    (renderWith kind tag recipe fallback lib s uuid sizeParam).1 =
      Response.file (filepath.Join [s.StoragePath, "avatars",
        stripHyphens uuid ++ tag ++ fmtInt size ++ ".png"]) ∧
    (renderWith kind tag recipe fallback lib s uuid sizeParam).2.served
        (renderWith kind tag recipe fallback lib s uuid sizeParam).1 =
      some (lib.pngEncode (recipe lib img size.toNat)) := by
  obtain ⟨e1, hdisk, _⟩ := renderWith_derive kind tag recipe fallback lib s uuid sizeParam size
    img h h8 h512 hmiss hsrc hw
  refine ⟨e1, ?_⟩
  rw [e1]
  exact (readFile_of_disk hdisk).1

theorem bind_decode_eq_none {lib : Lib} {file : Option (List Nat)}
    (h : file.bind lib.pngDecode = none) :
    (match file with
      | none => none
      | some data => lib.pngDecode data) = none := by
  cases file with
  | none => rfl
  | some data => exact h

theorem storedSkin_eq_none_of_source (lib : Lib) (s : SkinCapeService) (uuid : String)
    (userSkin : UserSkin)
    (hrec : s.DB.find? (fun r => decide (r.UserUUID = uuid)) = some userSkin)
    (hsrc : (s.readFile (filepath.Join [".", userSkin.SkinURL])).bind lib.pngDecode = none) :
    storedSkin lib s uuid = none := by
  unfold storedSkin
  simp only [hrec]
  by_cases hu : userSkin.SkinURL = ""
  · simp only [hu, if_true]
  · simp only [hu, if_false]
    exact bind_decode_eq_none hsrc

/-- C15 (as amended): for a size in [8,512] and an identity whose record names
a skin, if no file is at the place the renders read the skin from, or its bytes
do not decode, then `generateAvatar` and `generateHead` return the empty path
and leave the table, the files and the cache as they were.  The render whose
cache lookup misses answers with the placeholder of its kind, not with an
error; the render whose cache lookup hits serves the cached path, as it does
for a good source, and does not look at the source at all.  Either way the
table, the files and the cache stay as they were. -/
theorem render_without_source_placeholder_or_cached (lib : Lib) (s : SkinCapeService)
    (uuid sizeParam : String) (size : Int) (userSkin : UserSkin)
    (h : Atoi sizeParam = some size) (h8 : 8 ≤ size) (h512 : size ≤ 512)
    (hrec : s.DB.find? (fun r => decide (r.UserUUID = stripHyphens uuid)) = some userSkin)
    (hsrc : (s.readFile (filepath.Join [".", userSkin.SkinURL])).bind lib.pngDecode = none) :
    ((generateAvatar lib s (stripHyphens uuid) userSkin.SkinURL size).1 = "" ∧
      SameWorld s (generateAvatar lib s (stripHyphens uuid) userSkin.SkinURL size).2) ∧
    ((generateHead lib s (stripHyphens uuid) userSkin.SkinURL size).1 = "" ∧
      SameWorld s (generateHead lib s (stripHyphens uuid) userSkin.SkinURL size).2) ∧
    (((s.cacheGet ("avatar:" ++ stripHyphens uuid ++ ":" ++ fmtInt size)).1 = none →
        (GetAvatarWithSize lib s uuid sizeParam).1 =
          Response.png (lib.pngEncode (defaultAvatarImage size.toNat))) ∧
      (∀ p, (s.cacheGet ("avatar:" ++ stripHyphens uuid ++ ":" ++ fmtInt size)).1 = some p →
        (GetAvatarWithSize lib s uuid sizeParam).1 = Response.file p) ∧
      SameWorld s (GetAvatarWithSize lib s uuid sizeParam).2) ∧
    (((s.cacheGet ("head:" ++ stripHyphens uuid ++ ":" ++ fmtInt size)).1 = none →
        (GetHeadWithSize lib s uuid sizeParam).1 =
          Response.png (lib.pngEncode (defaultHeadImage size.toNat))) ∧
      (∀ p, (s.cacheGet ("head:" ++ stripHyphens uuid ++ ":" ++ fmtInt size)).1 = some p →
        (GetHeadWithSize lib s uuid sizeParam).1 = Response.file p) ∧
      SameWorld s (GetHeadWithSize lib s uuid sizeParam).2) := by
  have hst := storedSkin_eq_none_of_source lib s (stripHyphens uuid) userSkin hrec hsrc
  have A : ∀ (kind tag : String) (recipe : Lib → Image NRGBA → Nat → Image RGBA)
      (fallback : Nat → Image RGBA),
      ((s.cacheGet (kind ++ stripHyphens uuid ++ ":" ++ fmtInt size)).1 = none →
        (renderWith kind tag recipe fallback lib s uuid sizeParam).1 =
          Response.png (lib.pngEncode (fallback size.toNat))) ∧
      (∀ p, (s.cacheGet (kind ++ stripHyphens uuid ++ ":" ++ fmtInt size)).1 = some p →
        (renderWith kind tag recipe fallback lib s uuid sizeParam).1 = Response.file p) ∧
      SameWorld s (renderWith kind tag recipe fallback lib s uuid sizeParam).2 := by
    intro kind tag recipe fallback
    refine ⟨fun hm => (renderWith_fallback kind tag recipe fallback lib s uuid sizeParam size
        h h8 h512 hm (Or.inl hst)).1,
      fun p hp => (renderWith_hit_sameWorld kind tag recipe fallback lib s uuid sizeParam size p
        h h8 h512 hp).1, ?_⟩
    cases hc : (s.cacheGet (kind ++ stripHyphens uuid ++ ":" ++ fmtInt size)).1 with
    | none =>
      exact (renderWith_fallback kind tag recipe fallback lib s uuid sizeParam size
        h h8 h512 hc (Or.inl hst)).2
    | some p =>
      exact (renderWith_hit_sameWorld kind tag recipe fallback lib s uuid sizeParam size p
        h h8 h512 hc).2
  exact ⟨deriveWith_without_source "_avatar_" avatarImage lib s (stripHyphens uuid)
      userSkin.SkinURL size (Or.inl (bind_decode_eq_none hsrc)),
    deriveWith_without_source "_head_" headImage lib s (stripHyphens uuid) userSkin.SkinURL
      size (Or.inl (bind_decode_eq_none hsrc)),
    A "avatar:" "_avatar_" avatarImage defaultAvatarImage,
    A "head:" "_head_" headImage defaultHeadImage⟩

set_option maxRecDepth 100000 in
/-- Witness of C15 (as amended): the skin file of `abc` holds three bytes that
do not decode and nothing is cached (first part, avatar render at size 16); the
skin file is lost and the renders of `abc` at size 16 are cached (second part,
head render). -/
theorem render_without_source_placeholder_or_cached_witness :
    ((GetAvatarWithSize refLib sourceCorrupt "abc" "16").1 =
        Response.png (refLib.pngEncode (defaultAvatarImage (16 : Int).toNat)) ∧
      SameWorld sourceCorrupt (GetAvatarWithSize refLib sourceCorrupt "abc" "16").2) ∧
    ((GetHeadWithSize refLib renderedSourceLost "abc" "16").1 =
        Response.file "storage/avatars/abc_head_16.png" ∧
      SameWorld renderedSourceLost (GetHeadWithSize refLib renderedSourceLost "abc" "16").2) :=
  have h1 := render_without_source_placeholder_or_cached refLib sourceCorrupt "abc" "16" 16
    ⟨1, "abc", "/storage/skins/abc_skin.png", "", refLib.md5Hex
      (skinFile 64 64 ⟨0, 0, 255, 255⟩ ⟨0, 0, 0, 0⟩), "", false⟩
    (by decide) (by decide) (by decide) (by decide!) rfl
  have h2 := render_without_source_placeholder_or_cached refLib renderedSourceLost "abc" "16" 16
    ⟨1, "abc", "/storage/skins/abc_skin.png", "", refLib.md5Hex
      (skinFile 64 64 ⟨0, 0, 255, 255⟩ ⟨0, 0, 0, 0⟩), "", false⟩
    (by decide) (by decide) (by decide) (by decide!) rfl
  ⟨⟨h1.2.2.1.1 (by decide!), h1.2.2.1.2.2⟩,
    ⟨h2.2.2.2.2.1 "storage/avatars/abc_head_16.png" (by decide!), h2.2.2.2.2.2⟩⟩

set_option maxRecDepth 100000 in
/-- C15 (counterexample to the claim as stated): the skin file of `abc` is
lost after its renders at size 16 were cached.  The source bytes are missing,
and both renders answer with the cached file, whose bytes are those derived
from the lost skin and not those of the placeholder. -/
theorem cached_render_served_without_source :
    renderedSourceLost.DB.map UserSkin.SkinURL = ["/storage/skins/abc_skin.png"] ∧
    renderedSourceLost.readFile (filepath.Join [".", "/storage/skins/abc_skin.png"]) = none ∧
    (GetAvatarWithSize refLib renderedSourceLost "abc" "16").1 =
      Response.file "storage/avatars/abc_avatar_16.png" ∧
    (GetAvatarWithSize refLib renderedSourceLost "abc" "16").2.served
        (GetAvatarWithSize refLib renderedSourceLost "abc" "16").1 =
      some (refLib.pngEncode (avatarImage refLib blueSkin 16)) ∧
    refLib.pngEncode (avatarImage refLib blueSkin 16) ≠
      refLib.pngEncode (defaultAvatarImage 16) ∧
    (GetHeadWithSize refLib renderedSourceLost "abc" "16").1 =
      Response.file "storage/avatars/abc_head_16.png" ∧
    (GetHeadWithSize refLib renderedSourceLost "abc" "16").2.served
        (GetHeadWithSize refLib renderedSourceLost "abc" "16").1 =
      some (refLib.pngEncode (headImage refLib blueSkin 16)) ∧
    refLib.pngEncode (headImage refLib blueSkin 16) ≠
      refLib.pngEncode (defaultHeadImage 16) := by
  decide!

/-! ## Derived artifacts that cannot be stored -/

theorem cacheGet_none_of_not_alive (s : SkinCapeService) (r : Redis) (key : String)
    (hR : s.RedisClient = some r) (ha : r.alive = false) : (s.cacheGet key).1 = none := by
  rw [cacheGet_fst, hR]
  simp [Redis.Get, ha]

theorem renderWith_cache_down (kind tag : String)
    (recipe : Lib → Image NRGBA → Nat → Image RGBA) (fallback : Nat → Image RGBA) (lib : Lib)
    (s : SkinCapeService) (uuid sizeParam : String) (size : Int) (img : Image NRGBA)
    (r : Redis) (h : Atoi sizeParam = some size) (h8 : 8 ≤ size) (h512 : size ≤ 512)
    (hsrc : storedSkin lib s (stripHyphens uuid) = some img)
    (hR : s.RedisClient = some r) (ha : r.alive = false)
    (hw : filepath.Join [s.StoragePath, "avatars",
      stripHyphens uuid ++ tag ++ fmtInt size ++ ".png"] ∉ s.unwritable) :
    (renderWith kind tag recipe fallback lib s uuid sizeParam).2.served
        (renderWith kind tag recipe fallback lib s uuid sizeParam).1 =
      some (lib.pngEncode (recipe lib img size.toNat)) ∧
    (renderWith kind tag recipe fallback lib s uuid sizeParam).2.RedisClient = some r := by
  have hmiss := cacheGet_none_of_not_alive s r
    (kind ++ stripHyphens uuid ++ ":" ++ fmtInt size) hR ha
  obtain ⟨e1, hdisk, hredis, _⟩ := renderWith_derive kind tag recipe fallback lib s uuid
    sizeParam size img h h8 h512 hmiss hsrc hw
  refine ⟨?_, ?_⟩
  · rw [e1]
    exact (readFile_of_disk hdisk).1
  · rw [hredis, hR]
    simp [Redis.Set_of_not_alive r _ _ _ ha]

theorem entryName_some {dir path name : String} (h : SkinCapeService.entryName dir path = some name) :
    name.data ≠ [] ∧ '/' ∉ name.data := by
  unfold SkinCapeService.entryName at h
  simp only at h
  split at h
  · split at h
    · rename_i h2
      have := Option.some.inj h
      subst this
      exact h2
    · exact absurd h (by simp)
  · exact absurd h (by simp)

theorem mem_ReadDir {s : SkinCapeService} {dir name : String} (h : name ∈ s.ReadDir dir) :
    name.data ≠ [] ∧ '/' ∉ name.data := by
  unfold SkinCapeService.ReadDir at h
  rw [List.mem_filterMap] at h
  obtain ⟨e, _, he⟩ := h
  exact entryName_some he

theorem readFile_Remove_other (s : SkinCapeService) (path p : String) (hp : p ≠ path) :
    (s.Remove path).readFile p = s.readFile p := by
  simp only [SkinCapeService.Remove, SkinCapeService.readFile]
  exact lookup_filter_ne s.disk path p hp

theorem clear_foldl (dir u : String) (names : List String) (s0 : SkinCapeService) :
    (names.foldl
      (fun s name =>
        if HasPrefix name (u ++ "_avatar_") then s.Remove (filepath.Join [dir, name]) else s)
      s0).DB = s0.DB ∧
    (names.foldl
      (fun s name =>
        if HasPrefix name (u ++ "_avatar_") then s.Remove (filepath.Join [dir, name]) else s)
      s0).nextID = s0.nextID ∧
    (names.foldl
      (fun s name =>
        if HasPrefix name (u ++ "_avatar_") then s.Remove (filepath.Join [dir, name]) else s)
      s0).RedisClient = s0.RedisClient ∧
    (names.foldl
      (fun s name =>
        if HasPrefix name (u ++ "_avatar_") then s.Remove (filepath.Join [dir, name]) else s)
      s0).StoragePath = s0.StoragePath ∧
    (names.foldl
      (fun s name =>
        if HasPrefix name (u ++ "_avatar_") then s.Remove (filepath.Join [dir, name]) else s)
      s0).unwritable = s0.unwritable ∧
    (∃ rest, (names.foldl
      (fun s name =>
        if HasPrefix name (u ++ "_avatar_") then s.Remove (filepath.Join [dir, name]) else s)
      s0).log = s0.log ++ rest ∧ ∀ e ∈ rest, ∃ p, e = Effect.fsRemove p) ∧
    (∀ p, (∀ name ∈ names, HasPrefix name (u ++ "_avatar_") = true →
        p ≠ filepath.Join [dir, name]) →
      (names.foldl
        (fun s name =>
          if HasPrefix name (u ++ "_avatar_") then s.Remove (filepath.Join [dir, name]) else s)
        s0).readFile p = s0.readFile p) := by
  induction names generalizing s0 with
  | nil => exact ⟨rfl, rfl, rfl, rfl, rfl, ⟨[], by simp, by simp⟩, fun _ _ => rfl⟩
  | cons name names ih =>
    simp only [List.foldl_cons]
    by_cases hp : HasPrefix name (u ++ "_avatar_") = true
    · simp only [hp, if_true]
      obtain ⟨h1, h2, h3, h4, h5, ⟨rest, h6, h7⟩, h8⟩ :=
        ih (s0.Remove (filepath.Join [dir, name]))
      refine ⟨h1, h2, h3, h4, h5, ⟨Effect.fsRemove (filepath.Join [dir, name]) :: rest, ?_, ?_⟩, ?_⟩
      · rw [h6]
        simp [SkinCapeService.Remove]
      · intro e he
        rcases List.mem_cons.1 he with he | he
        · exact ⟨_, he⟩
        · exact h7 e he
      · intro p hpne
        rw [h8 p (fun n hn hn2 => hpne n (List.mem_cons_of_mem _ hn) hn2)]
        exact readFile_Remove_other s0 _ p (hpne name (List.mem_cons_self _ _) hp)
    · simp only [hp]
      obtain ⟨h1, h2, h3, h4, h5, h6, h8⟩ := ih s0
      exact ⟨h1, h2, h3, h4, h5, h6,
        fun p hpne => h8 p (fun n hn hn2 => hpne n (List.mem_cons_of_mem _ hn) hn2)⟩

theorem clearAvatarCache_frame (s : SkinCapeService) (u : String) :
    (clearAvatarCache s u).DB = s.DB ∧
    (clearAvatarCache s u).nextID = s.nextID ∧
    (clearAvatarCache s u).StoragePath = s.StoragePath ∧
    (clearAvatarCache s u).unwritable = s.unwritable ∧
    (∀ p, (∀ name : String, '/' ∉ name.data → HasPrefix name (u ++ "_avatar_") = true →
        p ≠ filepath.Join [filepath.Join [s.StoragePath, "avatars"], name]) →
      (clearAvatarCache s u).readFile p = s.readFile p) := by
  unfold clearAvatarCache
  cases hR : s.RedisClient with
  | none => exact ⟨rfl, rfl, rfl, rfl, fun _ _ => rfl⟩
  | some r =>
    simp only
    cases hk : r.Keys ("avatar:" ++ u ++ ":*") with
    | none =>
      simp only
      obtain ⟨h1, h2, _, h4, h5, _, h8⟩ := clear_foldl
        (filepath.Join [(s.emit (Effect.redisKeys ("avatar:" ++ u ++ ":*"))).StoragePath,
          "avatars"]) u
        ((s.emit (Effect.redisKeys ("avatar:" ++ u ++ ":*"))).ReadDir
          (filepath.Join [(s.emit (Effect.redisKeys ("avatar:" ++ u ++ ":*"))).StoragePath,
            "avatars"]))
        ((s.emit (Effect.redisKeys ("avatar:" ++ u ++ ":*"))).emit
          (Effect.fsReadDir (filepath.Join
            [(s.emit (Effect.redisKeys ("avatar:" ++ u ++ ":*"))).StoragePath, "avatars"])))
      refine ⟨h1, h2, h4, h5, fun p hp => ?_⟩
      exact (h8 p (fun name hn hpre => hp name (mem_ReadDir hn).2 hpre)).trans rfl
    | some keys =>
      simp only
      obtain ⟨h1, h2, _, h4, h5, _, h8⟩ := clear_foldl
        (filepath.Join [s.StoragePath, "avatars"]) u
        (SkinCapeService.ReadDir
          { s.emit (Effect.redisKeys ("avatar:" ++ u ++ ":*")) with
            RedisClient := some (r.Del keys),
            log := (s.emit (Effect.redisKeys ("avatar:" ++ u ++ ":*"))).log ++
              [Effect.redisDel keys] }
          (filepath.Join [s.StoragePath, "avatars"]))
        (SkinCapeService.emit
          { s.emit (Effect.redisKeys ("avatar:" ++ u ++ ":*")) with
            RedisClient := some (r.Del keys),
            log := (s.emit (Effect.redisKeys ("avatar:" ++ u ++ ":*"))).log ++
              [Effect.redisDel keys] }
          (Effect.fsReadDir (filepath.Join [s.StoragePath, "avatars"])))
      refine ⟨h1, h2, h4, h5, fun p hp => ?_⟩
      exact (h8 p (fun name hn hpre => hp name (mem_ReadDir hn).2 hpre)).trans rfl

theorem clearAvatarCache_log_none (s : SkinCapeService) (u : String)
    (hR : s.RedisClient = none) : clearAvatarCache s u = s := by
  unfold clearAvatarCache
  rw [hR]

theorem clearAvatarCache_log_some (s : SkinCapeService) (u : String) (r : Redis)
    (hR : s.RedisClient = some r) :
    ∃ rest, (clearAvatarCache s u).log =
        s.log ++ Effect.redisKeys ("avatar:" ++ u ++ ":*") :: rest ∧
      ∀ e ∈ rest, e.isRecordWrite = false := by
  unfold clearAvatarCache
  rw [hR]
  simp only
  cases hk : r.Keys ("avatar:" ++ u ++ ":*") with
  | none =>
    simp only
    obtain ⟨_, _, _, _, _, ⟨rest, h6, h7⟩, _⟩ := clear_foldl
      (filepath.Join [(s.emit (Effect.redisKeys ("avatar:" ++ u ++ ":*"))).StoragePath,
        "avatars"]) u
      ((s.emit (Effect.redisKeys ("avatar:" ++ u ++ ":*"))).ReadDir
        (filepath.Join [(s.emit (Effect.redisKeys ("avatar:" ++ u ++ ":*"))).StoragePath,
          "avatars"]))
      ((s.emit (Effect.redisKeys ("avatar:" ++ u ++ ":*"))).emit
        (Effect.fsReadDir (filepath.Join
          [(s.emit (Effect.redisKeys ("avatar:" ++ u ++ ":*"))).StoragePath, "avatars"])))
    refine ⟨Effect.fsReadDir (filepath.Join [s.StoragePath, "avatars"]) :: rest, ?_, ?_⟩
    · refine h6.trans ?_
      simp [SkinCapeService.emit]
    · intro e he
      rcases List.mem_cons.1 he with he | he
      · subst he; rfl
      · obtain ⟨p, hp⟩ := h7 e he
        subst hp; rfl
  | some keys =>
    simp only
    obtain ⟨_, _, _, _, _, ⟨rest, h6, h7⟩, _⟩ := clear_foldl
      (filepath.Join [s.StoragePath, "avatars"]) u
      (SkinCapeService.ReadDir
        { s.emit (Effect.redisKeys ("avatar:" ++ u ++ ":*")) with
          RedisClient := some (r.Del keys),
          log := (s.emit (Effect.redisKeys ("avatar:" ++ u ++ ":*"))).log ++
            [Effect.redisDel keys] }
        (filepath.Join [s.StoragePath, "avatars"]))
      (SkinCapeService.emit
        { s.emit (Effect.redisKeys ("avatar:" ++ u ++ ":*")) with
          RedisClient := some (r.Del keys),
          log := (s.emit (Effect.redisKeys ("avatar:" ++ u ++ ":*"))).log ++
            [Effect.redisDel keys] }
        (Effect.fsReadDir (filepath.Join [s.StoragePath, "avatars"])))
    refine ⟨Effect.redisDel keys ::
      Effect.fsReadDir (filepath.Join [s.StoragePath, "avatars"]) :: rest, ?_, ?_⟩
    · refine h6.trans ?_
      simp [SkinCapeService.emit]
    · intro e he
      rcases List.mem_cons.1 he with he | he
      · subst he; rfl
      · rcases List.mem_cons.1 he with he | he
        · subst he; rfl
        · obtain ⟨p, hp⟩ := h7 e he
          subst hp; rfl

theorem skin_file_ne_removed (sp u name : String) (hn : '/' ∉ name.data)
    (hpre : HasPrefix name (u ++ "_avatar_") = true) :
    filepath.Join [sp, "skins", u ++ "_skin.png"] ≠
      filepath.Join [filepath.Join [sp, "avatars"], name] := by
  intro e
  have hp : (u ++ "_avatar_").data <+: name.data := by
    unfold HasPrefix at hpre
    exact List.isPrefixOf_iff_prefix.1 hpre
  obtain ⟨rest, hrest⟩ := hp
  have hu : '/' ∉ u.data := by
    intro hmem
    apply hn
    rw [← hrest]
    simp [hmem]
  have hname : name.data = u.data ++ ("_avatar_".data ++ rest) := by
    rw [← hrest]
    simp
  have hne : name ≠ "" := by
    intro h0
    rw [h0] at hname
    have := congrArg List.length hname
    simp at this
    omega
  have hnorm : NormalComp (afterSlash name.data) := by
    rw [afterSlash_of_not_mem _ hn, hname, ← List.append_assoc]
    have : NormalComp ((u.data ++ "_avatar_".data) ++ rest) := by
      have h8 : "_avatar_".data.length = 8 := by decide
      have hl : 3 ≤ ((u.data ++ "_avatar_".data) ++ rest).length := by
        rw [List.length_append, List.length_append, h8]
        omega
      refine ⟨?_, ?_, ?_⟩ <;> intro e <;> rw [e] at hl <;> simp at hl
    exact this
  have hl := afterSlash_Join [sp, "skins"] (u ++ "_skin.png")
    (string_append_ne_empty _ _ (by decide))
    (by
      rw [String.data_append, afterSlash_append_of_not_mem _ _ (by decide)]
      exact normalComp_append _ _ (by decide))
  have hr := afterSlash_Join [filepath.Join [sp, "avatars"]] name hne hnorm
  have e2 := congrArg (fun p => afterSlash p.data) e
  simp only at e2
  have hl2 : afterSlash (filepath.Join [sp, "skins", u ++ "_skin.png"]).data =
      afterSlash (u ++ "_skin.png").data := hl
  have hr2 : afterSlash (filepath.Join [filepath.Join [sp, "avatars"], name]).data =
      afterSlash name.data := hr
  rw [hl2, hr2, afterSlash_of_not_mem _ hn, String.data_append,
    afterSlash_append_of_not_mem _ _ (by decide), afterSlash_of_not_mem _ hu, hname] at e2
  exact avatar_tag_kind rest (List.append_cancel_left e2)

theorem find_after_Save (l : List UserSkin) (u : String) (x row : UserSkin)
    (hrow : row.UserUUID = u)
    (h : l.find? (fun r => decide (r.UserUUID = u)) = some x) :
    (l.map (fun r => if r.ID = x.ID then row else r)).find?
      (fun r => decide (r.UserUUID = u)) = some row := by
  induction l with
  | nil => simp at h
  | cons a as ih =>
    simp only [List.map_cons, List.find?_cons]
    by_cases ha : a.ID = x.ID
    · simp [ha, hrow]
    · simp only [ha, if_false]
      by_cases hau : a.UserUUID = u
      · simp only [List.find?_cons, hau, decide_True] at h
        exact absurd (congrArg UserSkin.ID (Option.some.inj h)) ha
      · simp only [List.find?_cons, hau, decide_False] at h
        simp only [hau, decide_False]
        exact ih h

theorem find_after_Create (l : List UserSkin) (u : String) (row : UserSkin)
    (hrow : row.UserUUID = u)
    (h : l.find? (fun r => decide (r.UserUUID = u)) = none) :
    (l ++ [row]).find? (fun r => decide (r.UserUUID = u)) = some row := by
  rw [List.find?_append, h]
  simp [hrow]

theorem UploadSkin_accepted (lib : Lib) (s : SkinCapeService) (uuid : String) (file : FormFile)
    (is_slim : String) (img : Image NRGBA)
    (hct : HasPrefix file.ContentType "image/" = true)
    (hdec : lib.pngDecode file.data = some img)
    (hx : img.Dx = 64) (hy : img.Dy = 64 ∨ img.Dy = 32)
    (hw : filepath.Join [s.StoragePath, "skins", stripHyphens uuid ++ "_skin.png"] ∉
      s.unwritable) :
    (UploadSkin lib s uuid (some file) is_slim).1 =
      Response.json 200 [("message", "Skin uploaded successfully"),
        ("url", "/storage/skins/" ++ (stripHyphens uuid ++ "_skin.png"))] ∧
    (UploadSkin lib s uuid (some file) is_slim).2.readFile
        (filepath.Join [s.StoragePath, "skins", stripHyphens uuid ++ "_skin.png"]) =
      some file.data := by
  have hd : ¬ (img.Dx ≠ 64 ∨ (img.Dy ≠ 64 ∧ img.Dy ≠ 32)) := by omega
  simp only [UploadSkin, hct, not_true_eq_false, if_false, hdec, hd, SkinCapeService.CreateFile,
    SkinCapeService.emit, hw, SkinCapeService.First]
  cases hf : s.DB.find? (fun r => decide (r.UserUUID = stripHyphens uuid)) with
  | none =>
    simp only
    generalize hS : SkinCapeService.Create _ _ = S
    have hS1 : S.StoragePath = s.StoragePath := by rw [← hS]; rfl
    refine ⟨trivial, ?_⟩
    · refine ((clearAvatarCache_frame S _).2.2.2.2 _
        (fun name hn hpre => ?_)).trans ?_
      · rw [hS1]
        exact skin_file_ne_removed s.StoragePath _ name hn hpre
      · rw [← hS]
        simp [SkinCapeService.readFile, SkinCapeService.Create, List.lookup]
  | some userSkin =>
    simp only
    generalize hS : SkinCapeService.Save _ _ = S
    have hS1 : S.StoragePath = s.StoragePath := by rw [← hS]; rfl
    refine ⟨trivial, ?_⟩
    · refine ((clearAvatarCache_frame S _).2.2.2.2 _
        (fun name hn hpre => ?_)).trans ?_
      · rw [hS1]
        exact skin_file_ne_removed s.StoragePath _ name hn hpre
      · rw [← hS]
        simp [SkinCapeService.readFile, SkinCapeService.Save, List.lookup]

theorem UploadSkin_accepted_log (lib : Lib) (s : SkinCapeService) (uuid : String)
    (file : FormFile) (is_slim : String) (img : Image NRGBA)
    (hct : HasPrefix file.ContentType "image/" = true)
    (hdec : lib.pngDecode file.data = some img)
    (hx : img.Dx = 64) (hy : img.Dy = 64 ∨ img.Dy = 32)
    (hw : filepath.Join [s.StoragePath, "skins", stripHyphens uuid ++ "_skin.png"] ∉
      s.unwritable) :
    ∃ w, w.isRecordWrite = true ∧
      ((s.RedisClient = none ∧
          (UploadSkin lib s uuid (some file) is_slim).2.log =
            s.log ++ [Effect.pngDecode, Effect.fsCreate (filepath.Join
              [s.StoragePath, "skins", stripHyphens uuid ++ "_skin.png"]),
              Effect.dbFirst (stripHyphens uuid), w]) ∨
        ∃ rest, (UploadSkin lib s uuid (some file) is_slim).2.log =
            s.log ++ [Effect.pngDecode, Effect.fsCreate (filepath.Join
              [s.StoragePath, "skins", stripHyphens uuid ++ "_skin.png"]),
              Effect.dbFirst (stripHyphens uuid), w] ++
              Effect.redisKeys ("avatar:" ++ stripHyphens uuid ++ ":*") :: rest ∧
          ∀ e ∈ rest, e.isRecordWrite = false) := by
  have hd : ¬ (img.Dx ≠ 64 ∨ (img.Dy ≠ 64 ∧ img.Dy ≠ 32)) := by omega
  simp only [UploadSkin, hct, not_true_eq_false, if_false, hdec, hd, SkinCapeService.CreateFile,
    SkinCapeService.emit, hw, SkinCapeService.First]
  cases hf : s.DB.find? (fun r => decide (r.UserUUID = stripHyphens uuid)) with
  | none =>
    simp only
    refine ⟨Effect.dbCreate
      { ID := s.nextID, UserUUID := stripHyphens uuid,
        SkinURL := "/storage/skins/" ++ (stripHyphens uuid ++ "_skin.png"), CapeURL := "",
        SkinHash := lib.md5Hex file.data, CapeHash := "", IsSlim := decide (is_slim = "true") },
      rfl, ?_⟩
    generalize hS : SkinCapeService.Create _ _ = S
    have hS1 : S.RedisClient = s.RedisClient := by rw [← hS]; rfl
    cases hR : s.RedisClient with
    | none =>
      left
      refine ⟨rfl, ?_⟩
      rw [clearAvatarCache_log_none S _ (hS1.trans hR), ← hS]
      simp [SkinCapeService.Create]
    | some r =>
      right
      obtain ⟨rest, h1, h2⟩ := clearAvatarCache_log_some S (stripHyphens uuid) r (hS1.trans hR)
      refine ⟨rest, ?_, h2⟩
      rw [h1, ← hS]
      simp [SkinCapeService.Create]
  | some userSkin =>
    simp only
    refine ⟨Effect.dbSave
      { userSkin with
        SkinURL := "/storage/skins/" ++ (stripHyphens uuid ++ "_skin.png"),
        IsSlim := decide (is_slim = "true"), SkinHash := lib.md5Hex file.data },
      rfl, ?_⟩
    generalize hS : SkinCapeService.Save _ _ = S
    have hS1 : S.RedisClient = s.RedisClient := by rw [← hS]; rfl
    cases hR : s.RedisClient with
    | none =>
      left
      refine ⟨rfl, ?_⟩
      rw [clearAvatarCache_log_none S _ (hS1.trans hR), ← hS]
      simp [SkinCapeService.Save]
    | some r =>
      right
      obtain ⟨rest, h1, h2⟩ := clearAvatarCache_log_some S (stripHyphens uuid) r (hS1.trans hR)
      refine ⟨rest, ?_, h2⟩
      rw [h1, ← hS]
      simp [SkinCapeService.Save]

theorem UploadCape_accepted (lib : Lib) (s : SkinCapeService) (uuid : String) (file : FormFile)
    (img : Image NRGBA)
    (hct : HasPrefix file.ContentType "image/" = true)
    (hdec : lib.pngDecode file.data = some img)
    (hx : img.Dx = 64) (hy : img.Dy = 32)
    (hw : filepath.Join [s.StoragePath, "capes", stripHyphens uuid ++ "_cape.png"] ∉
      s.unwritable) :
    (UploadCape lib s uuid (some file)).1 =
      Response.json 200 [("message", "Cape uploaded successfully"),
        ("url", "/storage/capes/" ++ (stripHyphens uuid ++ "_cape.png"))] ∧
    (UploadCape lib s uuid (some file)).2.readFile
        (filepath.Join [s.StoragePath, "capes", stripHyphens uuid ++ "_cape.png"]) =
      some file.data := by
  have hd : ¬ (img.Dx ≠ 64 ∨ img.Dy ≠ 32) := by omega
  simp only [UploadCape, hct, not_true_eq_false, if_false, hdec, hd, SkinCapeService.CreateFile,
    SkinCapeService.emit, hw, SkinCapeService.First]
  cases hf : s.DB.find? (fun r => decide (r.UserUUID = stripHyphens uuid)) with
  | none =>
    simp only
    refine ⟨trivial, ?_⟩
    simp [SkinCapeService.readFile, SkinCapeService.Create, List.lookup]
  | some userSkin =>
    simp only
    refine ⟨trivial, ?_⟩
    simp [SkinCapeService.readFile, SkinCapeService.Save, List.lookup]

theorem UploadSkin_ok_inv (lib : Lib) (s : SkinCapeService) (uuid : String)
    (file : Option FormFile) (is_slim : String) (body : List (String × String))
    (h : (UploadSkin lib s uuid file is_slim).1 = Response.json 200 body) :
    ∃ f img, file = some f ∧ HasPrefix f.ContentType "image/" = true ∧
      lib.pngDecode f.data = some img ∧ img.Dx = 64 ∧ (img.Dy = 64 ∨ img.Dy = 32) ∧
      filepath.Join [s.StoragePath, "skins", stripHyphens uuid ++ "_skin.png"] ∉
        s.unwritable := by
  cases file with
  | none => simp [UploadSkin] at h
  | some f =>
    by_cases hct : HasPrefix f.ContentType "image/" = true
    · cases hdec : lib.pngDecode f.data with
      | none => simp [UploadSkin, hct, hdec] at h
      | some img =>
        by_cases hd : img.Dx ≠ 64 ∨ (img.Dy ≠ 64 ∧ img.Dy ≠ 32)
        · simp [UploadSkin, hct, hdec, hd] at h
        · by_cases hw : filepath.Join [s.StoragePath, "skins", stripHyphens uuid ++ "_skin.png"]
              ∈ s.unwritable
          · simp [UploadSkin, hct, hdec, hd, SkinCapeService.CreateFile, SkinCapeService.emit,
              hw] at h
          · exact ⟨f, img, rfl, hct, hdec, by omega, by omega, hw⟩
    · simp [UploadSkin, hct] at h

theorem UploadCape_ok_inv (lib : Lib) (s : SkinCapeService) (uuid : String)
    (file : Option FormFile) (body : List (String × String))
    (h : (UploadCape lib s uuid file).1 = Response.json 200 body) :
    ∃ f img, file = some f ∧ HasPrefix f.ContentType "image/" = true ∧
      lib.pngDecode f.data = some img ∧ img.Dx = 64 ∧ img.Dy = 32 ∧
      filepath.Join [s.StoragePath, "capes", stripHyphens uuid ++ "_cape.png"] ∉
        s.unwritable := by
  cases file with
  | none => simp [UploadCape] at h
  | some f =>
    by_cases hct : HasPrefix f.ContentType "image/" = true
    · cases hdec : lib.pngDecode f.data with
      | none => simp [UploadCape, hct, hdec] at h
      | some img =>
        by_cases hd : img.Dx ≠ 64 ∨ img.Dy ≠ 32
        · simp [UploadCape, hct, hdec, hd] at h
        · by_cases hw : filepath.Join [s.StoragePath, "capes", stripHyphens uuid ++ "_cape.png"]
              ∈ s.unwritable
          · simp [UploadCape, hct, hdec, hd, SkinCapeService.CreateFile, SkinCapeService.emit,
              hw] at h
          · exact ⟨f, img, rfl, hct, hdec, by omega, by omega, hw⟩
    · simp [UploadCape, hct] at h

theorem UploadSkin_dims_rejected (lib : Lib) (s : SkinCapeService) (uuid : String)
    (file : FormFile) (is_slim : String) (img : Image NRGBA)
    (hct : HasPrefix file.ContentType "image/" = true)
    (hdec : lib.pngDecode file.data = some img)
    (hd : ¬ (img.Dx = 64 ∧ (img.Dy = 64 ∨ img.Dy = 32))) :
    UploadSkin lib s uuid (some file) is_slim =
      (Response.json 400 [("error", "Skin must be 64x64 or 64x32 pixels")],
        s.emit Effect.pngDecode) := by
  have hd2 : img.Dx ≠ 64 ∨ (img.Dy ≠ 64 ∧ img.Dy ≠ 32) := by omega
  simp only [UploadSkin, hct, not_true_eq_false, if_false, hdec, hd2, if_true]

theorem UploadCape_dims_rejected (lib : Lib) (s : SkinCapeService) (uuid : String)
    (file : FormFile) (img : Image NRGBA)
    (hct : HasPrefix file.ContentType "image/" = true)
    (hdec : lib.pngDecode file.data = some img)
    (hd : ¬ (img.Dx = 64 ∧ img.Dy = 32)) :
    UploadCape lib s uuid (some file) =
      (Response.json 400 [("error", "Cape must be 64x32 pixels")],
        s.emit Effect.pngDecode) := by
  have hd2 : img.Dx ≠ 64 ∨ img.Dy ≠ 32 := by omega
  simp only [UploadCape, hct, not_true_eq_false, if_false, hdec, hd2, if_true]

theorem UploadSkin_not_dims_error (lib : Lib) (s : SkinCapeService) (uuid : String)
    (file : FormFile) (is_slim : String) (img : Image NRGBA)
    (hct : HasPrefix file.ContentType "image/" = true)
    (hdec : lib.pngDecode file.data = some img)
    (hd : img.Dx = 64 ∧ (img.Dy = 64 ∨ img.Dy = 32)) :
    (UploadSkin lib s uuid (some file) is_slim).1 ≠
      Response.json 400 [("error", "Skin must be 64x64 or 64x32 pixels")] := by
  by_cases hw : filepath.Join [s.StoragePath, "skins", stripHyphens uuid ++ "_skin.png"]
      ∈ s.unwritable
  · have hd2 : ¬ (img.Dx ≠ 64 ∨ (img.Dy ≠ 64 ∧ img.Dy ≠ 32)) := by omega
    simp [UploadSkin, hct, hdec, hd2, SkinCapeService.CreateFile, SkinCapeService.emit, hw]
  · rw [(UploadSkin_accepted lib s uuid file is_slim img hct hdec hd.1 hd.2 hw).1]
    simp

theorem UploadCape_not_dims_error (lib : Lib) (s : SkinCapeService) (uuid : String)
    (file : FormFile) (img : Image NRGBA)
    (hct : HasPrefix file.ContentType "image/" = true)
    (hdec : lib.pngDecode file.data = some img)
    (hd : img.Dx = 64 ∧ img.Dy = 32) :
    (UploadCape lib s uuid (some file)).1 ≠
      Response.json 400 [("error", "Cape must be 64x32 pixels")] := by
  by_cases hw : filepath.Join [s.StoragePath, "capes", stripHyphens uuid ++ "_cape.png"]
      ∈ s.unwritable
  · have hd2 : ¬ (img.Dx ≠ 64 ∨ img.Dy ≠ 32) := by omega
    simp [UploadCape, hct, hdec, hd2, SkinCapeService.CreateFile, SkinCapeService.emit, hw]
  · rw [(UploadCape_accepted lib s uuid file img hct hdec hd.1 hd.2 hw).1]
    simp

/-! ## Uploads: dimensions -/

theorem upload_dimensions_of_declared_image (lib : Lib) (s : SkinCapeService) (uuid : String)
    (file : FormFile) (is_slim : String) (img : Image NRGBA)
    (hct : HasPrefix file.ContentType "image/" = true)
    (hdec : lib.pngDecode file.data = some img) :
    (((UploadSkin lib s uuid (some file) is_slim).1 =
          Response.json 400 [("error", "Skin must be 64x64 or 64x32 pixels")] ↔
        ¬ (img.Dx = 64 ∧ (img.Dy = 64 ∨ img.Dy = 32))) ∧
      (filepath.Join [s.StoragePath, "skins", stripHyphens uuid ++ "_skin.png"] ∉ s.unwritable →
        ((∃ body, (UploadSkin lib s uuid (some file) is_slim).1 = Response.json 200 body) ↔
          img.Dx = 64 ∧ (img.Dy = 64 ∨ img.Dy = 32))) ∧
      (¬ (img.Dx = 64 ∧ (img.Dy = 64 ∨ img.Dy = 32)) →
        SameWorld s (UploadSkin lib s uuid (some file) is_slim).2)) ∧
    (((UploadCape lib s uuid (some file)).1 =
          Response.json 400 [("error", "Cape must be 64x32 pixels")] ↔
        ¬ (img.Dx = 64 ∧ img.Dy = 32)) ∧
      (filepath.Join [s.StoragePath, "capes", stripHyphens uuid ++ "_cape.png"] ∉ s.unwritable →
        ((∃ body, (UploadCape lib s uuid (some file)).1 = Response.json 200 body) ↔
          img.Dx = 64 ∧ img.Dy = 32)) ∧
      (¬ (img.Dx = 64 ∧ img.Dy = 32) → SameWorld s (UploadCape lib s uuid (some file)).2)) := by
  refine ⟨⟨⟨?_, ?_⟩, ?_, ?_⟩, ⟨?_, ?_⟩, ?_, ?_⟩
  · intro h hd
    exact UploadSkin_not_dims_error lib s uuid file is_slim img hct hdec hd h
  · intro hd
    rw [UploadSkin_dims_rejected lib s uuid file is_slim img hct hdec hd]
  · intro hw
    refine ⟨?_, ?_⟩
    · rintro ⟨body, hb⟩
      obtain ⟨f, img2, hf, _, hdec2, hx, hy, _⟩ := UploadSkin_ok_inv lib s uuid _ is_slim body hb
      have hff : file = f := Option.some.inj hf
      subst hff
      rw [hdec] at hdec2
      have : img = img2 := Option.some.inj hdec2
      subst this
      exact ⟨hx, hy⟩
    · intro hd
      exact ⟨_, (UploadSkin_accepted lib s uuid file is_slim img hct hdec hd.1 hd.2 hw).1⟩
  · intro hd
    rw [UploadSkin_dims_rejected lib s uuid file is_slim img hct hdec hd]
    exact SameWorld.emit _ _
  · intro h hd
    exact UploadCape_not_dims_error lib s uuid file img hct hdec hd h
  · intro hd
    rw [UploadCape_dims_rejected lib s uuid file img hct hdec hd]
  · intro hw
    refine ⟨?_, ?_⟩
    · rintro ⟨body, hb⟩
      obtain ⟨f, img2, hf, _, hdec2, hx, hy, _⟩ := UploadCape_ok_inv lib s uuid _ body hb
      have hff : file = f := Option.some.inj hf
      subst hff
      rw [hdec] at hdec2
      have : img = img2 := Option.some.inj hdec2
      subst this
      exact ⟨hx, hy⟩
    · intro hd
      exact ⟨_, (UploadCape_accepted lib s uuid file img hct hdec hd.1 hd.2 hw).1⟩
  · intro hd
    rw [UploadCape_dims_rejected lib s uuid file img hct hdec hd]
    exact SameWorld.emit _ _

theorem UploadSkin_not_image (lib : Lib) (s : SkinCapeService) (uuid : String) (file : FormFile)
    (is_slim : String) (hct : HasPrefix file.ContentType "image/" = false) :
    UploadSkin lib s uuid (some file) is_slim =
      (Response.json 400 [("error", "File must be an image")], s) := by
  simp [UploadSkin, hct]

theorem UploadCape_not_image (lib : Lib) (s : SkinCapeService) (uuid : String) (file : FormFile)
    (hct : HasPrefix file.ContentType "image/" = false) :
    UploadCape lib s uuid (some file) =
      (Response.json 400 [("error", "File must be an image")], s) := by
  simp [UploadCape, hct]

/-- C13 (as amended): for a form file whose bytes decode to a picture of width
`Dx` and height `Dy`.  `UploadSkin` answers "File must be an image" and does
nothing when the `Content-Type` of the part does not start with `image/`,
whatever the picture; it answers with the dimension error exactly when the
`Content-Type` starts with `image/` and it is not the case that `Dx = 64` and
`Dy` is 64 or 32; and, where the skin file can be created, it answers with
status 200 exactly when the `Content-Type` starts with `image/`, `Dx = 64` and
`Dy` is 64 or 32.  `UploadCape` likewise with `Dx = 64` and `Dy = 32`.  An
upload rejected for its media type or its dimensions leaves the table, the
files and the cache as they were. -/
theorem upload_accepted_iff_image_and_dimensions (lib : Lib) (s : SkinCapeService)
    (uuid : String) (file : FormFile) (is_slim : String) (img : Image NRGBA)
    (hdec : lib.pngDecode file.data = some img) :
    ((HasPrefix file.ContentType "image/" = false →
        UploadSkin lib s uuid (some file) is_slim =
          (Response.json 400 [("error", "File must be an image")], s)) ∧
      ((UploadSkin lib s uuid (some file) is_slim).1 =
          Response.json 400 [("error", "Skin must be 64x64 or 64x32 pixels")] ↔
        HasPrefix file.ContentType "image/" = true ∧
          ¬ (img.Dx = 64 ∧ (img.Dy = 64 ∨ img.Dy = 32))) ∧
      (filepath.Join [s.StoragePath, "skins", stripHyphens uuid ++ "_skin.png"] ∉ s.unwritable →
        ((∃ body, (UploadSkin lib s uuid (some file) is_slim).1 = Response.json 200 body) ↔
          HasPrefix file.ContentType "image/" = true ∧
            img.Dx = 64 ∧ (img.Dy = 64 ∨ img.Dy = 32))) ∧
      (¬ (HasPrefix file.ContentType "image/" = true ∧
            img.Dx = 64 ∧ (img.Dy = 64 ∨ img.Dy = 32)) →
        SameWorld s (UploadSkin lib s uuid (some file) is_slim).2)) ∧
    ((HasPrefix file.ContentType "image/" = false →
        UploadCape lib s uuid (some file) =
          (Response.json 400 [("error", "File must be an image")], s)) ∧
      ((UploadCape lib s uuid (some file)).1 =
          Response.json 400 [("error", "Cape must be 64x32 pixels")] ↔
        HasPrefix file.ContentType "image/" = true ∧ ¬ (img.Dx = 64 ∧ img.Dy = 32)) ∧
      (filepath.Join [s.StoragePath, "capes", stripHyphens uuid ++ "_cape.png"] ∉ s.unwritable →
        ((∃ body, (UploadCape lib s uuid (some file)).1 = Response.json 200 body) ↔
          HasPrefix file.ContentType "image/" = true ∧ img.Dx = 64 ∧ img.Dy = 32)) ∧
      (¬ (HasPrefix file.ContentType "image/" = true ∧ img.Dx = 64 ∧ img.Dy = 32) →
        SameWorld s (UploadCape lib s uuid (some file)).2)) := by
  cases hct : HasPrefix file.ContentType "image/" with
  | false =>
    have e1 := UploadSkin_not_image lib s uuid file is_slim hct
    have e2 := UploadCape_not_image lib s uuid file hct
    refine ⟨⟨fun _ => e1, ⟨?_, ?_⟩, fun _ => ⟨?_, ?_⟩, fun _ => ?_⟩,
      ⟨fun _ => e2, ⟨?_, ?_⟩, fun _ => ⟨?_, ?_⟩, fun _ => ?_⟩⟩
    · intro h
      rw [e1] at h
      simp at h
    · intro h
      exact absurd h.1 (by simp)
    · rintro ⟨body, hb⟩
      rw [e1] at hb
      simp at hb
    · intro h
      exact absurd h.1 (by simp)
    · rw [e1]
      exact SameWorld.same s
    · intro h
      rw [e2] at h
      simp at h
    · intro h
      exact absurd h.1 (by simp)
    · rintro ⟨body, hb⟩
      rw [e2] at hb
      simp at hb
    · intro h
      exact absurd h.1 (by simp)
    · rw [e2]
      exact SameWorld.same s
  | true =>
    have H := upload_dimensions_of_declared_image lib s uuid file is_slim img hct hdec
    refine ⟨⟨fun h => absurd h (by simp), ?_, ?_, ?_⟩, ⟨fun h => absurd h (by simp), ?_, ?_, ?_⟩⟩
    · rw [H.1.1]
      simp
    · intro hw
      rw [H.1.2.1 hw]
      simp
    · intro h
      exact H.1.2.2 (fun hd => h ⟨rfl, hd⟩)
    · rw [H.2.1]
      simp
    · intro hw
      rw [H.2.2.1 hw]
      simp
    · intro h
      exact H.2.2.2 (fun hd => h ⟨rfl, hd⟩)

set_option maxRecDepth 100000 in
/-- Witness of C13 (as amended): the blue 64x64 skin sent as
`application/octet-stream` for `abc` after renders are cached is refused and
nothing happens; a 32x32 picture sent as `image/png` is refused for its
dimensions, as a skin and as a cape, and the table, the files and the cache
stay as they were. -/
theorem upload_accepted_iff_image_and_dimensions_witness :
    UploadSkin refLib rendered "abc"
        (some ⟨"application/octet-stream", skinFile 64 64 ⟨0, 0, 255, 255⟩ ⟨0, 0, 0, 0⟩⟩)
        "false" =
      (Response.json 400 [("error", "File must be an image")], rendered) ∧
    ((UploadSkin refLib rendered "abc"
          (some ⟨"image/png", skinFile 32 32 ⟨0, 0, 255, 255⟩ ⟨0, 0, 0, 0⟩⟩) "false").1 =
        Response.json 400 [("error", "Skin must be 64x64 or 64x32 pixels")] ∧
      SameWorld rendered (UploadSkin refLib rendered "abc"
          (some ⟨"image/png", skinFile 32 32 ⟨0, 0, 255, 255⟩ ⟨0, 0, 0, 0⟩⟩) "false").2) ∧
    ((UploadCape refLib rendered "abc"
          (some ⟨"image/png", skinFile 32 32 ⟨0, 0, 255, 255⟩ ⟨0, 0, 0, 0⟩⟩)).1 =
        Response.json 400 [("error", "Cape must be 64x32 pixels")] ∧
      SameWorld rendered (UploadCape refLib rendered "abc"
          (some ⟨"image/png", skinFile 32 32 ⟨0, 0, 255, 255⟩ ⟨0, 0, 0, 0⟩⟩)).2) :=
  have h1 := upload_accepted_iff_image_and_dimensions refLib rendered "abc"
    ⟨"application/octet-stream", skinFile 64 64 ⟨0, 0, 255, 255⟩ ⟨0, 0, 0, 0⟩⟩ "false"
    (twoTone 64 64 ⟨0, 0, 255, 255⟩ ⟨0, 0, 0, 0⟩) rfl
  have h2 := upload_accepted_iff_image_and_dimensions refLib rendered "abc"
    ⟨"image/png", skinFile 32 32 ⟨0, 0, 255, 255⟩ ⟨0, 0, 0, 0⟩⟩ "false"
    (twoTone 32 32 ⟨0, 0, 255, 255⟩ ⟨0, 0, 0, 0⟩) rfl
  ⟨h1.1.1 (by decide),
    ⟨h2.1.2.1.2 ⟨by decide, by decide⟩, h2.1.2.2.2 (by decide)⟩,
    ⟨h2.2.2.1.2 ⟨by decide, by decide⟩, h2.2.2.2.2 (by decide)⟩⟩

set_option maxRecDepth 100000 in
/-- C13 (counterexample to the claim as stated): the file of the blue skin
decodes to a 64x64 picture and the file of the cape to a 64x32 picture, and an
upload of the same bytes as `image/png` is accepted; sent with the media type
`application/octet-stream`, or with `IMAGE/PNG` in capital letters, the upload
is refused with "File must be an image" and nothing is stored. -/
theorem upload_refused_for_media_type :
    (refLib.pngDecode (skinFile 64 64 ⟨0, 0, 255, 255⟩ ⟨0, 0, 0, 0⟩)).map
      (fun img => (img.Dx, img.Dy)) = some (64, 64) ∧
    (refLib.pngDecode (skinFile 64 32 ⟨255, 0, 0, 255⟩ ⟨255, 0, 0, 255⟩)).map
      (fun img => (img.Dx, img.Dy)) = some (64, 32) ∧
    (UploadSkin refLib (freshService "./storage") "abc" blueUpload "false").1 =
      Response.json 200 [("message", "Skin uploaded successfully"),
        ("url", "/storage/skins/abc_skin.png")] ∧
    UploadSkin refLib (freshService "./storage") "abc" octetStreamUpload "false" =
      (Response.json 400 [("error", "File must be an image")], freshService "./storage") ∧
    UploadSkin refLib (freshService "./storage") "abc" upperCaseTypeUpload "false" =
      (Response.json 400 [("error", "File must be an image")], freshService "./storage") ∧
    (UploadCape refLib (freshService "./storage") "abc" capeUpload).1 =
      Response.json 200 [("message", "Cape uploaded successfully"),
        ("url", "/storage/capes/abc_cape.png")] ∧
    UploadCape refLib (freshService "./storage") "abc" octetStreamCapeUpload =
      (Response.json 400 [("error", "File must be an image")], freshService "./storage") := by
  decide!

/-! ## Uploads: fingerprint and stored bytes -/

theorem Create_refused (s : SkinCapeService) (row : UserSkin) (h : 36 < row.UserUUID.length) :
    (s.Create row).DB = s.DB := by
  have hf : ¬ ({ row with ID := s.nextID } : UserSkin).fits = true := by
    simp only [UserSkin.fits, decide_eq_true_eq]
    omega
  simp only [SkinCapeService.Create]
  rw [if_neg (fun hacc => hf hacc.1)]

theorem Save_refused (s : SkinCapeService) (row : UserSkin) (h : 36 < row.UserUUID.length) :
    (s.Save row).DB = s.DB := by
  have hf : ¬ row.fits = true := by
    simp only [UserSkin.fits, decide_eq_true_eq]
    omega
  simp only [SkinCapeService.Save]
  rw [if_neg hf]

theorem UploadSkin_long_identity (lib : Lib) (s : SkinCapeService) (uuid : String)
    (file : FormFile) (is_slim : String) (img : Image NRGBA)
    (hct : HasPrefix file.ContentType "image/" = true)
    (hdec : lib.pngDecode file.data = some img)
    (hx : img.Dx = 64) (hy : img.Dy = 64 ∨ img.Dy = 32)
    (hw : filepath.Join [s.StoragePath, "skins", stripHyphens uuid ++ "_skin.png"] ∉
      s.unwritable)
    (hlen : 36 < (stripHyphens uuid).length) :
    (UploadSkin lib s uuid (some file) is_slim).2.DB = s.DB := by
  have hd : ¬ (img.Dx ≠ 64 ∨ (img.Dy ≠ 64 ∧ img.Dy ≠ 32)) := by omega
  simp only [UploadSkin, hct, not_true_eq_false, if_false, hdec, hd, SkinCapeService.CreateFile,
    SkinCapeService.emit, hw, SkinCapeService.First]
  rw [(clearAvatarCache_frame _ _).1]
  cases hf : s.DB.find? (fun r => decide (r.UserUUID = stripHyphens uuid)) with
  | none =>
    simp only
    rw [Create_refused _ _ hlen]
  | some userSkin =>
    simp only
    have hu : userSkin.UserUUID = stripHyphens uuid := by simpa using List.find?_some hf
    rw [Save_refused _ _ (by rw [hu]; exact hlen)]

theorem UploadCape_long_identity (lib : Lib) (s : SkinCapeService) (uuid : String)
    (file : FormFile) (img : Image NRGBA)
    (hct : HasPrefix file.ContentType "image/" = true)
    (hdec : lib.pngDecode file.data = some img)
    (hx : img.Dx = 64) (hy : img.Dy = 32)
    (hw : filepath.Join [s.StoragePath, "capes", stripHyphens uuid ++ "_cape.png"] ∉
      s.unwritable)
    (hlen : 36 < (stripHyphens uuid).length) :
    (UploadCape lib s uuid (some file)).2.DB = s.DB := by
  have hd : ¬ (img.Dx ≠ 64 ∨ img.Dy ≠ 32) := by omega
  simp only [UploadCape, hct, not_true_eq_false, if_false, hdec, hd, SkinCapeService.CreateFile,
    SkinCapeService.emit, hw, SkinCapeService.First]
  cases hf : s.DB.find? (fun r => decide (r.UserUUID = stripHyphens uuid)) with
  | none =>
    simp only
    rw [Create_refused _ _ hlen]
  | some userSkin =>
    simp only
    have hu : userSkin.UserUUID = stripHyphens uuid := by simpa using List.find?_some hf
    rw [Save_refused _ _ (by rw [hu]; exact hlen)]

/-- C17 (the failing case): for an identity of more than 36 characters, the
length of the column `user_uuid`, the database refuses the row that
`UploadSkin` and `UploadCape` write, and the handlers, which do not look at the
result of the write, answer with status 200 all the same.  After such an
upload the file holds exactly the uploaded bytes and the table is as it was
before: an identity without a record still has none, so there is no record
whose hash could be the digest of the stored bytes. -/
theorem upload_answers_200_without_record (lib : Lib) (s : SkinCapeService) (uuid : String)
    (file : FormFile) (is_slim : String) (hlen : 36 < (stripHyphens uuid).length) :
    ((∃ body, (UploadSkin lib s uuid (some file) is_slim).1 = Response.json 200 body) →
      (UploadSkin lib s uuid (some file) is_slim).2.readFile
          (filepath.Join [s.StoragePath, "skins", stripHyphens uuid ++ "_skin.png"]) =
        some file.data ∧
      (UploadSkin lib s uuid (some file) is_slim).2.DB = s.DB ∧
      (s.DB.find? (fun r => decide (r.UserUUID = stripHyphens uuid)) = none →
        (UploadSkin lib s uuid (some file) is_slim).2.DB.find?
          (fun r => decide (r.UserUUID = stripHyphens uuid)) = none)) ∧
    ((∃ body, (UploadCape lib s uuid (some file)).1 = Response.json 200 body) →
      (UploadCape lib s uuid (some file)).2.readFile
          (filepath.Join [s.StoragePath, "capes", stripHyphens uuid ++ "_cape.png"]) =
        some file.data ∧
      (UploadCape lib s uuid (some file)).2.DB = s.DB ∧
      (s.DB.find? (fun r => decide (r.UserUUID = stripHyphens uuid)) = none →
        (UploadCape lib s uuid (some file)).2.DB.find?
          (fun r => decide (r.UserUUID = stripHyphens uuid)) = none)) := by
  refine ⟨?_, ?_⟩
  · rintro ⟨body, hb⟩
    obtain ⟨f, img, hf, hct, hdec, hx, hy, hw⟩ := UploadSkin_ok_inv lib s uuid _ is_slim body hb
    have hff : file = f := Option.some.inj hf
    subst hff
    have hDB := UploadSkin_long_identity lib s uuid file is_slim img hct hdec hx hy hw hlen
    refine ⟨(UploadSkin_accepted lib s uuid file is_slim img hct hdec hx hy hw).2, hDB, ?_⟩
    intro hnone
    rw [hDB]
    exact hnone
  · rintro ⟨body, hb⟩
    obtain ⟨f, img, hf, hct, hdec, hx, hy, hw⟩ := UploadCape_ok_inv lib s uuid _ body hb
    have hff : file = f := Option.some.inj hf
    subst hff
    have hDB := UploadCape_long_identity lib s uuid file img hct hdec hx hy hw hlen
    refine ⟨(UploadCape_accepted lib s uuid file img hct hdec hx hy hw).2, hDB, ?_⟩
    intro hnone
    rw [hDB]
    exact hnone

set_option maxRecDepth 100000 in
/-- Witness of C17 (the failing case): the blue skin uploaded for an identity
of 40 characters to a freshly started service. -/
theorem upload_answers_200_without_record_witness :
    longIdentity.length = 40 ∧
    (UploadSkin refLib (freshService "./storage") longIdentity blueUpload "false").1 =
      Response.json 200 [("message", "Skin uploaded successfully"),
        ("url", "/storage/skins/0123456789012345678901234567890123456789_skin.png")] ∧
    (UploadSkin refLib (freshService "./storage") longIdentity
        (some ⟨"image/png", skinFile 64 64 ⟨0, 0, 255, 255⟩ ⟨0, 0, 0, 0⟩⟩) "false").2.readFile
        (filepath.Join [(freshService "./storage").StoragePath, "skins",
          stripHyphens longIdentity ++ "_skin.png"]) =
      some (skinFile 64 64 ⟨0, 0, 255, 255⟩ ⟨0, 0, 0, 0⟩) ∧
    (UploadSkin refLib (freshService "./storage") longIdentity
        (some ⟨"image/png", skinFile 64 64 ⟨0, 0, 255, 255⟩ ⟨0, 0, 0, 0⟩⟩) "false").2.DB =
      [] ∧
    (GetAvatarWithSize refLib longUploaded longIdentity "16").1 =
      Response.png (refLib.pngEncode (defaultAvatarImage 16)) :=
  have h := (upload_answers_200_without_record refLib (freshService "./storage") longIdentity
    ⟨"image/png", skinFile 64 64 ⟨0, 0, 255, 255⟩ ⟨0, 0, 0, 0⟩⟩ "false" (by decide)).1
    ⟨[("message", "Skin uploaded successfully"),
      ("url", "/storage/skins/0123456789012345678901234567890123456789_skin.png")], by decide!⟩
  ⟨by decide, by decide!, h.1, h.2.1, by decide!⟩

/-- For an identity of at most 36 characters, a digest of at most 32 characters
(an MD5 digest in hexadecimal has exactly 32) and a table whose rows fit their
columns, an `UploadSkin` that answers with status 200 for the bytes `file.data`
leaves a record for the identity whose `SkinHash` is the digest of exactly
these bytes, and the file the handler wrote for the skin holds exactly these
bytes. -/
theorem UploadSkin_recorded (lib : Lib) (s : SkinCapeService) (uuid : String)
    (file : FormFile) (is_slim : String) (body : List (String × String))
    (hb : (UploadSkin lib s uuid (some file) is_slim).1 = Response.json 200 body)
    (hlen : (stripHyphens uuid).length ≤ 36) (hmd5 : (lib.md5Hex file.data).length ≤ 32)
    (hfits : ∀ r ∈ s.DB, r.fits = true) :
    (∃ row, (UploadSkin lib s uuid (some file) is_slim).2.DB.find?
        (fun r => decide (r.UserUUID = stripHyphens uuid)) = some row ∧
      row.SkinHash = lib.md5Hex file.data ∧
      row.SkinURL = "/storage/skins/" ++ (stripHyphens uuid ++ "_skin.png")) ∧
    (UploadSkin lib s uuid (some file) is_slim).2.readFile
        (filepath.Join [s.StoragePath, "skins", stripHyphens uuid ++ "_skin.png"]) =
      some file.data := by
  obtain ⟨f, img, hf, hct, hdec, hx, hy, hw⟩ := UploadSkin_ok_inv lib s uuid _ is_slim body hb
  have hff : file = f := Option.some.inj hf
  subst hff
  refine ⟨?_, (UploadSkin_accepted lib s uuid file is_slim img hct hdec hx hy hw).2⟩
  have hd : ¬ (img.Dx ≠ 64 ∨ (img.Dy ≠ 64 ∧ img.Dy ≠ 32)) := by omega
  have hurl : ("/storage/skins/" ++ (stripHyphens uuid ++ "_skin.png")).length ≤ 500 := by
    simp only [String.length_append]
    have e1 : "/storage/skins/".length = 15 := by decide
    have e2 : "_skin.png".length = 9 := by decide
    omega
  simp only [UploadSkin, hct, not_true_eq_false, if_false, hdec, hd, SkinCapeService.CreateFile,
    SkinCapeService.emit, hw, SkinCapeService.First]
  rw [(clearAvatarCache_frame _ _).1]
  cases hfind : s.DB.find? (fun r => decide (r.UserUUID = stripHyphens uuid)) with
  | none =>
    simp only [SkinCapeService.Create]
    have hacc : (UserSkin.mk s.nextID (stripHyphens uuid)
          ("/storage/skins/" ++ (stripHyphens uuid ++ "_skin.png")) "" (lib.md5Hex file.data) ""
          (decide (is_slim = "true"))).fits = true ∧
        ∀ r ∈ s.DB, r.UserUUID ≠ stripHyphens uuid := by
      refine ⟨?_, ?_⟩
      · simp only [UserSkin.fits, decide_eq_true_eq]
        exact ⟨hlen, hurl, by decide, hmd5, by decide⟩
      · intro r hr
        have := List.find?_eq_none.1 hfind r hr
        simpa using this
    rw [if_pos hacc]
    exact ⟨_, find_after_Create s.DB _ _ rfl hfind, rfl, rfl⟩
  | some userSkin =>
    simp only [SkinCapeService.Save]
    have hu : userSkin.UserUUID = stripHyphens uuid := by simpa using List.find?_some hfind
    have hfu := hfits userSkin (List.mem_of_find?_eq_some hfind)
    simp only [UserSkin.fits, decide_eq_true_eq] at hfu
    have hfit : ({ userSkin with
          SkinURL := "/storage/skins/" ++ (stripHyphens uuid ++ "_skin.png"),
          IsSlim := decide (is_slim = "true"),
          SkinHash := lib.md5Hex file.data } : UserSkin).fits = true := by
      simp only [UserSkin.fits, decide_eq_true_eq]
      exact ⟨hfu.1, hurl, hfu.2.2.1, hmd5, hfu.2.2.2.2⟩
    rw [if_pos hfit]
    exact ⟨_, find_after_Save s.DB _ userSkin _ hu hfind, rfl, rfl⟩

/-- The counterpart of `UploadSkin_recorded` for `UploadCape`, with `CapeHash`
and the cape file. -/
theorem UploadCape_recorded (lib : Lib) (s : SkinCapeService) (uuid : String)
    (file : FormFile) (body : List (String × String))
    (hb : (UploadCape lib s uuid (some file)).1 = Response.json 200 body)
    (hlen : (stripHyphens uuid).length ≤ 36) (hmd5 : (lib.md5Hex file.data).length ≤ 32)
    (hfits : ∀ r ∈ s.DB, r.fits = true) :
    (∃ row, (UploadCape lib s uuid (some file)).2.DB.find?
        (fun r => decide (r.UserUUID = stripHyphens uuid)) = some row ∧
      row.CapeHash = lib.md5Hex file.data ∧
      row.CapeURL = "/storage/capes/" ++ (stripHyphens uuid ++ "_cape.png")) ∧
    (UploadCape lib s uuid (some file)).2.readFile
        (filepath.Join [s.StoragePath, "capes", stripHyphens uuid ++ "_cape.png"]) =
      some file.data := by
  obtain ⟨f, img, hf, hct, hdec, hx, hy, hw⟩ := UploadCape_ok_inv lib s uuid _ body hb
  have hff : file = f := Option.some.inj hf
  subst hff
  refine ⟨?_, (UploadCape_accepted lib s uuid file img hct hdec hx hy hw).2⟩
  have hd : ¬ (img.Dx ≠ 64 ∨ img.Dy ≠ 32) := by omega
  have hurl : ("/storage/capes/" ++ (stripHyphens uuid ++ "_cape.png")).length ≤ 500 := by
    simp only [String.length_append]
    have e1 : "/storage/capes/".length = 15 := by decide
    have e2 : "_cape.png".length = 9 := by decide
    omega
  simp only [UploadCape, hct, not_true_eq_false, if_false, hdec, hd, SkinCapeService.CreateFile,
    SkinCapeService.emit, hw, SkinCapeService.First]
  cases hfind : s.DB.find? (fun r => decide (r.UserUUID = stripHyphens uuid)) with
  | none =>
    simp only [SkinCapeService.Create]
    have hacc : (UserSkin.mk s.nextID (stripHyphens uuid) ""
          ("/storage/capes/" ++ (stripHyphens uuid ++ "_cape.png")) "" (lib.md5Hex file.data)
          false).fits = true ∧
        ∀ r ∈ s.DB, r.UserUUID ≠ stripHyphens uuid := by
      refine ⟨?_, ?_⟩
      · simp only [UserSkin.fits, decide_eq_true_eq]
        exact ⟨hlen, by decide, hurl, by decide, hmd5⟩
      · intro r hr
        have := List.find?_eq_none.1 hfind r hr
        simpa using this
    rw [if_pos hacc]
    exact ⟨_, find_after_Create s.DB _ _ rfl hfind, rfl, rfl⟩
  | some userSkin =>
    simp only [SkinCapeService.Save]
    have hu : userSkin.UserUUID = stripHyphens uuid := by simpa using List.find?_some hfind
    have hfu := hfits userSkin (List.mem_of_find?_eq_some hfind)
    simp only [UserSkin.fits, decide_eq_true_eq] at hfu
    have hfit : ({ userSkin with
          CapeURL := "/storage/capes/" ++ (stripHyphens uuid ++ "_cape.png"),
          CapeHash := lib.md5Hex file.data } : UserSkin).fits = true := by
      simp only [UserSkin.fits, decide_eq_true_eq]
      exact ⟨hfu.1, hfu.2.1, hurl, hfu.2.2.2.1, hmd5⟩
    rw [if_pos hfit]
    exact ⟨_, find_after_Save s.DB _ userSkin _ hu hfind, rfl, rfl⟩

set_option maxRecDepth 100000 in
/-- An instance of `UploadSkin_recorded`: the red skin uploaded for `abc`,
which has a record and cached renders of the blue skin. -/
theorem reupload_recorded :
    ∃ row, reuploaded.DB.find? (fun r => decide (r.UserUUID = stripHyphens "abc")) = some row ∧
      row.SkinHash = refLib.md5Hex (skinFile 64 64 ⟨255, 0, 0, 255⟩ ⟨0, 0, 0, 0⟩) ∧
      row.SkinURL = "/storage/skins/" ++ (stripHyphens "abc" ++ "_skin.png") :=
  (UploadSkin_recorded refLib rendered "abc"
    ⟨"image/png", skinFile 64 64 ⟨255, 0, 0, 255⟩ ⟨0, 0, 0, 0⟩⟩ "false"
    [("message", "Skin uploaded successfully"), ("url", "/storage/skins/abc_skin.png")]
    (by decide!) (by decide) (by decide!) (by decide!)).1

/-! ## Order of the record write and the invalidation -/

theorem writeThenInvalidate_of_clear (s S : SkinCapeService) (u : String) (pre : List Effect)
    (w : Effect) (hlog : S.log = s.log ++ pre ++ [w]) (hR : S.RedisClient = s.RedisClient)
    (hw : w.isRecordWrite = true)
    (hpre : ∀ e ∈ pre, e.isInvalidation = false ∧ e.isRecordWrite = false) :
    WriteThenInvalidate s (clearAvatarCache S u) u := by
  cases hc : s.RedisClient with
  | none =>
    refine ⟨pre, w, [], ?_, hw, hpre, by simp, by simp [hc], fun _ => rfl⟩
    rw [clearAvatarCache_log_none S u (hR.trans hc)]
    exact trace_of_log (by rw [hlog]; simp)
  | some r =>
    obtain ⟨rest, h1, h2⟩ := clearAvatarCache_log_some S u r (hR.trans hc)
    refine ⟨pre, w, Effect.redisKeys ("avatar:" ++ u ++ ":*") :: rest, ?_, hw, hpre, ?_, ?_, ?_⟩
    · exact trace_of_log (by rw [h1, hlog]; simp)
    · intro e he
      rcases List.mem_cons.1 he with he | he
      · subst he; rfl
      · exact h2 e he
    · intro _ _; rfl
    · intro h
      rw [h] at hc
      cases hc

theorem UploadSkin_writeThenInvalidate (lib : Lib) (s : SkinCapeService) (uuid : String)
    (file : Option FormFile) (is_slim : String) (body : List (String × String))
    (h : (UploadSkin lib s uuid file is_slim).1 = Response.json 200 body) :
    WriteThenInvalidate s (UploadSkin lib s uuid file is_slim).2 (stripHyphens uuid) := by
  obtain ⟨f, img, hfile, hct, hdec, hx, hy, hw⟩ := UploadSkin_ok_inv lib s uuid file is_slim body h
  subst hfile
  have hd : ¬ (img.Dx ≠ 64 ∨ (img.Dy ≠ 64 ∧ img.Dy ≠ 32)) := by omega
  simp only [UploadSkin, hct, not_true_eq_false, if_false, hdec, hd, SkinCapeService.CreateFile,
    SkinCapeService.emit, hw, SkinCapeService.First]
  cases hf : s.DB.find? (fun r => decide (r.UserUUID = stripHyphens uuid)) with
  | none =>
    simp only
    refine writeThenInvalidate_of_clear s _ _
      [Effect.pngDecode, Effect.fsCreate (filepath.Join
        [s.StoragePath, "skins", stripHyphens uuid ++ "_skin.png"]),
        Effect.dbFirst (stripHyphens uuid)]
      (Effect.dbCreate
        { ID := s.nextID, UserUUID := stripHyphens uuid,
          SkinURL := "/storage/skins/" ++ (stripHyphens uuid ++ "_skin.png"), CapeURL := "",
          SkinHash := lib.md5Hex f.data, CapeHash := "", IsSlim := decide (is_slim = "true") })
      ?_ rfl rfl ?_
    · simp [SkinCapeService.Create]
    · intro e he
      simp only [List.mem_cons, List.mem_singleton, List.not_mem_nil, or_false] at he
      rcases he with he | he | he <;> subst he <;> exact ⟨rfl, rfl⟩
  | some userSkin =>
    simp only
    refine writeThenInvalidate_of_clear s _ _
      [Effect.pngDecode, Effect.fsCreate (filepath.Join
        [s.StoragePath, "skins", stripHyphens uuid ++ "_skin.png"]),
        Effect.dbFirst (stripHyphens uuid)]
      (Effect.dbSave
        { userSkin with
          SkinURL := "/storage/skins/" ++ (stripHyphens uuid ++ "_skin.png"),
          IsSlim := decide (is_slim = "true"), SkinHash := lib.md5Hex f.data })
      ?_ rfl rfl ?_
    · simp [SkinCapeService.Save]
    · intro e he
      simp only [List.mem_cons, List.mem_singleton, List.not_mem_nil, or_false] at he
      rcases he with he | he | he <;> subst he <;> exact ⟨rfl, rfl⟩

theorem DeleteSkin_writeThenInvalidate (s : SkinCapeService) (uuid : String)
    (body : List (String × String))
    (h : (DeleteSkin s uuid).1 = Response.json 200 body) :
    WriteThenInvalidate s (DeleteSkin s uuid).2 (stripHyphens uuid) := by
  cases hf : s.DB.find? (fun r => decide (r.UserUUID = stripHyphens uuid)) with
  | none => simp [DeleteSkin, SkinCapeService.First, hf] at h
  | some userSkin =>
    simp only [DeleteSkin, SkinCapeService.First, hf]
    by_cases hu : userSkin.SkinURL = ""
    · simp only [hu, ne_eq, not_true_eq_false, if_false]
      refine writeThenInvalidate_of_clear s _ _ [Effect.dbFirst (stripHyphens uuid)]
        (Effect.dbSave { userSkin with SkinURL := "", SkinHash := "", IsSlim := false })
        ?_ rfl rfl ?_
      · simp [SkinCapeService.Save, SkinCapeService.emit, hu]
      · intro e he
        simp only [List.mem_singleton] at he
        subst he
        exact ⟨rfl, rfl⟩
    · simp only [hu, ne_eq, not_false_eq_true, if_true]
      refine writeThenInvalidate_of_clear s _ _
        [Effect.dbFirst (stripHyphens uuid),
          Effect.fsRemove (filepath.Join [".", userSkin.SkinURL])]
        (Effect.dbSave { userSkin with SkinURL := "", SkinHash := "", IsSlim := false })
        ?_ rfl rfl ?_
      · simp [SkinCapeService.Save, SkinCapeService.emit, SkinCapeService.Remove]
      · intro e he
        simp only [List.mem_cons, List.mem_singleton, List.not_mem_nil, or_false] at he
        rcases he with he | he <;> subst he <;> exact ⟨rfl, rfl⟩

theorem DeleteUserData_writeThenInvalidate (s : SkinCapeService) (uuid : String)
    (body : List (String × String))
    (h : (DeleteUserData s uuid).1 = Response.json 200 body) :
    WriteThenInvalidate s (DeleteUserData s uuid).2 (stripHyphens uuid) := by
  cases hf : s.DB.find? (fun r => decide (r.UserUUID = stripHyphens uuid)) with
  | none => simp [DeleteUserData, SkinCapeService.First, hf] at h
  | some userSkin =>
    simp only [DeleteUserData, SkinCapeService.First, hf]
    by_cases hu : userSkin.SkinURL = "" <;> by_cases hc : userSkin.CapeURL = ""
    · simp only [hu, hc, ne_eq, not_true_eq_false, if_false]
      refine writeThenInvalidate_of_clear s _ _ [Effect.dbFirst (stripHyphens uuid)]
        (Effect.dbDelete userSkin) ?_ rfl rfl ?_
      · simp [SkinCapeService.Delete, SkinCapeService.emit]
      · intro e he
        simp only [List.mem_singleton] at he
        subst he
        exact ⟨rfl, rfl⟩
    · simp only [hu, hc, ne_eq, not_true_eq_false, not_false_eq_true, if_false, if_true]
      refine writeThenInvalidate_of_clear s _ _
        [Effect.dbFirst (stripHyphens uuid),
          Effect.fsRemove (filepath.Join [".", userSkin.CapeURL])]
        (Effect.dbDelete userSkin) ?_ rfl rfl ?_
      · simp [SkinCapeService.Delete, SkinCapeService.emit, SkinCapeService.Remove]
      · intro e he
        simp only [List.mem_cons, List.mem_singleton, List.not_mem_nil, or_false] at he
        rcases he with he | he <;> subst he <;> exact ⟨rfl, rfl⟩
    · simp only [hu, hc, ne_eq, not_true_eq_false, not_false_eq_true, if_false, if_true]
      refine writeThenInvalidate_of_clear s _ _
        [Effect.dbFirst (stripHyphens uuid),
          Effect.fsRemove (filepath.Join [".", userSkin.SkinURL])]
        (Effect.dbDelete userSkin) ?_ rfl rfl ?_
      · simp [SkinCapeService.Delete, SkinCapeService.emit, SkinCapeService.Remove]
      · intro e he
        simp only [List.mem_cons, List.mem_singleton, List.not_mem_nil, or_false] at he
        rcases he with he | he <;> subst he <;> exact ⟨rfl, rfl⟩
    · simp only [hu, hc, ne_eq, not_false_eq_true, if_true]
      refine writeThenInvalidate_of_clear s _ _
        [Effect.dbFirst (stripHyphens uuid),
          Effect.fsRemove (filepath.Join [".", userSkin.SkinURL]),
          Effect.fsRemove (filepath.Join [".", userSkin.CapeURL])]
        (Effect.dbDelete userSkin) ?_ rfl rfl ?_
      · simp [SkinCapeService.Delete, SkinCapeService.emit, SkinCapeService.Remove]
      · intro e he
        simp only [List.mem_cons, List.mem_singleton, List.not_mem_nil, or_false] at he
        rcases he with he | he | he <;> subst he <;> exact ⟨rfl, rfl⟩

/-- C18 (as amended): in the effects of every `UploadSkin`, `DeleteSkin` and
`DeleteUserData` that answers with status 200, the write of the record table
(`Create`, `Save` or `Delete`) comes before the invalidation: no `KEYS` or
`DEL` command precedes the write, with a Redis client the `KEYS` command of
`clearAvatarCache` is the effect right after it, and without a Redis client no
invalidation follows at all. -/
theorem record_write_precedes_invalidation (lib : Lib) (s : SkinCapeService) (uuid : String)
    (file : Option FormFile) (is_slim : String) :
    ((∃ body, (UploadSkin lib s uuid file is_slim).1 = Response.json 200 body) →
      WriteThenInvalidate s (UploadSkin lib s uuid file is_slim).2 (stripHyphens uuid)) ∧
    ((∃ body, (DeleteSkin s uuid).1 = Response.json 200 body) →
      WriteThenInvalidate s (DeleteSkin s uuid).2 (stripHyphens uuid)) ∧
    ((∃ body, (DeleteUserData s uuid).1 = Response.json 200 body) →
      WriteThenInvalidate s (DeleteUserData s uuid).2 (stripHyphens uuid)) :=
  ⟨fun ⟨body, h⟩ => UploadSkin_writeThenInvalidate lib s uuid file is_slim body h,
    fun ⟨body, h⟩ => DeleteSkin_writeThenInvalidate s uuid body h,
    fun ⟨body, h⟩ => DeleteUserData_writeThenInvalidate s uuid body h⟩

set_option maxRecDepth 100000 in
/-- Witness of C18 (as amended): the red skin uploaded for `abc`, the skin of
`abc` deleted and the data of `abc` deleted, each after renders of the blue
skin are cached. -/
theorem record_write_precedes_invalidation_witness :
    WriteThenInvalidate rendered (UploadSkin refLib rendered "abc" redUpload "false").2
        (stripHyphens "abc") ∧
      WriteThenInvalidate rendered (DeleteSkin rendered "abc").2 (stripHyphens "abc") ∧
      WriteThenInvalidate rendered (DeleteUserData rendered "abc").2 (stripHyphens "abc") :=
  have h := record_write_precedes_invalidation refLib rendered "abc" redUpload "false"
  ⟨h.1 ⟨[("message", "Skin uploaded successfully"), ("url", "/storage/skins/abc_skin.png")],
      by decide!⟩,
    h.2.1 ⟨[("message", "Skin deleted successfully")], by decide!⟩,
    h.2.2 ⟨[("message", "User data deleted successfully")], by decide!⟩⟩

set_option maxRecDepth 100000 in
/-- C18 (counterexample to the claim as stated): the red skin is uploaded for
`abc` while a render of the blue skin is cached under `avatar:abc:16`.  The
effects of the upload are, in order: the file write, the record lookup, the
`Save` of the record with the new hash, and only then the `KEYS` and `DEL`
commands and the removal of the derived file. -/
theorem record_saved_before_cache_cleared :
    (rendered.RedisClient.map fun r => r.Get "avatar:abc:16") =
      some (some "storage/avatars/abc_avatar_16.png") ∧
    trace rendered (UploadSkin refLib rendered "abc" redUpload "false").2 =
      [Effect.pngDecode,
        Effect.fsCreate "storage/skins/abc_skin.png",
        Effect.dbFirst "abc",
        Effect.dbSave ⟨1, "abc", "/storage/skins/abc_skin.png", "",
          refLib.md5Hex (skinFile 64 64 ⟨255, 0, 0, 255⟩ ⟨0, 0, 0, 0⟩), "", false⟩,
        Effect.redisKeys "avatar:abc:*",
        Effect.redisDel ["avatar:abc:16"],
        Effect.fsReadDir "storage/avatars",
        Effect.fsRemove "storage/avatars/abc_avatar_16.png"] := by
  decide!

/-! ## Identity normalisation -/

theorem stripHyphens_no_hyphen (u : String) : '-' ∉ (stripHyphens u).data := by
  simp [stripHyphens, List.mem_filter]

theorem stripHyphens_of_no_hyphen (u : String) (h : '-' ∉ u.data) : stripHyphens u = u := by
  have hf : u.data.filter (fun c => decide (c ≠ '-')) = u.data := by
    rw [List.filter_eq_self]
    intro c hc
    have : c ≠ '-' := fun e => h (e ▸ hc)
    simpa using this
  unfold stripHyphens
  rw [hf]

theorem stripHyphens_idem (u : String) : stripHyphens (stripHyphens u) = stripHyphens u :=
  stripHyphens_of_no_hyphen _ (stripHyphens_no_hyphen u)

theorem cache_key_injective (kind u v : String) (size : Int)
    (h : kind ++ u ++ ":" ++ fmtInt size = kind ++ v ++ ":" ++ fmtInt size) : u = v := by
  have h2 := congrArg String.data h
  simp only [String.data_append, List.append_assoc] at h2
  have h3 := List.append_cancel_left h2
  have h4 : u.data ++ (":".data ++ (fmtInt size).data) = v.data ++ (":".data ++ (fmtInt size).data) :=
    h3
  exact String.ext (List.append_cancel_right h4)

theorem clearAvatarCache_log_grows (s : SkinCapeService) (u : String) :
    ∃ rest, (clearAvatarCache s u).log = s.log ++ rest := by
  cases hR : s.RedisClient with
  | none => exact ⟨[], by rw [clearAvatarCache_log_none s u hR]; simp⟩
  | some r =>
    obtain ⟨rest, h, _⟩ := clearAvatarCache_log_some s u r hR
    exact ⟨_, h⟩

theorem head_trace_of_log {s s2 : SkinCapeService} {e : Effect}
    (h : ∃ rest, s2.log = s.log ++ e :: rest) : (trace s s2).head? = some e := by
  obtain ⟨rest, h⟩ := h
  rw [trace_of_log h]
  rfl

theorem DeleteSkin_queries (s : SkinCapeService) (uuid : String) :
    (trace s (DeleteSkin s uuid).2).head? = some (Effect.dbFirst (stripHyphens uuid)) := by
  apply head_trace_of_log
  cases hf : s.DB.find? (fun r => decide (r.UserUUID = stripHyphens uuid)) with
  | none =>
    simp only [DeleteSkin, SkinCapeService.First, hf]
    exact ⟨[], rfl⟩
  | some userSkin =>
    simp only [DeleteSkin, SkinCapeService.First, hf]
    generalize hS : SkinCapeService.Save _ _ = S
    obtain ⟨rest, hc⟩ := clearAvatarCache_log_grows S (stripHyphens uuid)
    rw [hc, ← hS]
    by_cases hu : userSkin.SkinURL = ""
    · exact ⟨_ :: rest, by
        simp [hu, SkinCapeService.Save, SkinCapeService.emit]
        rfl⟩
    · exact ⟨_ :: _ :: rest, by
        simp [hu, SkinCapeService.Save, SkinCapeService.emit, SkinCapeService.Remove]
        exact ⟨rfl, rfl⟩⟩

theorem DeleteCape_queries (s : SkinCapeService) (uuid : String) :
    (trace s (DeleteCape s uuid).2).head? = some (Effect.dbFirst (stripHyphens uuid)) := by
  apply head_trace_of_log
  cases hf : s.DB.find? (fun r => decide (r.UserUUID = stripHyphens uuid)) with
  | none =>
    simp only [DeleteCape, SkinCapeService.First, hf]
    exact ⟨[], rfl⟩
  | some userSkin =>
    simp only [DeleteCape, SkinCapeService.First, hf]
    by_cases hu : userSkin.CapeURL = ""
    · exact ⟨[_], by
        simp [hu, SkinCapeService.Save, SkinCapeService.emit]
        rfl⟩
    · exact ⟨[_, _], by
        simp [hu, SkinCapeService.Save, SkinCapeService.emit, SkinCapeService.Remove]
        exact ⟨rfl, rfl⟩⟩

theorem DeleteUserData_queries (s : SkinCapeService) (uuid : String) :
    (trace s (DeleteUserData s uuid).2).head? = some (Effect.dbFirst (stripHyphens uuid)) := by
  apply head_trace_of_log
  cases hf : s.DB.find? (fun r => decide (r.UserUUID = stripHyphens uuid)) with
  | none =>
    simp only [DeleteUserData, SkinCapeService.First, hf]
    exact ⟨[], rfl⟩
  | some userSkin =>
    simp only [DeleteUserData, SkinCapeService.First, hf]
    generalize hS : SkinCapeService.Delete _ _ = S
    obtain ⟨rest, hc⟩ := clearAvatarCache_log_grows S (stripHyphens uuid)
    rw [hc, ← hS]
    by_cases hu : userSkin.SkinURL = "" <;> by_cases hc : userSkin.CapeURL = ""
    · exact ⟨_ :: rest, by
        simp [hu, hc, SkinCapeService.Delete, SkinCapeService.emit]
        rfl⟩
    · exact ⟨_ :: _ :: rest, by
        simp [hu, hc, SkinCapeService.Delete, SkinCapeService.emit, SkinCapeService.Remove]
        exact ⟨rfl, rfl⟩⟩
    · exact ⟨_ :: _ :: rest, by
        simp [hu, hc, SkinCapeService.Delete, SkinCapeService.emit, SkinCapeService.Remove]
        exact ⟨rfl, rfl⟩⟩
    · exact ⟨_ :: _ :: _ :: rest, by
        simp [hu, hc, SkinCapeService.Delete, SkinCapeService.emit, SkinCapeService.Remove]
        exact ⟨rfl, rfl, rfl⟩⟩

theorem UploadSkin_queries (lib : Lib) (s : SkinCapeService) (uuid : String)
    (file : Option FormFile) (is_slim : String) (body : List (String × String))
    (hb : (UploadSkin lib s uuid file is_slim).1 = Response.json 200 body) :
    (trace s (UploadSkin lib s uuid file is_slim).2).take 3 =
      [Effect.pngDecode,
        Effect.fsCreate (filepath.Join [s.StoragePath, "skins", stripHyphens uuid ++ "_skin.png"]),
        Effect.dbFirst (stripHyphens uuid)] := by
  obtain ⟨f, img, hf, hct, hdec, hx, hy, hw⟩ := UploadSkin_ok_inv lib s uuid _ is_slim body hb
  subst hf
  obtain ⟨w, _, h | ⟨rest, h, _⟩⟩ := UploadSkin_accepted_log lib s uuid f is_slim img hct hdec
    hx hy hw
  · rw [trace_of_log h.2]
    rfl
  · rw [List.append_assoc] at h
    rw [trace_of_log h]
    rfl

theorem mem_trace_after {s s1 s2 s3 : SkinCapeService} {e : Effect} {key : String}
    (h1 : ∃ t, s1.log = s.log ++ t) (h2 : s2.log = s1.log ++ [e]) (h3 : Extends key s2 s3) :
    e ∈ trace s s3 := by
  obtain ⟨t, h1⟩ := h1
  obtain ⟨t3, h3, _⟩ := h3
  have : s3.log = s.log ++ (t ++ e :: t3) := by rw [h3, h2, h1]; simp
  rw [trace_of_log this]
  simp

theorem cacheGet_log_grows (s : SkinCapeService) (key : String) :
    ∃ t, (s.cacheGet key).2.log = s.log ++ t := by
  obtain ⟨t, h, _⟩ := cacheGet_extends key s
  exact ⟨t, h⟩

theorem GetAvatarWithSize_queries (lib : Lib) (s : SkinCapeService) (uuid sizeParam : String)
    (size : Int) (h : Atoi sizeParam = some size) (hr : ¬ (size < 8 ∨ size > 512))
    (hmiss : (s.cacheGet ("avatar:" ++ stripHyphens uuid ++ ":" ++ fmtInt size)).1 = none) :
    Effect.dbFirst (stripHyphens uuid) ∈ trace s (GetAvatarWithSize lib s uuid sizeParam).2 := by
  have hg := cacheGet_log_grows s ("avatar:" ++ stripHyphens uuid ++ ":" ++ fmtInt size)
  simp only [GetAvatarWithSize, Atoi_ne_empty h, h, hr, if_false]
  generalize s.cacheGet ("avatar:" ++ stripHyphens uuid ++ ":" ++ fmtInt size) = cg at hmiss hg ⊢
  rcases cg with ⟨o, s1⟩
  simp only at hmiss hg
  subst hmiss
  simp only
  have E2 : (s1.First (stripHyphens uuid)).2.log = s1.log ++ [Effect.dbFirst (stripHyphens uuid)] :=
    rfl
  generalize s1.First (stripHyphens uuid) = fr at E2 ⊢
  rcases fr with ⟨ou, s2⟩
  simp only at E2
  cases ou with
  | none => exact mem_trace_after hg E2 (serveDefaultAvatar_extends "" _ _ _)
  | some userSkin =>
    simp only
    split
    · exact mem_trace_after hg E2 (serveDefaultAvatar_extends "" _ _ _)
    · have E3 := generateAvatar_extends ("avatar:" ++ stripHyphens uuid ++ ":" ++ fmtInt size)
        lib s2 (stripHyphens uuid) userSkin.SkinURL size
      generalize generateAvatar lib s2 (stripHyphens uuid) userSkin.SkinURL size = gr at E3 ⊢
      rcases gr with ⟨avatarPath, s3⟩
      simp only
      split
      · exact mem_trace_after hg E2 (E3.trans (serveDefaultAvatar_extends _ _ _ _))
      · exact mem_trace_after hg E2
          ((E3.trans (cacheSet_extends _ _ _)).trans (serveFile_extends _ _ _))

theorem GetHeadWithSize_queries (lib : Lib) (s : SkinCapeService) (uuid sizeParam : String)
    (size : Int) (h : Atoi sizeParam = some size) (hr : ¬ (size < 8 ∨ size > 512))
    (hmiss : (s.cacheGet ("head:" ++ stripHyphens uuid ++ ":" ++ fmtInt size)).1 = none) :
    Effect.dbFirst (stripHyphens uuid) ∈ trace s (GetHeadWithSize lib s uuid sizeParam).2 := by
  have hg := cacheGet_log_grows s ("head:" ++ stripHyphens uuid ++ ":" ++ fmtInt size)
  simp only [GetHeadWithSize, Atoi_ne_empty h, h, hr, if_false]
  generalize s.cacheGet ("head:" ++ stripHyphens uuid ++ ":" ++ fmtInt size) = cg at hmiss hg ⊢
  rcases cg with ⟨o, s1⟩
  simp only at hmiss hg
  subst hmiss
  simp only
  have E2 : (s1.First (stripHyphens uuid)).2.log = s1.log ++ [Effect.dbFirst (stripHyphens uuid)] :=
    rfl
  generalize s1.First (stripHyphens uuid) = fr at E2 ⊢
  rcases fr with ⟨ou, s2⟩
  simp only at E2
  cases ou with
  | none => exact mem_trace_after hg E2 (serveDefaultHead_extends "" _ _ _)
  | some userSkin =>
    simp only
    split
    · exact mem_trace_after hg E2 (serveDefaultHead_extends "" _ _ _)
    · have E3 := generateHead_extends ("head:" ++ stripHyphens uuid ++ ":" ++ fmtInt size)
        lib s2 (stripHyphens uuid) userSkin.SkinURL size
      generalize generateHead lib s2 (stripHyphens uuid) userSkin.SkinURL size = gr at E3 ⊢
      rcases gr with ⟨headPath, s3⟩
      simp only
      split
      · exact mem_trace_after hg E2 (E3.trans (serveDefaultHead_extends _ _ _ _))
      · exact mem_trace_after hg E2
          ((E3.trans (cacheSet_extends _ _ _)).trans (serveFile_extends _ _ _))

/-- C20 (as amended): an identity without hyphens is used as it is given, in
whatever letter case and of whatever length.  The renders look up and store
under `avatar:<u>:<size>` and `head:<u>:<size>` and nothing else, so that two
such inputs that differ (in the case of a letter, say) use different cache
keys.  The record is asked for with `u` itself as the value of `user_uuid`: by
a render whose cache lookup misses, by the three deletes as their first step,
and by an `UploadSkin` that answers with status 200, after it has written the
file `<u>_skin.png`.  Only `GetProfile` tests a length, answering with the
error exactly when `u` is not 32 bytes long. -/
theorem identity_used_as_given (lib : Lib) (s : SkinCapeService) (u sizeParam : String)
    (size : Int) (file : Option FormFile) (is_slim : String) (now : Int) (baseURL : String)
    (hu : '-' ∉ u.data) (h : Atoi sizeParam = some size) (h8 : 8 ≤ size) (h512 : size ≤ 512) :
    stripHyphens u = u ∧
    (∀ k ∈ cacheKeys (trace s (GetAvatarWithSize lib s u sizeParam).2),
      k = "avatar:" ++ u ++ ":" ++ fmtInt size) ∧
    (∀ k ∈ cacheKeys (trace s (GetHeadWithSize lib s u sizeParam).2),
      k = "head:" ++ u ++ ":" ++ fmtInt size) ∧
    (s.RedisClient ≠ none →
      Effect.redisGet ("avatar:" ++ u ++ ":" ++ fmtInt size) ∈
        trace s (GetAvatarWithSize lib s u sizeParam).2 ∧
      Effect.redisGet ("head:" ++ u ++ ":" ++ fmtInt size) ∈
        trace s (GetHeadWithSize lib s u sizeParam).2) ∧
    (∀ v, v ≠ u →
      "avatar:" ++ v ++ ":" ++ fmtInt size ≠ "avatar:" ++ u ++ ":" ++ fmtInt size ∧
      "head:" ++ v ++ ":" ++ fmtInt size ≠ "head:" ++ u ++ ":" ++ fmtInt size) ∧
    ((s.cacheGet ("avatar:" ++ u ++ ":" ++ fmtInt size)).1 = none →
      Effect.dbFirst u ∈ trace s (GetAvatarWithSize lib s u sizeParam).2) ∧
    ((s.cacheGet ("head:" ++ u ++ ":" ++ fmtInt size)).1 = none →
      Effect.dbFirst u ∈ trace s (GetHeadWithSize lib s u sizeParam).2) ∧
    ((trace s (DeleteSkin s u).2).head? = some (Effect.dbFirst u) ∧
      (trace s (DeleteCape s u).2).head? = some (Effect.dbFirst u) ∧
      (trace s (DeleteUserData s u).2).head? = some (Effect.dbFirst u)) ∧
    ((∃ body, (UploadSkin lib s u file is_slim).1 = Response.json 200 body) →
      (trace s (UploadSkin lib s u file is_slim).2).take 3 =
        [Effect.pngDecode,
          Effect.fsCreate (filepath.Join [s.StoragePath, "skins", u ++ "_skin.png"]),
          Effect.dbFirst u]) ∧
    ((GetProfile s u now baseURL).1 = ProfileResult.invalidUUID ↔ u.utf8ByteSize ≠ 32) := by
  have hs := stripHyphens_of_no_hyphen u hu
  have hr : ¬ (size < 8 ∨ size > 512) := by omega
  have EA := GetAvatarWithSize_extends lib s u sizeParam size h hr
  have EH := GetHeadWithSize_extends lib s u sizeParam size h hr
  have QA := GetAvatarWithSize_queries lib s u sizeParam size h hr
  have QH := GetHeadWithSize_queries lib s u sizeParam size h hr
  have D1 := DeleteSkin_queries s u
  have D2 := DeleteCape_queries s u
  have D3 := DeleteUserData_queries s u
  rw [hs] at EA EH QA QH D1 D2 D3
  refine ⟨hs, ?_, ?_, ?_, ?_, QA, QH, ⟨D1, D2, D3⟩, ?_, ?_⟩
  · exact ((cacheGet_extends _ s).trans EA).keys
  · exact ((cacheGet_extends _ s).trans EH).keys
  · intro hR
    obtain ⟨r, hR⟩ := Option.ne_none_iff_exists'.mp hR
    exact ⟨Extends.mem_trace (cacheGet_log s r _ hR) EA,
      Extends.mem_trace (cacheGet_log s r _ hR) EH⟩
  · intro v hv
    exact ⟨fun e => hv (cache_key_injective "avatar:" v u size e),
      fun e => hv (cache_key_injective "head:" v u size e)⟩
  · rintro ⟨body, hb⟩
    have := UploadSkin_queries lib s u file is_slim body hb
    rw [hs] at this
    exact this
  · unfold GetProfile
    simp only [hs]
    by_cases hl : u.utf8ByteSize = 32
    · simp only [hl, ne_eq, not_true_eq_false, if_false, iff_false]
      cases hf : (s.First u).1 with
      | none =>
        have : s.First u = (none, (s.First u).2) := by rw [← hf]
        rw [this]
        simp
      | some row =>
        have : s.First u = (some row, (s.First u).2) := by rw [← hf]
        rw [this]
        simp
    · simp [hl]

set_option maxRecDepth 100000 in
/-- Witness of C20 (as amended): the identity `ABC` of three capital letters,
rendered at size 16 and deleted in a service that holds a skin and cached
renders of `abc`. -/
theorem identity_used_as_given_witness :
    stripHyphens "ABC" = "ABC" ∧
    (∀ k ∈ cacheKeys (trace rendered (GetAvatarWithSize refLib rendered "ABC" "16").2),
      k = "avatar:" ++ "ABC" ++ ":" ++ fmtInt 16) ∧
    ("avatar:" ++ "abc" ++ ":" ++ fmtInt 16 ≠ "avatar:" ++ "ABC" ++ ":" ++ fmtInt 16 ∧
      "head:" ++ "abc" ++ ":" ++ fmtInt 16 ≠ "head:" ++ "ABC" ++ ":" ++ fmtInt 16) ∧
    Effect.dbFirst "ABC" ∈ trace rendered (GetAvatarWithSize refLib rendered "ABC" "16").2 ∧
    (trace rendered (DeleteSkin rendered "ABC").2).head? = some (Effect.dbFirst "ABC") ∧
    ((GetProfile rendered "ABC" 0 "http://localhost:8081").1 = ProfileResult.invalidUUID ↔
      "ABC".utf8ByteSize ≠ 32) :=
  have h := identity_used_as_given refLib rendered "ABC" "16" 16 blueUpload "false" 0
    "http://localhost:8081" (by decide) (by decide) (by decide) (by decide)
  ⟨h.1, h.2.1, h.2.2.2.2.1 "abc" (by decide), h.2.2.2.2.2.1 (by decide!),
    h.2.2.2.2.2.2.2.1.1, h.2.2.2.2.2.2.2.2.2⟩

set_option maxRecDepth 100000 in
/-- C20 (counterexample to the claim as stated): `abc` and `ABC` differ only in
the case of their letters.  With a render of `abc` cached under
`avatar:abc:16`, the render for `abc` looks up `avatar:abc:16` and the render
for `ABC` looks up `avatar:ABC:16`, under which nothing is stored, and then
asks for the record with `user_uuid = 'ABC'`; `DeleteSkin` for `ABC` asks for
the same; an upload for `ABC` writes the file `ABC_skin.png` next to
`abc_skin.png` before it asks for the record.  And the identity `abc`, under
which a skin was uploaded, recorded and cached, has three characters, not
32. -/
theorem letter_case_variants_use_different_keys :
    (trace rendered (GetAvatarWithSize refLib rendered "abc" "16").2).head? =
      some (Effect.redisGet "avatar:abc:16") ∧
    (trace rendered (GetAvatarWithSize refLib rendered "ABC" "16").2).take 2 =
      [Effect.redisGet "avatar:ABC:16", Effect.dbFirst "ABC"] ∧
    (rendered.RedisClient.map fun r => (r.Get "avatar:abc:16", r.Get "avatar:ABC:16")) =
      some (some "storage/avatars/abc_avatar_16.png", none) ∧
    (trace rendered (DeleteSkin rendered "ABC").2).head? = some (Effect.dbFirst "ABC") ∧
    (trace rendered (UploadSkin refLib rendered "ABC" redUpload "false").2).take 3 =
      [Effect.pngDecode, Effect.fsCreate "storage/skins/ABC_skin.png", Effect.dbFirst "ABC"] ∧
    (UploadSkin refLib rendered "ABC" redUpload "false").2.readFile
        "storage/skins/abc_skin.png" =
      some (skinFile 64 64 ⟨0, 0, 255, 255⟩ ⟨0, 0, 0, 0⟩) ∧
    (UploadSkin refLib rendered "ABC" redUpload "false").2.readFile
        "storage/skins/ABC_skin.png" =
      some (skinFile 64 64 ⟨255, 0, 0, 255⟩ ⟨0, 0, 0, 0⟩) ∧
    (UploadSkin refLib (freshService "./storage") "abc" blueUpload "false").1 =
      Response.json 200 [("message", "Skin uploaded successfully"),
        ("url", "/storage/skins/abc_skin.png")] ∧
    uploaded.DB.map UserSkin.UserUUID = ["abc"] ∧
    "abc".length = 3 := by
  decide!

/-! ## Placeholders -/

theorem default_images_pixels (n x y : Nat) (hx : x < n) (hy : y < n) :
    (defaultAvatarImage n).At x y = ⟨128, 128, 128, 255⟩ ∧
    (defaultHeadImage n).At x y = ⟨139, 69, 19, 255⟩ := by
  unfold Image.At defaultAvatarImage defaultHeadImage
  simp only
  rw [if_pos ⟨hx, hy⟩, if_pos ⟨hx, hy⟩, if_pos ⟨hx, hy⟩, if_pos ⟨hx, hy⟩]
  exact ⟨rfl, rfl⟩

theorem default_images_differ (n : Nat) (h0 : 0 < n) :
    defaultAvatarImage n ≠ defaultHeadImage n := by
  intro e
  have e2 := congrArg (fun img => Image.At img 0 0) e
  simp only at e2
  rw [(default_images_pixels n 0 0 h0 h0).1, (default_images_pixels n 0 0 h0 h0).2] at e2
  exact absurd e2 (by decide)

/-- C21 (as amended): the placeholder is one fixed bitmap per kind and size,
whatever the state of the service: `serveDefaultAvatar` sends the encoding of
the size x size bitmap whose every pixel is RGBA(128,128,128,255),
`serveDefaultHead` the encoding of the size x size bitmap whose every pixel is
RGBA(139,69,19,255); for a positive size the two bitmaps differ. -/
theorem placeholder_fixed_per_kind (lib : Lib) (s : SkinCapeService) (size : Int) :
    (serveDefaultAvatar lib s size).1 =
      Response.png (lib.pngEncode (defaultAvatarImage size.toNat)) ∧
    (serveDefaultHead lib s size).1 =
      Response.png (lib.pngEncode (defaultHeadImage size.toNat)) ∧
    ((defaultAvatarImage size.toNat).Dx = size.toNat ∧
      (defaultAvatarImage size.toNat).Dy = size.toNat ∧
      (defaultHeadImage size.toNat).Dx = size.toNat ∧
      (defaultHeadImage size.toNat).Dy = size.toNat) ∧
    (∀ x y, x < size.toNat → y < size.toNat →
      (defaultAvatarImage size.toNat).At x y = ⟨128, 128, 128, 255⟩ ∧
      (defaultHeadImage size.toNat).At x y = ⟨139, 69, 19, 255⟩) ∧
    (0 < size → defaultAvatarImage size.toNat ≠ defaultHeadImage size.toNat) := by
  refine ⟨rfl, rfl, ⟨rfl, rfl, rfl, rfl⟩, ?_, ?_⟩
  · intro x y hx hy
    exact default_images_pixels _ x y hx hy
  · intro hpos
    exact default_images_differ _ (by omega)

/-- Witness of C21 (as amended): the placeholders of size 16. -/
theorem placeholder_fixed_per_kind_witness :
    ((defaultAvatarImage (16 : Int).toNat).At 0 0 = ⟨128, 128, 128, 255⟩ ∧
      (defaultHeadImage (16 : Int).toNat).At 0 0 = ⟨139, 69, 19, 255⟩) ∧
    defaultAvatarImage (16 : Int).toNat ≠ defaultHeadImage (16 : Int).toNat :=
  have h := placeholder_fixed_per_kind refLib (freshService "./storage") 16
  ⟨h.2.2.2.1 0 0 (by decide) (by decide), h.2.2.2.2 (by decide)⟩

set_option maxRecDepth 100000 in
/-- C21 (counterexample to the claim as stated): at size 16 the placeholder of
kind avatar is grey and the placeholder of kind head is brown; the renders of
an identity without a record answer with different bytes. -/
theorem placeholders_differ_by_kind :
    (defaultAvatarImage 16).At 0 0 = ⟨128, 128, 128, 255⟩ ∧
    (defaultHeadImage 16).At 0 0 = ⟨139, 69, 19, 255⟩ ∧
    (serveDefaultAvatar refLib (freshService "./storage") 16).1 ≠
      (serveDefaultHead refLib (freshService "./storage") 16).1 ∧
    (GetAvatarWithSize refLib (freshService "./storage") "abc" "16").1 =
      (serveDefaultAvatar refLib (freshService "./storage") 16).1 ∧
    (GetHeadWithSize refLib (freshService "./storage") "abc" "16").1 =
      (serveDefaultHead refLib (freshService "./storage") 16).1 := by
  decide!

/-! ## Cache keys -/

theorem digitChar_decimal (k : Nat) (hk : k < 10) : Nat.digitChar k ∈ "0123456789".data := by
  interval_cases k <;> decide

theorem toDigitsCore_decimal :
    ∀ (fuel n : Nat) (ds : List Char) (c : Char), c ∈ Nat.toDigitsCore 10 fuel n ds →
      c ∈ ds ∨ c ∈ "0123456789".data := by
  intro fuel
  induction fuel with
  | zero =>
    intro n ds c h
    left
    simpa [Nat.toDigitsCore] using h
  | succ f ih =>
    intro n ds c h
    have hd : ∀ c, c ∈ Nat.digitChar (n % 10) :: ds → c ∈ ds ∨ c ∈ "0123456789".data := by
      intro c hc
      rcases List.mem_cons.1 hc with hc | hc
      · right
        rw [hc]
        exact digitChar_decimal _ (Nat.mod_lt _ (by decide))
      · exact Or.inl hc
    simp only [Nat.toDigitsCore] at h
    split at h
    · exact hd c h
    · rcases ih _ _ c h with h2 | h2
      · exact hd c h2
      · exact Or.inr h2

theorem natRepr_decimal (n : Nat) (c : Char) (h : c ∈ (Nat.repr n).data) :
    c ∈ "0123456789".data := by
  simp only [Nat.repr, Nat.toDigits, List.asString] at h
  rcases toDigitsCore_decimal _ _ _ c h with h2 | h2
  · simp at h2
  · exact h2

theorem fmtInt_chars (n : Int) (c : Char) (h : c ∈ (fmtInt n).data) :
    c ∈ "-0123456789".data := by
  cases n with
  | ofNat m =>
    have := natRepr_decimal m c h
    exact List.mem_cons_of_mem _ this
  | negSucc m =>
    have h2 : c ∈ ("-" ++ Nat.repr (Nat.succ m)).data := h
    simp only [String.data_append, List.mem_append] at h2
    rcases h2 with h2 | h2
    · have : c = '-' := by simpa using h2
      rw [this]
      decide
    · exact List.mem_cons_of_mem _ (natRepr_decimal _ c h2)

theorem fmtInt_no_colon (n : Int) : ':' ∉ (fmtInt n).data :=
  fun h => absurd (fmtInt_chars n ':' h) (by decide)

set_option maxRecDepth 1000000 in
theorem Atoi_fmtInt_nat : ∀ n : Nat, n < 505 → Atoi (fmtInt ((n + 8 : Nat) : Int)) = some ((n + 8 : Nat) : Int) := by
  decide!

theorem Atoi_fmtInt (n : Int) (h8 : 8 ≤ n) (h512 : n ≤ 512) : Atoi (fmtInt n) = some n := by
  have h := Atoi_fmtInt_nat (n.toNat - 8) (by omega)
  have e : (((n.toNat - 8 + 8 : Nat)) : Int) = n := by omega
  rw [e] at h
  exact h

theorem fmtInt_injective (s t : Int) (hs8 : 8 ≤ s) (hs : s ≤ 512) (ht8 : 8 ≤ t) (ht : t ≤ 512)
    (h : fmtInt s = fmtInt t) : s = t := by
  have h1 := Atoi_fmtInt s hs8 hs
  rw [h, Atoi_fmtInt t ht8 ht] at h1
  exact (Option.some.inj h1).symm

theorem split_at_first (c : Char) :
    ∀ (p q a b : List Char), c ∉ p → c ∉ q → p ++ c :: a = q ++ c :: b → p = q ∧ a = b := by
  intro p
  induction p with
  | nil =>
    intro q a b _ hq h
    cases q with
    | nil => exact ⟨rfl, by simpa using h⟩
    | cons d ds =>
      have hd : c = d := by simpa using congrArg List.head? h
      exact absurd (hd ▸ List.mem_cons_self _ _) hq
  | cons e es ih =>
    intro q a b hp hq h
    cases q with
    | nil =>
      have hd : e = c := by simpa using congrArg List.head? h
      exact absurd (hd ▸ List.mem_cons_self _ _) hp
    | cons d ds =>
      have h1 : e = d ∧ es ++ c :: a = ds ++ c :: b := by simpa using h
      obtain ⟨r1, r2⟩ := ih ds a b (fun m => hp (List.mem_cons_of_mem _ m))
        (fun m => hq (List.mem_cons_of_mem _ m)) h1.2
      exact ⟨by rw [h1.1, r1], r2⟩

theorem split_at_last (c : Char) (a b x y : List Char) (hx : c ∉ x) (hy : c ∉ y)
    (h : a ++ c :: x = b ++ c :: y) : a = b ∧ x = y := by
  have h2 : x.reverse ++ c :: a.reverse = y.reverse ++ c :: b.reverse := by
    have h1 := congrArg List.reverse h
    simpa using h1
  have hx2 : c ∉ x.reverse := by simpa using hx
  have hy2 : c ∉ y.reverse := by simpa using hy
  have h3 := split_at_first c _ _ _ _ hx2 hy2 h2
  exact ⟨List.reverse_injective h3.2, List.reverse_injective h3.1⟩

theorem cache_key_eq (kind u v : String) (s t : Int) (hs8 : 8 ≤ s) (hs : s ≤ 512)
    (ht8 : 8 ≤ t) (ht : t ≤ 512)
    (h : kind ++ u ++ ":" ++ fmtInt s = kind ++ v ++ ":" ++ fmtInt t) : u = v ∧ s = t := by
  have h2 := congrArg String.data h
  simp only [String.data_append, List.append_assoc] at h2
  have h3 : u.data ++ ':' :: (fmtInt s).data = v.data ++ ':' :: (fmtInt t).data :=
    List.append_cancel_left h2
  obtain ⟨e1, e2⟩ := split_at_last ':' _ _ _ _ (fmtInt_no_colon s) (fmtInt_no_colon t) h3
  exact ⟨String.ext e1, fmtInt_injective s t hs8 hs ht8 ht (String.ext e2)⟩

theorem avatar_key_ne_head_key (u v a b : String) :
    "avatar:" ++ u ++ ":" ++ a ≠ "head:" ++ v ++ ":" ++ b := by
  intro h
  have h2 := congrArg (fun k => k.data.head?) h
  simp only [String.data_append, List.append_assoc] at h2
  have h3 : some 'a' = some 'h' := h2
  exact absurd h3 (by decide)

/-- C22: the cache key is injective in kind, identity and size.  For all
identity strings `u`, `v` (whatever characters they hold, colons and digits
included) and all sizes `s`, `t` in [8,512]: `avatar:<u>:<s>` equals
`avatar:<v>:<t>` only if `u = v` and `s = t`, likewise for `head:`, and no
avatar key equals a head key.  So a key touched by an avatar render of `u` at
`s` is touched by an avatar render of `v` at `t` only if the identities and the
sizes are the same, and never by a head render. -/
theorem cache_key_injective_in_kind_identity_size (lib : Lib) (s1 s2 : SkinCapeService)
    (u v sp tp : String) (s t : Int) (hsp : Atoi sp = some s) (htp : Atoi tp = some t)
    (hs8 : 8 ≤ s) (hs : s ≤ 512) (ht8 : 8 ≤ t) (ht : t ≤ 512) :
    ("avatar:" ++ u ++ ":" ++ fmtInt s = "avatar:" ++ v ++ ":" ++ fmtInt t → u = v ∧ s = t) ∧
    ("head:" ++ u ++ ":" ++ fmtInt s = "head:" ++ v ++ ":" ++ fmtInt t → u = v ∧ s = t) ∧
    "avatar:" ++ u ++ ":" ++ fmtInt s ≠ "head:" ++ v ++ ":" ++ fmtInt t ∧
    (∀ k ∈ cacheKeys (trace s1 (GetAvatarWithSize lib s1 u sp).2),
      (k ∈ cacheKeys (trace s2 (GetAvatarWithSize lib s2 v tp).2) →
        stripHyphens u = stripHyphens v ∧ s = t) ∧
      k ∉ cacheKeys (trace s2 (GetHeadWithSize lib s2 v tp).2)) ∧
    (∀ k ∈ cacheKeys (trace s1 (GetHeadWithSize lib s1 u sp).2),
      k ∈ cacheKeys (trace s2 (GetHeadWithSize lib s2 v tp).2) →
        stripHyphens u = stripHyphens v ∧ s = t) := by
  have hrs : ¬ (s < 8 ∨ s > 512) := by omega
  have hrt : ¬ (t < 8 ∨ t > 512) := by omega
  have A1 := ((cacheGet_extends _ s1).trans (GetAvatarWithSize_extends lib s1 u sp s hsp hrs)).keys
  have A2 := ((cacheGet_extends _ s2).trans (GetAvatarWithSize_extends lib s2 v tp t htp hrt)).keys
  have H1 := ((cacheGet_extends _ s1).trans (GetHeadWithSize_extends lib s1 u sp s hsp hrs)).keys
  have H2 := ((cacheGet_extends _ s2).trans (GetHeadWithSize_extends lib s2 v tp t htp hrt)).keys
  refine ⟨cache_key_eq "avatar:" u v s t hs8 hs ht8 ht, cache_key_eq "head:" u v s t hs8 hs ht8 ht,
    avatar_key_ne_head_key _ _ _ _, ?_, ?_⟩
  · intro k hk
    refine ⟨fun hk2 => ?_, fun hk2 => ?_⟩
    · exact cache_key_eq "avatar:" _ _ s t hs8 hs ht8 ht ((A1 k hk).symm.trans (A2 k hk2))
    · exact avatar_key_ne_head_key _ _ _ _ ((A1 k hk).symm.trans (H2 k hk2))
  · intro k hk hk2
    exact cache_key_eq "head:" _ _ s t hs8 hs ht8 ht ((H1 k hk).symm.trans (H2 k hk2))

set_option maxRecDepth 100000 in
/-- Witness of C22: the identities `a:1` and `a` at the sizes 16 and 116. -/
theorem cache_key_injective_in_kind_identity_size_witness :
    ("avatar:" ++ "a:1" ++ ":" ++ fmtInt 16 = "avatar:" ++ "a" ++ ":" ++ fmtInt 116 →
      "a:1" = "a" ∧ (16 : Int) = 116) ∧
    "avatar:" ++ "a:1" ++ ":" ++ fmtInt 16 ≠ "head:" ++ "a" ++ ":" ++ fmtInt 116 :=
  have h := cache_key_injective_in_kind_identity_size refLib rendered rendered "a:1" "a" "16"
    "116" 16 116 (by decide) (by decide) (by decide) (by decide) (by decide) (by decide)
  ⟨h.1, h.2.2.1⟩

/-! ## Invalidation and other identities -/

set_option maxRecDepth 100000 in
/-- C23 (the code departs from the claim).  With renders of `abc` cached,
`clearAvatarCache("*")` deletes the entry `avatar:abc:16` of `abc`, because the
pattern `avatar:*:*` matches it; an upload for the identity `*` does the same.
With the avatar of `x_avatar_y` rendered, `clearAvatarCache("x")` removes the
derived file `x_avatar_y_avatar_16.png`, because it starts with `x_avatar_`,
and leaves the cache entry that points at it. -/
theorem clearAvatarCache_reaches_other_identity :
    (rendered.RedisClient.map fun r => r.Get "avatar:abc:16") =
      some (some "storage/avatars/abc_avatar_16.png") ∧
    ((clearAvatarCache rendered "*").RedisClient.map fun r => r.Get "avatar:abc:16") =
      some none ∧
    ((UploadSkin refLib rendered "*" blueUpload "false").2.RedisClient.map
      fun r => r.Get "avatar:abc:16") = some none ∧
    nestedRendered.readFile "storage/avatars/x_avatar_y_avatar_16.png" =
      some (refLib.pngEncode (avatarImage refLib blueSkin 16)) ∧
    (clearAvatarCache nestedRendered "x").readFile "storage/avatars/x_avatar_y_avatar_16.png" =
      none ∧
    ((clearAvatarCache nestedRendered "x").RedisClient.map
      fun r => r.Get "avatar:x_avatar_y:16") =
      some (some "storage/avatars/x_avatar_y_avatar_16.png") := by
  decide!

/-! ## Cache entries and their files -/

set_option maxRecDepth 100000 in
/-- C25 (the code departs from the claim).  Starting from an empty store, after
the blue skin is uploaded for `[a]`, its avatar rendered at size 16 and the red
skin uploaded, the entry `avatar:[a]:16` is still in the cache (the pattern
`avatar:[a]:*` does not match it) while the file it points at is removed; the
next render hits the cache and serves a path at which there is no file.  The
same happens to the entry of `x_avatar_y` when a skin is uploaded for `x`. -/
theorem cache_entry_without_file :
    ((run refLib (freshService "./storage") bracketRequests).RedisClient.map
      fun r => r.Get "avatar:[a]:16") = some (some "storage/avatars/[a]_avatar_16.png") ∧
    (run refLib (freshService "./storage") bracketRequests).readFile
      "storage/avatars/[a]_avatar_16.png" = none ∧
    (GetAvatarWithSize refLib (run refLib (freshService "./storage") bracketRequests)
      "[a]" "16").1 = Response.file "storage/avatars/[a]_avatar_16.png" ∧
    (GetAvatarWithSize refLib (run refLib (freshService "./storage") bracketRequests)
        "[a]" "16").2.served
      (GetAvatarWithSize refLib (run refLib (freshService "./storage") bracketRequests)
        "[a]" "16").1 = none ∧
    ((run refLib nestedRendered [Request.uploadSkin "x" blueUpload "false"]).RedisClient.map
      fun r => r.Get "avatar:x_avatar_y:16") =
      some (some "storage/avatars/x_avatar_y_avatar_16.png") ∧
    (run refLib nestedRendered [Request.uploadSkin "x" blueUpload "false"]).readFile
      "storage/avatars/x_avatar_y_avatar_16.png" = none := by
  decide!

/-! ## Records stay well formed -/

theorem append_ne_empty_left (a b : String) (ha : a.data ≠ []) : a ++ b ≠ "" := by
  intro h
  have := congrArg String.data h
  simp only [String.data_append, List.append_eq_nil] at this
  exact ha this.1

theorem renderWith_default_size (kind tag : String)
    (recipe : Lib → Image NRGBA → Nat → Image RGBA) (fallback : Nat → Image RGBA) (lib : Lib)
    (s : SkinCapeService) (uuid : String) :
    renderWith kind tag recipe fallback lib s uuid "" =
      renderWith kind tag recipe fallback lib s uuid "64" := by
  simp [renderWith]

theorem renderWith_DB (kind tag : String) (recipe : Lib → Image NRGBA → Nat → Image RGBA)
    (fallback : Nat → Image RGBA) (lib : Lib) (s : SkinCapeService) (uuid sizeParam : String) :
    (renderWith kind tag recipe fallback lib s uuid sizeParam).2.DB = s.DB := by
  have key : ∀ sp, sp ≠ "" → (renderWith kind tag recipe fallback lib s uuid sp).2.DB = s.DB := by
    intro sp hne
    cases h : Atoi sp with
    | none => simp [renderWith, hne, h]
    | some size =>
      by_cases hr : size < 8 ∨ size > 512
      · simp [renderWith, hne, h, hr]
      · have h8 : 8 ≤ size := by omega
        have h512 : size ≤ 512 := by omega
        cases hcg : (s.cacheGet (kind ++ stripHyphens uuid ++ ":" ++ fmtInt size)).1 with
        | some p =>
          rw [renderWith_hit kind tag recipe fallback lib s uuid sp size p h h8 h512 hcg]
          exact ((SameWorld.cacheGet _ _).chain (SameWorld.emit _ _)).1
        | none =>
          by_cases hfb : storedSkin lib s (stripHyphens uuid) = none ∨
              filepath.Join [s.StoragePath, "avatars",
                stripHyphens uuid ++ tag ++ fmtInt size ++ ".png"] ∈ s.unwritable
          · exact (renderWith_fallback kind tag recipe fallback lib s uuid sp size h h8 h512 hcg
              hfb).2.1
          · have hfb2 := not_or.mp hfb
            obtain ⟨img, himg⟩ := Option.ne_none_iff_exists'.mp hfb2.1
            exact (renderWith_derive kind tag recipe fallback lib s uuid sp size img h h8 h512
              hcg himg hfb2.2).2.2.2.1
  by_cases he : sizeParam = ""
  · subst he
    rw [renderWith_default_size]
    exact key "64" (by decide)
  · exact key _ he

theorem wellFormed_Create (s : SkinCapeService) (row : UserSkin)
    (hwf : ∀ r ∈ s.DB, WellFormed r) (hrow : WellFormed row) :
    ∀ r ∈ (s.Create row).DB, WellFormed r := by
  intro r hr
  simp only [SkinCapeService.Create] at hr
  split at hr
  · rcases List.mem_append.1 hr with hr | hr
    · exact hwf r hr
    · rw [List.mem_singleton.1 hr]
      exact hrow
  · exact hwf r hr

theorem wellFormed_Save (s : SkinCapeService) (row : UserSkin)
    (hwf : ∀ r ∈ s.DB, WellFormed r) (hrow : WellFormed row) :
    ∀ r ∈ (s.Save row).DB, WellFormed r := by
  intro r hr
  simp only [SkinCapeService.Save] at hr
  split at hr
  · obtain ⟨r0, hr0, e⟩ := List.mem_map.1 hr
    by_cases hid : r0.ID = row.ID
    · rw [if_pos hid] at e
      rw [← e]
      exact hrow
    · rw [if_neg hid] at e
      rw [← e]
      exact hwf r0 hr0
  · exact hwf r hr

theorem wellFormed_Delete (s : SkinCapeService) (row : UserSkin)
    (hwf : ∀ r ∈ s.DB, WellFormed r) : ∀ r ∈ (s.Delete row).DB, WellFormed r := by
  intro r hr
  simp only [SkinCapeService.Delete] at hr
  exact hwf r (List.mem_of_mem_filter hr)

theorem wellFormed_clear (s : SkinCapeService) (u : String)
    (hwf : ∀ r ∈ s.DB, WellFormed r) : ∀ r ∈ (clearAvatarCache s u).DB, WellFormed r := by
  rw [(clearAvatarCache_frame s u).1]
  exact hwf

theorem UploadSkin_wellFormed (lib : Lib) (s : SkinCapeService) (uuid : String)
    (file : Option FormFile) (is_slim : String) (hmd5 : ∀ data, lib.md5Hex data ≠ "")
    (hwf : ∀ r ∈ s.DB, WellFormed r) :
    ∀ r ∈ (UploadSkin lib s uuid file is_slim).2.DB, WellFormed r := by
  cases file with
  | none => exact hwf
  | some f =>
    by_cases hct : HasPrefix f.ContentType "image/" = true
    · cases hdec : lib.pngDecode f.data with
      | none =>
        simp only [UploadSkin, hct, not_true_eq_false, if_false, hdec]
        exact hwf
      | some img =>
        by_cases hd : img.Dx ≠ 64 ∨ (img.Dy ≠ 64 ∧ img.Dy ≠ 32)
        · simp only [UploadSkin, hct, not_true_eq_false, if_false, hdec, hd, if_true]
          exact hwf
        · by_cases hw : filepath.Join [s.StoragePath, "skins", stripHyphens uuid ++ "_skin.png"]
              ∈ s.unwritable
          · simp only [UploadSkin, hct, not_true_eq_false, if_false, hdec, hd,
              SkinCapeService.CreateFile, SkinCapeService.emit, hw, if_true]
            exact hwf
          · simp only [UploadSkin, hct, not_true_eq_false, if_false, hdec, hd,
              SkinCapeService.CreateFile, SkinCapeService.emit, hw, SkinCapeService.First]
            have hurl : "/storage/skins/" ++ (stripHyphens uuid ++ "_skin.png") ≠ "" :=
              append_ne_empty_left _ _ (by decide)
            cases hf : s.DB.find? (fun r => decide (r.UserUUID = stripHyphens uuid)) with
            | none =>
              simp only
              refine wellFormed_clear _ _ (wellFormed_Create _ _ ?_ ?_)
              · exact hwf
              · exact ⟨⟨fun e => absurd e hurl, fun e => absurd e (hmd5 _)⟩,
                  ⟨fun _ => rfl, fun _ => rfl⟩, fun _ => hurl⟩
            | some userSkin =>
              simp only
              have hu := hwf userSkin (List.mem_of_find?_eq_some hf)
              refine wellFormed_clear _ _ (wellFormed_Save _ _ ?_ ?_)
              · exact hwf
              · exact ⟨⟨fun e => absurd e hurl, fun e => absurd e (hmd5 _)⟩, hu.2.1,
                  fun _ => hurl⟩
    · simp only [UploadSkin, hct, not_false_eq_true, if_true]
      exact hwf

theorem UploadCape_wellFormed (lib : Lib) (s : SkinCapeService) (uuid : String)
    (file : Option FormFile) (hmd5 : ∀ data, lib.md5Hex data ≠ "")
    (hwf : ∀ r ∈ s.DB, WellFormed r) :
    ∀ r ∈ (UploadCape lib s uuid file).2.DB, WellFormed r := by
  cases file with
  | none => exact hwf
  | some f =>
    by_cases hct : HasPrefix f.ContentType "image/" = true
    · cases hdec : lib.pngDecode f.data with
      | none =>
        simp only [UploadCape, hct, not_true_eq_false, if_false, hdec]
        exact hwf
      | some img =>
        by_cases hd : img.Dx ≠ 64 ∨ img.Dy ≠ 32
        · simp only [UploadCape, hct, not_true_eq_false, if_false, hdec, hd, if_true]
          exact hwf
        · by_cases hw : filepath.Join [s.StoragePath, "capes", stripHyphens uuid ++ "_cape.png"]
              ∈ s.unwritable
          · simp only [UploadCape, hct, not_true_eq_false, if_false, hdec, hd,
              SkinCapeService.CreateFile, SkinCapeService.emit, hw, if_true]
            exact hwf
          · simp only [UploadCape, hct, not_true_eq_false, if_false, hdec, hd,
              SkinCapeService.CreateFile, SkinCapeService.emit, hw, SkinCapeService.First]
            have hurl : "/storage/capes/" ++ (stripHyphens uuid ++ "_cape.png") ≠ "" :=
              append_ne_empty_left _ _ (by decide)
            cases hf : s.DB.find? (fun r => decide (r.UserUUID = stripHyphens uuid)) with
            | none =>
              simp only
              refine wellFormed_Create _ _ ?_ ?_
              · exact hwf
              · exact ⟨⟨fun _ => rfl, fun _ => rfl⟩,
                  ⟨fun e => absurd e hurl, fun e => absurd e (hmd5 _)⟩,
                  fun e => Bool.noConfusion e⟩
            | some userSkin =>
              simp only
              have hu := hwf userSkin (List.mem_of_find?_eq_some hf)
              refine wellFormed_Save _ _ ?_ ?_
              · exact hwf
              · exact ⟨hu.1, ⟨fun e => absurd e hurl, fun e => absurd e (hmd5 _)⟩, hu.2.2⟩
    · simp only [UploadCape, hct, not_false_eq_true, if_true]
      exact hwf

theorem DeleteSkin_wellFormed (s : SkinCapeService) (uuid : String)
    (hwf : ∀ r ∈ s.DB, WellFormed r) : ∀ r ∈ (DeleteSkin s uuid).2.DB, WellFormed r := by
  cases hf : s.DB.find? (fun r => decide (r.UserUUID = stripHyphens uuid)) with
  | none =>
    simp only [DeleteSkin, SkinCapeService.First, hf]
    exact hwf
  | some userSkin =>
    simp only [DeleteSkin, SkinCapeService.First, hf]
    have hu := hwf userSkin (List.mem_of_find?_eq_some hf)
    refine wellFormed_clear _ _ (wellFormed_Save _ _ ?_ ?_)
    · split
      · exact hwf
      · exact hwf
    · exact ⟨⟨fun _ => rfl, fun _ => rfl⟩, hu.2.1, fun e => Bool.noConfusion e⟩

theorem DeleteCape_wellFormed (s : SkinCapeService) (uuid : String)
    (hwf : ∀ r ∈ s.DB, WellFormed r) : ∀ r ∈ (DeleteCape s uuid).2.DB, WellFormed r := by
  cases hf : s.DB.find? (fun r => decide (r.UserUUID = stripHyphens uuid)) with
  | none =>
    simp only [DeleteCape, SkinCapeService.First, hf]
    exact hwf
  | some userSkin =>
    simp only [DeleteCape, SkinCapeService.First, hf]
    have hu := hwf userSkin (List.mem_of_find?_eq_some hf)
    refine wellFormed_Save _ _ ?_ ?_
    · split
      · exact hwf
      · exact hwf
    · exact ⟨hu.1, ⟨fun _ => rfl, fun _ => rfl⟩, hu.2.2⟩

theorem DeleteUserData_wellFormed (s : SkinCapeService) (uuid : String)
    (hwf : ∀ r ∈ s.DB, WellFormed r) : ∀ r ∈ (DeleteUserData s uuid).2.DB, WellFormed r := by
  cases hf : s.DB.find? (fun r => decide (r.UserUUID = stripHyphens uuid)) with
  | none =>
    simp only [DeleteUserData, SkinCapeService.First, hf]
    exact hwf
  | some userSkin =>
    simp only [DeleteUserData, SkinCapeService.First, hf]
    refine wellFormed_clear _ _ (wellFormed_Delete _ _ ?_)
    split <;> split <;> exact hwf

theorem handle_wellFormed (lib : Lib) (s : SkinCapeService) (req : Request)
    (hmd5 : ∀ data, lib.md5Hex data ≠ "") (hwf : ∀ r ∈ s.DB, WellFormed r) :
    ∀ r ∈ (handle lib s req).DB, WellFormed r := by
  cases req with
  | uploadSkin uuid file is_slim => exact UploadSkin_wellFormed lib s uuid file is_slim hmd5 hwf
  | uploadCape uuid file => exact UploadCape_wellFormed lib s uuid file hmd5 hwf
  | deleteSkin uuid => exact DeleteSkin_wellFormed s uuid hwf
  | deleteCape uuid => exact DeleteCape_wellFormed s uuid hwf
  | deleteUserData uuid => exact DeleteUserData_wellFormed s uuid hwf
  | getAvatar uuid sizeParam =>
    intro r hr
    have e : (handle lib s (Request.getAvatar uuid sizeParam)).DB = s.DB :=
      renderWith_DB "avatar:" "_avatar_" avatarImage defaultAvatarImage lib s uuid sizeParam
    rw [e] at hr
    exact hwf r hr
  | getHead uuid sizeParam =>
    intro r hr
    have e : (handle lib s (Request.getHead uuid sizeParam)).DB = s.DB :=
      renderWith_DB "head:" "_head_" headImage defaultHeadImage lib s uuid sizeParam
    rw [e] at hr
    exact hwf r hr

theorem run_wellFormed (lib : Lib) (hmd5 : ∀ data, lib.md5Hex data ≠ "") :
    ∀ (reqs : List Request) (s : SkinCapeService), (∀ r ∈ s.DB, WellFormed r) →
      ∀ r ∈ (run lib s reqs).DB, WellFormed r := by
  intro reqs
  induction reqs with
  | nil => intro s hwf; exact hwf
  | cons req reqs ih =>
    intro s hwf
    exact ih (handle lib s req) (handle_wellFormed lib s req hmd5 hwf)

theorem natRepr_ne_empty (n : Nat) : Nat.repr n ≠ "" := by
  intro h
  have h2 := congrArg String.length h
  have h3 : (Nat.toDigits 10 n).length = 0 := h2
  unfold Nat.toDigits at h3
  simp only [Nat.toDigitsCore] at h3
  split at h3
  · simp at h3
  · rw [Nat.toDigitsCore_lens_eq] at h3
    omega

theorem refLib_md5Hex_ne_empty (data : List Nat) : refLib.md5Hex data ≠ "" :=
  natRepr_ne_empty _

/-- C24: the well-formedness of records is an invariant of the handlers.  When
the digest of a file is never the empty string (an MD5 digest in hexadecimal
has 32 characters), then starting from a store without records, after every
sequence of requests (uploads, deletes and renders in any order, with any
parameters) every record satisfies: `SkinURL` is empty if and only if
`SkinHash` is, `CapeURL` is empty if and only if `CapeHash` is, and `IsSlim` is
set only with a non-empty `SkinURL`. -/
theorem records_stay_well_formed (lib : Lib) (s0 : SkinCapeService) (reqs : List Request)
    (hmd5 : ∀ data, lib.md5Hex data ≠ "") (h0 : s0.DB = []) :
    ∀ r ∈ (run lib s0 reqs).DB,
      (r.SkinURL = "" ↔ r.SkinHash = "") ∧ (r.CapeURL = "" ↔ r.CapeHash = "") ∧
        (r.IsSlim = true → r.SkinURL ≠ "") :=
  run_wellFormed lib hmd5 reqs s0 (by rw [h0]; intro r hr; cases hr)

set_option maxRecDepth 100000 in
/-- Witness of C24: a slim skin and a cape uploaded for `abc`, its avatar
rendered and the skin deleted. -/
theorem records_stay_well_formed_witness :
    (run refLib (freshService "./storage")
      [Request.uploadSkin "abc" blueUpload "true",
        Request.uploadCape "abc"
          (some ⟨"image/png", skinFile 64 32 ⟨255, 0, 0, 255⟩ ⟨255, 0, 0, 255⟩⟩),
        Request.getAvatar "abc" "16", Request.deleteSkin "abc"]).DB ≠ [] ∧
    ∀ r ∈ (run refLib (freshService "./storage")
      [Request.uploadSkin "abc" blueUpload "true",
        Request.uploadCape "abc"
          (some ⟨"image/png", skinFile 64 32 ⟨255, 0, 0, 255⟩ ⟨255, 0, 0, 255⟩⟩),
        Request.getAvatar "abc" "16", Request.deleteSkin "abc"]).DB,
      (r.SkinURL = "" ↔ r.SkinHash = "") ∧ (r.CapeURL = "" ↔ r.CapeHash = "") ∧
        (r.IsSlim = true → r.SkinURL ≠ "") :=
  ⟨by decide!,
    records_stay_well_formed refLib (freshService "./storage") _ refLib_md5Hex_ne_empty rfl⟩

/-! ## Cape files and derived files -/

theorem cape_name_ne_derived_name (a b : List Char) (tag : String) (n : Int)
    (htag : tag.data.getLast? = some '_') :
    a ++ "_cape.png".data ≠ b ++ (tag.data ++ ((fmtInt n).data ++ ".png".data)) := by
  intro e
  have e1 : (a ++ "_cape".data) ++ ".png".data =
      (b ++ (tag.data ++ (fmtInt n).data)) ++ ".png".data := by
    have hc : "_cape.png".data = "_cape".data ++ ".png".data := by decide
    rw [hc] at e
    simpa [List.append_assoc] using e
  have e2 := List.append_cancel_right e1
  have e3 := congrArg List.getLast? e2
  have hl : (a ++ "_cape".data).getLast? = some 'e' := by
    rw [List.getLast?_append]
    have : "_cape".data.getLast? = some 'e' := by decide
    rw [this]
    rfl
  rw [hl, List.getLast?_append, List.getLast?_append, htag] at e3
  cases hd : (fmtInt n).data.getLast? with
  | none =>
    rw [hd] at e3
    have e4 : some 'e' = some '_' := e3
    exact absurd e4 (by decide)
  | some d =>
    rw [hd] at e3
    have hmem : d ∈ (fmtInt n).data := List.mem_of_getLast?_eq_some hd
    have hdig := fmtInt_chars n d hmem
    have hde : d = 'e' := by
      have : some 'e' = some d := e3
      exact (Option.some.inj this).symm
    rw [hde] at hdig
    exact absurd hdig (by decide)

theorem cape_name_after (x : String) :
    afterSlash ("/storage/capes/" ++ x ++ "_cape.png").data =
      afterSlash x.data ++ "_cape.png".data := by
  have h1 : ("/storage/capes/" ++ x ++ "_cape.png").data =
      "/storage/capes".data ++ '/' :: (x.data ++ "_cape.png".data) := by
    simp only [String.data_append, List.append_assoc]
    rfl
  rw [h1, afterSlash_append_slash]
  exact afterSlash_append_of_not_mem _ _ (by decide)

theorem cape_file_ne_derived_path (sp sp2 u v tag : String) (n : Int) (hslash : '/' ∉ tag.data)
    (htag : tag.data.getLast? = some '_') :
    filepath.Join [sp, "capes", u ++ "_cape.png"] ≠
      filepath.Join [sp2, "avatars", v ++ tag ++ fmtInt n ++ ".png"] := by
  intro e
  have e2 := congrArg (fun p => afterSlash p.data) e
  simp only at e2
  have hname : afterSlash (u ++ "_cape.png").data = afterSlash u.data ++ "_cape.png".data := by
    rw [String.data_append]
    exact afterSlash_append_of_not_mem _ _ (by decide)
  have hl := afterSlash_Join [sp, "capes"] (u ++ "_cape.png")
    (string_append_ne_empty _ _ (by decide))
    (by rw [hname]; exact normalComp_append _ _ (by decide))
  have hr := afterSlash_Join [sp2, "avatars"] (v ++ tag ++ fmtInt n ++ ".png")
    (string_append_ne_empty _ _ (by decide))
    (by rw [derived_name_after v tag n hslash]
        rw [← List.append_assoc, ← List.append_assoc]
        exact normalComp_append _ _ (by decide))
  rw [show [sp, "capes", u ++ "_cape.png"] = [sp, "capes"] ++ [u ++ "_cape.png"] from rfl, hl,
    show [sp2, "avatars", v ++ tag ++ fmtInt n ++ ".png"] =
      [sp2, "avatars"] ++ [v ++ tag ++ fmtInt n ++ ".png"] from rfl, hr,
    hname, derived_name_after v tag n hslash] at e2
  exact cape_name_ne_derived_name _ _ tag n htag e2

theorem cape_url_ne_derived_path (sp2 x v tag : String) (n : Int) (hslash : '/' ∉ tag.data)
    (htag : tag.data.getLast? = some '_') :
    filepath.Join [".", "/storage/capes/" ++ x ++ "_cape.png"] ≠
      filepath.Join [sp2, "avatars", v ++ tag ++ fmtInt n ++ ".png"] := by
  intro e
  have e2 := congrArg (fun p => afterSlash p.data) e
  simp only at e2
  have hl := afterSlash_Join ["."] ("/storage/capes/" ++ x ++ "_cape.png")
    (string_append_ne_empty _ _ (by decide))
    (by rw [cape_name_after]; exact normalComp_append _ _ (by decide))
  have hr := afterSlash_Join [sp2, "avatars"] (v ++ tag ++ fmtInt n ++ ".png")
    (string_append_ne_empty _ _ (by decide))
    (by rw [derived_name_after v tag n hslash]
        rw [← List.append_assoc, ← List.append_assoc]
        exact normalComp_append _ _ (by decide))
  rw [show [".", "/storage/capes/" ++ x ++ "_cape.png"] =
      ["."] ++ ["/storage/capes/" ++ x ++ "_cape.png"] from rfl, hl,
    show [sp2, "avatars", v ++ tag ++ fmtInt n ++ ".png"] =
      [sp2, "avatars"] ++ [v ++ tag ++ fmtInt n ++ ".png"] from rfl, hr,
    cape_name_after, derived_name_after v tag n hslash] at e2
  exact cape_name_ne_derived_name _ _ tag n htag e2

/-! ## Skin updates and cape updates -/

theorem find_Save (X : SkinCapeService) (l : List UserSkin) (hX : X.DB = l) (u : String)
    (x row : UserSkin) (hrow : row.UserUUID = u) (hid : row.ID = x.ID)
    (hf : l.find? (fun r => decide (r.UserUUID = u)) = some x) (Q : UserSkin → Prop)
    (hx : Q x) (hr : Q row) :
    ∃ r, (X.Save row).DB.find? (fun r => decide (r.UserUUID = u)) = some r ∧ Q r := by
  simp only [SkinCapeService.Save, hX]
  split
  · rw [hid]
    exact ⟨row, find_after_Save l u x row hrow hf, hr⟩
  · exact ⟨x, hf, hx⟩

theorem UploadSkin_existing (lib : Lib) (s : SkinCapeService) (uuid : String) (file : FormFile)
    (is_slim : String) (img : Image NRGBA) (userSkin : UserSkin)
    (hct : HasPrefix file.ContentType "image/" = true)
    (hdec : lib.pngDecode file.data = some img)
    (hx : img.Dx = 64) (hy : img.Dy = 64 ∨ img.Dy = 32)
    (hw : filepath.Join [s.StoragePath, "skins", stripHyphens uuid ++ "_skin.png"] ∉
      s.unwritable)
    (hf : s.DB.find? (fun r => decide (r.UserUUID = stripHyphens uuid)) = some userSkin) :
    ∃ row, (UploadSkin lib s uuid (some file) is_slim).2.DB.find?
        (fun r => decide (r.UserUUID = stripHyphens uuid)) = some row ∧
      row.CapeURL = userSkin.CapeURL ∧ row.CapeHash = userSkin.CapeHash := by
  have hd : ¬ (img.Dx ≠ 64 ∨ (img.Dy ≠ 64 ∧ img.Dy ≠ 32)) := by omega
  simp only [UploadSkin, hct, not_true_eq_false, if_false, hdec, hd, SkinCapeService.CreateFile,
    SkinCapeService.emit, hw, SkinCapeService.First, hf]
  rw [(clearAvatarCache_frame _ _).1]
  refine find_Save _ s.DB ?_ _ userSkin _ ?_ ?_ hf
    (fun r => r.CapeURL = userSkin.CapeURL ∧ r.CapeHash = userSkin.CapeHash) ⟨rfl, rfl⟩ ?_
  all_goals
    first
      | rfl
      | exact ⟨rfl, rfl⟩
      | exact ⟨rfl, rfl, rfl⟩
      | (simpa using List.find?_some hf)

theorem DeleteSkin_existing (s : SkinCapeService) (uuid : String) (userSkin : UserSkin)
    (hf : s.DB.find? (fun r => decide (r.UserUUID = stripHyphens uuid)) = some userSkin) :
    (DeleteSkin s uuid).1 = Response.json 200 [("message", "Skin deleted successfully")] ∧
    ∃ row, (DeleteSkin s uuid).2.DB.find?
        (fun r => decide (r.UserUUID = stripHyphens uuid)) = some row ∧
      row.CapeURL = userSkin.CapeURL ∧ row.CapeHash = userSkin.CapeHash := by
  simp only [DeleteSkin, SkinCapeService.First, hf]
  refine ⟨trivial, ?_⟩
  rw [(clearAvatarCache_frame _ _).1]
  refine find_Save _ s.DB ?_ _ userSkin _ ?_ ?_ hf
    (fun r => r.CapeURL = userSkin.CapeURL ∧ r.CapeHash = userSkin.CapeHash) ⟨rfl, rfl⟩ ?_
  all_goals
    first
      | rfl
      | exact ⟨rfl, rfl⟩
      | exact ⟨rfl, rfl, rfl⟩
      | (split <;> rfl)
      | (simpa using List.find?_some hf)

theorem UploadCape_existing (lib : Lib) (s : SkinCapeService) (uuid : String) (file : FormFile)
    (img : Image NRGBA) (userSkin : UserSkin)
    (hct : HasPrefix file.ContentType "image/" = true)
    (hdec : lib.pngDecode file.data = some img)
    (hx : img.Dx = 64) (hy : img.Dy = 32)
    (hw : filepath.Join [s.StoragePath, "capes", stripHyphens uuid ++ "_cape.png"] ∉
      s.unwritable)
    (hf : s.DB.find? (fun r => decide (r.UserUUID = stripHyphens uuid)) = some userSkin) :
    (∃ row, (UploadCape lib s uuid (some file)).2.DB.find?
        (fun r => decide (r.UserUUID = stripHyphens uuid)) = some row ∧
      row.SkinURL = userSkin.SkinURL ∧ row.SkinHash = userSkin.SkinHash ∧
      row.IsSlim = userSkin.IsSlim) ∧
    (UploadCape lib s uuid (some file)).2.RedisClient = s.RedisClient ∧
    ∀ p, p ≠ filepath.Join [s.StoragePath, "capes", stripHyphens uuid ++ "_cape.png"] →
      (UploadCape lib s uuid (some file)).2.readFile p = s.readFile p := by
  have hd : ¬ (img.Dx ≠ 64 ∨ img.Dy ≠ 32) := by omega
  simp only [UploadCape, hct, not_true_eq_false, if_false, hdec, hd, SkinCapeService.CreateFile,
    SkinCapeService.emit, hw, SkinCapeService.First, hf]
  refine ⟨?_, rfl, ?_⟩
  · refine find_Save _ s.DB ?_ _ userSkin _ ?_ ?_ hf
      (fun r => r.SkinURL = userSkin.SkinURL ∧ r.SkinHash = userSkin.SkinHash ∧
        r.IsSlim = userSkin.IsSlim) ⟨rfl, rfl, rfl⟩ ?_
    all_goals
      first
        | rfl
        | exact ⟨rfl, rfl⟩
        | exact ⟨rfl, rfl, rfl⟩
        | (simpa using List.find?_some hf)
  · intro p hp
    exact (@readFile_of_disk s _ _ _ rfl).2 p hp

theorem DeleteCape_existing (s : SkinCapeService) (uuid : String) (userSkin : UserSkin)
    (hf : s.DB.find? (fun r => decide (r.UserUUID = stripHyphens uuid)) = some userSkin) :
    (DeleteCape s uuid).1 = Response.json 200 [("message", "Cape deleted successfully")] ∧
    (∃ row, (DeleteCape s uuid).2.DB.find?
        (fun r => decide (r.UserUUID = stripHyphens uuid)) = some row ∧
      row.SkinURL = userSkin.SkinURL ∧ row.SkinHash = userSkin.SkinHash ∧
      row.IsSlim = userSkin.IsSlim) ∧
    (DeleteCape s uuid).2.RedisClient = s.RedisClient ∧
    ∀ p, (userSkin.CapeURL ≠ "" → p ≠ filepath.Join [".", userSkin.CapeURL]) →
      (DeleteCape s uuid).2.readFile p = s.readFile p := by
  simp only [DeleteCape, SkinCapeService.First, hf]
  by_cases hc : userSkin.CapeURL = ""
  · simp only [hc, ne_eq, not_true_eq_false, if_false]
    refine ⟨trivial, ?_, rfl, fun p _ => rfl⟩
    refine find_Save _ s.DB ?_ _ userSkin _ ?_ ?_ hf
      (fun r => r.SkinURL = userSkin.SkinURL ∧ r.SkinHash = userSkin.SkinHash ∧
        r.IsSlim = userSkin.IsSlim) ⟨rfl, rfl, rfl⟩ ?_
    all_goals
      first
        | rfl
        | exact ⟨rfl, rfl⟩
        | exact ⟨rfl, rfl, rfl⟩
        | (simpa using List.find?_some hf)
  · simp only [hc, ne_eq, not_false_eq_true, if_true]
    refine ⟨trivial, ?_, rfl, fun p hp => ?_⟩
    · refine find_Save _ s.DB ?_ _ userSkin _ ?_ ?_ hf
        (fun r => r.SkinURL = userSkin.SkinURL ∧ r.SkinHash = userSkin.SkinHash ∧
          r.IsSlim = userSkin.IsSlim) ⟨rfl, rfl, rfl⟩ ?_
      all_goals
        first
          | rfl
          | exact ⟨rfl, rfl⟩
          | exact ⟨rfl, rfl, rfl⟩
          | (simpa using List.find?_some hf)
    · exact readFile_Remove_other _ _ p (hp trivial)

theorem records_Create (P : UserSkin → Prop) (s : SkinCapeService) (row : UserSkin)
    (hP : ∀ r ∈ s.DB, P r) (hrow : P { row with ID := s.nextID }) :
    ∀ r ∈ (s.Create row).DB, P r := by
  intro r hr
  simp only [SkinCapeService.Create] at hr
  split at hr
  · rcases List.mem_append.1 hr with hr | hr
    · exact hP r hr
    · rw [List.mem_singleton.1 hr]
      exact hrow
  · exact hP r hr

theorem records_Save (P : UserSkin → Prop) (s : SkinCapeService) (row : UserSkin)
    (hP : ∀ r ∈ s.DB, P r) (hrow : P row) : ∀ r ∈ (s.Save row).DB, P r := by
  intro r hr
  simp only [SkinCapeService.Save] at hr
  split at hr
  · obtain ⟨r0, hr0, e⟩ := List.mem_map.1 hr
    by_cases hid : r0.ID = row.ID
    · rw [if_pos hid] at e
      rw [← e]
      exact hrow
    · rw [if_neg hid] at e
      rw [← e]
      exact hP r0 hr0
  · exact hP r hr

theorem records_Delete (P : UserSkin → Prop) (s : SkinCapeService) (row : UserSkin)
    (hP : ∀ r ∈ s.DB, P r) : ∀ r ∈ (s.Delete row).DB, P r := by
  intro r hr
  simp only [SkinCapeService.Delete] at hr
  exact hP r (List.mem_of_mem_filter hr)

theorem records_clear (P : UserSkin → Prop) (s : SkinCapeService) (u : String)
    (hP : ∀ r ∈ s.DB, P r) : ∀ r ∈ (clearAvatarCache s u).DB, P r := by
  rw [(clearAvatarCache_frame s u).1]
  exact hP

theorem handle_records (P : UserSkin → Prop) (lib : Lib)
    (hskin : ∀ (r : UserSkin) (h : String) (b : Bool), P r →
      P { r with
        SkinURL := "/storage/skins/" ++ (r.UserUUID ++ "_skin.png"), IsSlim := b,
        SkinHash := h })
    (hskinNew : ∀ (id : Nat) (u h : String) (b : Bool),
      P ⟨id, u, "/storage/skins/" ++ (u ++ "_skin.png"), "", h, "", b⟩)
    (hcape : ∀ (r : UserSkin) (h : String), P r →
      P { r with CapeURL := "/storage/capes/" ++ (r.UserUUID ++ "_cape.png"), CapeHash := h })
    (hcapeNew : ∀ (id : Nat) (u h : String),
      P ⟨id, u, "", "/storage/capes/" ++ (u ++ "_cape.png"), "", h, false⟩)
    (hdelSkin : ∀ r : UserSkin, P r → P { r with SkinURL := "", SkinHash := "", IsSlim := false })
    (hdelCape : ∀ r : UserSkin, P r → P { r with CapeURL := "", CapeHash := "" })
    (s : SkinCapeService) (req : Request) (hP : ∀ r ∈ s.DB, P r) :
    ∀ r ∈ (handle lib s req).DB, P r := by
  cases req with
  | uploadSkin uuid file is_slim =>
    show ∀ r ∈ (UploadSkin lib s uuid file is_slim).2.DB, P r
    cases file with
    | none => exact hP
    | some f =>
      by_cases hct : HasPrefix f.ContentType "image/" = true
      · cases hdec : lib.pngDecode f.data with
        | none =>
          simp only [UploadSkin, hct, not_true_eq_false, if_false, hdec]
          exact hP
        | some img =>
          by_cases hd : img.Dx ≠ 64 ∨ (img.Dy ≠ 64 ∧ img.Dy ≠ 32)
          · simp only [UploadSkin, hct, not_true_eq_false, if_false, hdec, hd, if_true]
            exact hP
          · by_cases hw : filepath.Join
                [s.StoragePath, "skins", stripHyphens uuid ++ "_skin.png"] ∈ s.unwritable
            · simp only [UploadSkin, hct, not_true_eq_false, if_false, hdec, hd,
                SkinCapeService.CreateFile, SkinCapeService.emit, hw, if_true]
              exact hP
            · simp only [UploadSkin, hct, not_true_eq_false, if_false, hdec, hd,
                SkinCapeService.CreateFile, SkinCapeService.emit, hw, SkinCapeService.First]
              cases hf : s.DB.find? (fun r => decide (r.UserUUID = stripHyphens uuid)) with
              | none =>
                simp only
                refine records_clear P _ _ (records_Create P _ _ ?_ ?_)
                · exact hP
                · exact hskinNew _ _ _ _
              | some userSkin =>
                simp only
                have hu := hP userSkin (List.mem_of_find?_eq_some hf)
                have hid : userSkin.UserUUID = stripHyphens uuid := by
                  simpa using List.find?_some hf
                refine records_clear P _ _ (records_Save P _ _ ?_ ?_)
                · exact hP
                · rw [← hid]
                  exact hskin userSkin (lib.md5Hex f.data) (decide (is_slim = "true")) hu
      · simp only [UploadSkin, hct, not_false_eq_true, if_true]
        exact hP
  | uploadCape uuid file =>
    show ∀ r ∈ (UploadCape lib s uuid file).2.DB, P r
    cases file with
    | none => exact hP
    | some f =>
      by_cases hct : HasPrefix f.ContentType "image/" = true
      · cases hdec : lib.pngDecode f.data with
        | none =>
          simp only [UploadCape, hct, not_true_eq_false, if_false, hdec]
          exact hP
        | some img =>
          by_cases hd : img.Dx ≠ 64 ∨ img.Dy ≠ 32
          · simp only [UploadCape, hct, not_true_eq_false, if_false, hdec, hd, if_true]
            exact hP
          · by_cases hw : filepath.Join
                [s.StoragePath, "capes", stripHyphens uuid ++ "_cape.png"] ∈ s.unwritable
            · simp only [UploadCape, hct, not_true_eq_false, if_false, hdec, hd,
                SkinCapeService.CreateFile, SkinCapeService.emit, hw, if_true]
              exact hP
            · simp only [UploadCape, hct, not_true_eq_false, if_false, hdec, hd,
                SkinCapeService.CreateFile, SkinCapeService.emit, hw, SkinCapeService.First]
              cases hf : s.DB.find? (fun r => decide (r.UserUUID = stripHyphens uuid)) with
              | none =>
                simp only
                refine records_Create P _ _ ?_ ?_
                · exact hP
                · exact hcapeNew _ _ _
              | some userSkin =>
                simp only
                have hu := hP userSkin (List.mem_of_find?_eq_some hf)
                have hid : userSkin.UserUUID = stripHyphens uuid := by
                  simpa using List.find?_some hf
                refine records_Save P _ _ ?_ ?_
                · exact hP
                · rw [← hid]
                  exact hcape userSkin (lib.md5Hex f.data) hu
      · simp only [UploadCape, hct, not_false_eq_true, if_true]
        exact hP
  | deleteSkin uuid =>
    show ∀ r ∈ (DeleteSkin s uuid).2.DB, P r
    cases hf : s.DB.find? (fun r => decide (r.UserUUID = stripHyphens uuid)) with
    | none =>
      simp only [DeleteSkin, SkinCapeService.First, hf]
      exact hP
    | some userSkin =>
      simp only [DeleteSkin, SkinCapeService.First, hf]
      have hu := hP userSkin (List.mem_of_find?_eq_some hf)
      refine records_clear P _ _ (records_Save P _ _ ?_ (hdelSkin userSkin hu))
      split <;> exact hP
  | deleteCape uuid =>
    show ∀ r ∈ (DeleteCape s uuid).2.DB, P r
    cases hf : s.DB.find? (fun r => decide (r.UserUUID = stripHyphens uuid)) with
    | none =>
      simp only [DeleteCape, SkinCapeService.First, hf]
      exact hP
    | some userSkin =>
      simp only [DeleteCape, SkinCapeService.First, hf]
      have hu := hP userSkin (List.mem_of_find?_eq_some hf)
      refine records_Save P _ _ ?_ (hdelCape userSkin hu)
      split <;> exact hP
  | deleteUserData uuid =>
    show ∀ r ∈ (DeleteUserData s uuid).2.DB, P r
    cases hf : s.DB.find? (fun r => decide (r.UserUUID = stripHyphens uuid)) with
    | none =>
      simp only [DeleteUserData, SkinCapeService.First, hf]
      exact hP
    | some userSkin =>
      simp only [DeleteUserData, SkinCapeService.First, hf]
      refine records_clear P _ _ (records_Delete P _ _ ?_)
      split <;> split <;> exact hP
  | getAvatar uuid sizeParam =>
    intro r hr
    have e : (handle lib s (Request.getAvatar uuid sizeParam)).DB = s.DB :=
      renderWith_DB "avatar:" "_avatar_" avatarImage defaultAvatarImage lib s uuid sizeParam
    rw [e] at hr
    exact hP r hr
  | getHead uuid sizeParam =>
    intro r hr
    have e : (handle lib s (Request.getHead uuid sizeParam)).DB = s.DB :=
      renderWith_DB "head:" "_head_" headImage defaultHeadImage lib s uuid sizeParam
    rw [e] at hr
    exact hP r hr

theorem run_records (P : UserSkin → Prop) (lib : Lib)
    (hstep : ∀ (s : SkinCapeService) (req : Request), (∀ r ∈ s.DB, P r) →
      ∀ r ∈ (handle lib s req).DB, P r) :
    ∀ (reqs : List Request) (s : SkinCapeService), (∀ r ∈ s.DB, P r) →
      ∀ r ∈ (run lib s reqs).DB, P r := by
  intro reqs
  induction reqs with
  | nil => intro s hP; exact hP
  | cons req reqs ih =>
    intro s hP
    exact ih (handle lib s req) (hstep s req hP)

theorem run_writtenByService (lib : Lib) (s0 : SkinCapeService) (reqs : List Request)
    (h0 : s0.DB = []) :
    WrittenByService (run lib s0 reqs) ∧ CapeWrittenByService (run lib s0 reqs) := by
  have hempty : ∀ (P : UserSkin → Prop), ∀ r ∈ s0.DB, P r := by
    intro P r hr
    rw [h0] at hr
    cases hr
  refine ⟨?_, ?_⟩
  · refine run_records
      (fun r => r.SkinURL = "" ∨ r.SkinURL = "/storage/skins/" ++ r.UserUUID ++ "_skin.png") lib
      (handle_records _ lib ?_ ?_ ?_ ?_ ?_ ?_) reqs s0 (hempty _)
    · intro r h b _
      exact Or.inr (String.append_assoc _ _ _).symm
    · intro id u h b
      exact Or.inr (String.append_assoc _ _ _).symm
    · intro r h hr
      exact hr
    · intro id u h
      exact Or.inl rfl
    · intro r _
      exact Or.inl rfl
    · intro r hr
      exact hr
  · refine run_records
      (fun r => r.CapeURL = "" ∨ r.CapeURL = "/storage/capes/" ++ r.UserUUID ++ "_cape.png") lib
      (handle_records _ lib ?_ ?_ ?_ ?_ ?_ ?_) reqs s0 (hempty _)
    · intro r h b hr
      exact hr
    · intro id u h b
      exact Or.inl rfl
    · intro r h _
      exact Or.inr (String.append_assoc _ _ _).symm
    · intro id u h
      exact Or.inr (String.append_assoc _ _ _).symm
    · intro r hr
      exact hr
    · intro r _
      exact Or.inl rfl

end SkinsCapes
